import Mathlib

/-!
# HelenaSystems: session layer (`NetworkManager`)

A shallow embedding of `src/NetworkManager/NetworkManager.hpp` and
`src/NetworkManager/NetworkManager.ipp`.

Conventions of the embedding

* A `std::int64_t` is an `Int`; the conversions the C++ performs when it mixes
  signed and unsigned 64-bit operands are written out with `toU64` and `toI64`.
* A pointer to a peer slot is the index of the slot inside `ENetHost.peers`; a null
  pointer is `none`. `peer->data` is the `Session` wired to the slot by `CreateHost`.
* The transport library (ENet) is external. What it is asked to do is recorded, oldest
  call first, in `Network.calls`; what it answers (events, allocation and send results,
  the steady clock) is an explicit argument of the operation that consumes it.
* `Helena::Engine::SignalEvent` appends to `Network.signals`, oldest signal first.
-/

namespace NetworkManager

/-! ## Machine integers -/

/-- Conversion of a signed 64-bit value to `unsigned long long` (reduction modulo 2^64). -/
def toU64 (v : Int) : Nat := (v % ((2 ^ 64 : Nat) : Int)).toNat

/-- Conversion of a 64-bit pattern to `std::int64_t` (two's complement). -/
def toI64 (n : Nat) : Int :=
  if n % 2 ^ 64 < 2 ^ 63 then ((n % 2 ^ 64 : Nat) : Int)
  else ((n % 2 ^ 64 : Nat) : Int) - ((2 ^ 64 : Nat) : Int)

/-- The values a `std::int64_t` can hold. -/
def IsInt64 (v : Int) : Prop := -((2 ^ 63 : Nat) : Int) ≤ v ∧ v < ((2 ^ 63 : Nat) : Int)

instance (v : Int) : Decidable (IsInt64 v) := by
  unfold IsInt64; infer_instance

/-- The expression `key ^ (id + 1uLL)` stored back into a `std::int64_t`. -/
def xorU64 (key : Int) (mask : Nat) : Int := toI64 (toU64 key ^^^ mask)

/-- The first `k` bytes of `n`, least significant first (the object representation of an
integer on a little-endian machine). -/
def leBytes : Nat → Nat → List Nat
  | 0, _ => []
  | k + 1, n => n % 256 :: leBytes k (n / 256)

/-- The number whose little-endian bytes are `bs`. -/
def leValue : List Nat → Nat
  | [] => 0
  | b :: bs => b % 256 + 256 * leValue bs

/-- The eight bytes `reinterpret_cast<const std::uint8_t*>(&crypt)` points at. -/
def int64Bytes (v : Int) : List Nat := leBytes 8 (toU64 v)

/-- The value `*reinterpret_cast<std::int64_t*>(packet->data)` reads. -/
def readInt64 (data : List Nat) : Int := toI64 (leValue (data.take 8))

/-! ## Data model (`NetworkManager.hpp`) -/

inductive EStateConnection where
  | Disconnected
  | Disconnecting
  | Connecting
  | Handshake
  | Connected
deriving DecidableEq, Repr

inductive EStateEvent where
  | Disconnect
  | Timeout
  | Connect
deriving DecidableEq, Repr

inductive EResetConnection where
  | Default
  | Update
  | Force
  | Now
deriving DecidableEq, Repr

inductive EMessage where
  | None
  | Reliable
  | Fragmented
  | Unsequenced
deriving DecidableEq, Repr

/-- The class `Session`. The owned `UserData` object is opaque to the core and is
represented by a tag; `none` is the empty `unique_ptr`. -/
structure Session where
  m_UserData : Option Nat
  m_HandshakeKey : Int
  m_State : EStateConnection
  m_Sequence : Nat
deriving DecidableEq, Repr

/-- The value-initialised `Session` of `new Session[n]{}`. -/
def Session.init : Session :=
  { m_UserData := none, m_HandshakeKey := 0, m_State := EStateConnection.Disconnected,
    m_Sequence := 0 }

/-- The fields of `ENetPacket` the session layer reads and writes; `dataLength` is the
length of `data`. -/
structure ENetPacket where
  flags : Nat
  data : List Nat
deriving DecidableEq, Repr

/-- The fields of a transport peer slot the session layer uses: the value returned by
`enet_peer_get_id`, `eventData`, and the `data` pointer. -/
structure ENetPeer where
  id : Nat
  eventData : Nat
  data : Option Session
deriving DecidableEq, Repr

structure ENetHost where
  peers : List ENetPeer
deriving DecidableEq, Repr

inductive ENetEventType where
  | NONE
  | CONNECT
  | DISCONNECT
  | DISCONNECT_TIMEOUT
  | RECEIVE
deriving DecidableEq, Repr

/-- An `ENetEvent`; `peer` is the index of the slot `event.peer` points at. -/
structure ENetEvent where
  type : ENetEventType
  peer : Nat
  channelID : Nat
  data : Nat
  packet : ENetPacket
deriving DecidableEq, Repr

/-- The class `Connection`: `{m_Net, m_Peer, m_SequenceID}`. `m_Net` holds the id of the
network pointed at. -/
structure Connection where
  m_Net : Option Nat
  m_Peer : Option Nat
  m_SequenceID : Nat
deriving DecidableEq, Repr

/-- The records put on the engine bus (`Events::NetworkManager::Event` and `Message`). -/
inductive Signal where
  | Event (connection : Connection) (data : Nat) (type : EStateEvent)
  | Message (connection : Connection) (data : List Nat) (size : Nat) (type : EMessage)
      (channel : Nat)
deriving DecidableEq, Repr

/-- The transport requests the session layer issues. -/
inductive ENetCall where
  | peer_send (peer : Nat) (channel : Nat) (packet : ENetPacket)
  | peer_reset (peer : Nat)
  | peer_disconnect (peer : Nat) (data : Nat)
  | peer_disconnect_later (peer : Nat) (data : Nat)
  | peer_disconnect_now (peer : Nat) (data : Nat)
  | host_broadcast (channel : Nat) (packet : ENetPacket)
  | host_flush
  | host_destroy
deriving DecidableEq, Repr

/-- The class `Network`, together with the two traces `calls` and `signals`. -/
structure Network where
  m_Host : Option ENetHost
  m_HandshakeList : List Connection
  m_UserData : Option Nat
  m_NetworkID : Nat
  m_Server : Bool
  m_Initialized : Bool
  calls : List ENetCall
  signals : List Signal
deriving DecidableEq, Repr

/-- What the environment answers while one transport event is dispatched: the reading of
`std::chrono::steady_clock` in seconds, whether `enet_packet_create` returns a packet and
whether `enet_peer_send` returns 0. -/
structure Env where
  clock : Int
  packetOk : Bool
  sendOk : Bool
deriving DecidableEq, Repr

/-- Modelled from the spec: the transport's packet flag constants (`enet/enet.h` is not part
of the sources; the spec names a reliable, an unsequenced and an unreliable-fragmented
flag). The values are those of the ENet header. -/
def ENET_PACKET_FLAG_RELIABLE : Nat := 1

/-- Modelled from the spec: see `ENET_PACKET_FLAG_RELIABLE`. -/
def ENET_PACKET_FLAG_UNSEQUENCED : Nat := 2

/-- Modelled from the spec: see `ENET_PACKET_FLAG_RELIABLE`. -/
def ENET_PACKET_FLAG_UNRELIABLE_FRAGMENTED : Nat := 8

/-! ## Access to peer slots -/

/-- The slot `&m_Host->peers[i]`. -/
def Network.peer (net : Network) (i : Nat) : Option ENetPeer :=
  match net.m_Host with
  | none => none
  | some host => host.peers[i]?

/-- The session `static_cast<Session*>(peer->data)` of slot `i`. -/
def Network.session (net : Network) (i : Nat) : Option Session :=
  match net.peer i with
  | none => none
  | some p => p.data

/-- A write through `static_cast<Session*>(peer->data)` of slot `i`. -/
def Network.setSession (net : Network) (i : Nat) (s : Session) : Network :=
  match net.m_Host with
  | none => net
  | some host =>
    match host.peers[i]? with
    | none => net
    | some p => { net with m_Host := some { peers := host.peers.set i { p with data := some s } } }

/-- The function `enet_peer_get_id` applied to slot `i`. -/
def Network.enet_peer_get_id (net : Network) (i : Nat) : Nat :=
  match net.peer i with
  | none => 0
  | some p => p.id

/-- Appends one transport request to the trace. -/
def Network.call (net : Network) (c : ENetCall) : Network :=
  { net with calls := net.calls ++ [c] }

/-- The function `Helena::Engine::SignalEvent`. -/
def Network.SignalEvent (net : Network) (s : Signal) : Network :=
  { net with signals := net.signals ++ [s] }

/-! ## `NetworkManager::Connection` -/

/-- The constructor `Connection(Network* net, ENetPeer* peer)`: the sequence recorded is
`GetSequenceID()`, the current sequence of the slot. -/
def Connection.create (net : Network) (peer : Nat) : Connection :=
  { m_Net := some net.m_NetworkID, m_Peer := some peer,
    m_SequenceID := match net.session peer with
      | none => 0
      | some s => s.m_Sequence }

def Connection.Valid (net : Network) (c : Connection) : Bool :=
  match c.m_Net, c.m_Peer with
  | some _, some i =>
    match net.session i with
    | some s => c.m_SequenceID == s.m_Sequence
    | none => false
  | _, _ => false

def Connection.GetID (net : Network) (c : Connection) : Nat :=
  match c.m_Peer with
  | none => 0
  | some i => net.enet_peer_get_id i

def Connection.GetState (net : Network) (c : Connection) : Option EStateConnection :=
  match c.m_Peer with
  | none => none
  | some i => (net.session i).map (fun s => s.m_State)

/-- The switch from `EMessage` to packet flags shared by `Send` and `Broadcast`. -/
def packetFlags : EMessage → Nat
  | EMessage.None => 0
  | EMessage.Reliable => ENET_PACKET_FLAG_RELIABLE
  | EMessage.Fragmented => ENET_PACKET_FLAG_UNRELIABLE_FRAGMENTED
  | EMessage.Unsequenced => ENET_PACKET_FLAG_UNSEQUENCED

/-- The method `Connection::Send`; `mallocOk` says whether `enet_malloc` returns memory. -/
def Connection.Send (net : Network) (c : Connection) (type : EMessage) (channel : Nat)
    (data : List Nat) (size : Nat) (mallocOk : Bool) : Network :=
  if c.Valid net then
    match c.m_Peer with
    | none => net
    | some i =>
      match net.session i with
      | none => net
      | some session =>
        if session.m_State ≠ EStateConnection.Connected then net
        else if mallocOk then
          net.call (ENetCall.peer_send i channel { flags := packetFlags type, data := data.take size })
        else net
  else net

/-- The method `Connection::Disconnect`. -/
def Connection.Disconnect (net : Network) (c : Connection) (flag : EResetConnection)
    (data : Nat) : Network :=
  if !c.Valid net then net
  else
    match c.m_Peer with
    | none => net
    | some i =>
      match net.session i with
      | none => net
      | some session =>
        if session.m_State ≠ EStateConnection.Disconnecting ∧
            session.m_State ≠ EStateConnection.Disconnected then
          match flag with
          | EResetConnection.Default =>
            (net.setSession i { session with m_State := EStateConnection.Disconnecting }).call
              (ENetCall.peer_disconnect_later i data)
          | EResetConnection.Update =>
            (net.setSession i { session with m_State := EStateConnection.Disconnecting }).call
              (ENetCall.peer_disconnect i data)
          | EResetConnection.Force =>
            (net.setSession i { session with m_State := EStateConnection.Disconnected }).call
              (ENetCall.peer_reset i)
          | EResetConnection.Now =>
            (net.setSession i { session with m_State := EStateConnection.Disconnecting }).call
              (ENetCall.peer_disconnect_now i data)
        else net

/-- The method `Connection::SetUserData`: the session behind `m_Peer->data` receives the
value; the method does not consult `Valid()`. -/
def Connection.SetUserData (net : Network) (c : Connection) (data : Option Nat) : Network :=
  match c.m_Peer with
  | none => net
  | some i =>
    match net.session i with
    | none => net
    | some session => net.setSession i { session with m_UserData := data }

/-- The method `Connection::GetUserData`; `none` is `nullptr`. -/
def Connection.GetUserData (net : Network) (c : Connection) : Option Nat :=
  if c.Valid net then
    match c.m_Peer with
    | none => none
    | some i =>
      match net.session i with
      | none => none
      | some session => session.m_UserData
  else none

/-! ## `NetworkManager::Network` -/

/-- The static method `Network::Scramble`. Both literals exceed the range of
`long long`, so each `^` is evaluated on `unsigned long long` and the result is converted
back to `std::int64_t`. -/
def Scramble (value : Int) : Int :=
  let out : Int := toI64 (toU64 value ^^^ 0xDEADBEEFC0DECAFE)
  toI64 (toU64 out ^^^ 0xC0DEFACE12345678)

/-- The method `Network::SendHandshake`: the packet carries the bytes of `Scramble(key)`. -/
def Network.SendHandshake (net : Network) (peer : Nat) (key : Int) (env : Env) :
    Bool × Network :=
  let crypt := Scramble key
  let packet : ENetPacket := { flags := ENET_PACKET_FLAG_RELIABLE, data := int64Bytes crypt }
  if !env.packetOk then
    (false, net.call (ENetCall.peer_reset peer))
  else if !env.sendOk then
    (false, (net.call (ENetCall.peer_send peer 0 packet)).call (ENetCall.peer_reset peer))
  else
    (true, net.call (ENetCall.peer_send peer 0 packet))

/-- The method `Network::AddHandshake`. -/
def Network.AddHandshake (net : Network) (peer : Nat) : Network :=
  { net with m_HandshakeList := net.m_HandshakeList ++ [Connection.create net peer] }

/-- The method `Network::RemoveHandshake`: `std::find_if` on the peer id, then `erase`. -/
def Network.RemoveHandshake (net : Network) (peer : Nat) : Network :=
  let id := net.enet_peer_get_id peer
  { net with
    m_HandshakeList := net.m_HandshakeList.eraseP (fun conn => conn.GetID net == id) }

/-- The receive-side switch on `event.packet->flags`. -/
def messageType (flags : Nat) : EMessage :=
  if flags = 0 then EMessage.None
  else if flags = ENET_PACKET_FLAG_RELIABLE then EMessage.Reliable
  else if flags = ENET_PACKET_FLAG_UNRELIABLE_FRAGMENTED then EMessage.Fragmented
  else if flags = ENET_PACKET_FLAG_UNSEQUENCED then EMessage.Unsequenced
  else EMessage.Reliable

/-- The case `ENET_EVENT_TYPE_CONNECT` of the switch in `Network::Update`. The key is the
clock reading plus `timeoutHandshake = 2`, stored in a `std::int64_t` (hence reduced to 64
bits here). -/
def Network.onConnect (net : Network) (event : ENetEvent) (env : Env) : Network :=
  match net.session event.peer with
  | none => net
  | some session =>
    let session := { session with m_State := EStateConnection.Handshake }
    if net.m_Server then
      let session := { session with
        m_Sequence := (session.m_Sequence + 1) % 256
        m_UserData := none
        m_HandshakeKey := toI64 (toU64 (env.clock + 2)) }
      let net := net.setSession event.peer session
      let sent := net.SendHandshake event.peer (Scramble session.m_HandshakeKey) env
      if sent.1 then sent.2.AddHandshake event.peer else sent.2
    else net.setSession event.peer session

/-- The cases `ENET_EVENT_TYPE_DISCONNECT` and `ENET_EVENT_TYPE_DISCONNECT_TIMEOUT`. -/
def Network.onDisconnect (net : Network) (event : ENetEvent) (type : EStateEvent) : Network :=
  let conn := Connection.create net event.peer
  let net := net.SignalEvent (Signal.Event conn event.data type)
  match net.session event.peer with
  | none => net
  | some session =>
    net.setSession event.peer { session with m_State := EStateConnection.Disconnected }

/-- The handshake branch of the case `ENET_EVENT_TYPE_RECEIVE`
(`session->m_State == EStateConnection::Handshake`). -/
def Network.onHandshake (net : Network) (event : ENetEvent) (env : Env) (conn : Connection)
    (session : Session) : Network :=
  if event.packet.data.length ≠ 8 then
    let net := if net.m_Server then net.RemoveHandshake event.peer else net
    net.call (ENetCall.peer_reset event.peer)
  else
    let decrypt := Scramble (readInt64 event.packet.data)
    if net.m_Server then
      let net := net.RemoveHandshake event.peer
      let session := { session with
        m_HandshakeKey := xorU64 session.m_HandshakeKey (conn.GetID net + 1) }
      let net := net.setSession event.peer session
      if session.m_HandshakeKey ≠ decrypt then
        net.call (ENetCall.peer_reset event.peer)
      else
        let sent := net.SendHandshake event.peer (Scramble session.m_HandshakeKey) env
        if !sent.1 then
          sent.2.call (ENetCall.peer_reset event.peer)
        else
          let net := sent.2.setSession event.peer
            { session with m_State := EStateConnection.Connected }
          net.SignalEvent
            (Signal.Event conn (match net.peer event.peer with
              | none => 0
              | some p => p.eventData) EStateEvent.Connect)
    else
      if session.m_HandshakeKey = 0 then
        let session := { session with
          m_HandshakeKey := xorU64 decrypt (conn.GetID net + 1) }
        let net := net.setSession event.peer session
        (net.SendHandshake event.peer (Scramble session.m_HandshakeKey) env).2
      else if session.m_HandshakeKey = decrypt then
        let net := net.setSession event.peer
          { session with m_State := EStateConnection.Connected }
        net.SignalEvent
          (Signal.Event conn (match net.peer event.peer with
            | none => 0
            | some p => p.eventData) EStateEvent.Connect)
      else
        net.call (ENetCall.peer_reset event.peer)

/-- The case `ENET_EVENT_TYPE_RECEIVE` of the switch in `Network::Update`. -/
def Network.onReceive (net : Network) (event : ENetEvent) (env : Env) : Network :=
  let conn := Connection.create net event.peer
  match net.session event.peer with
  | none => net
  | some session =>
    if session.m_State = EStateConnection.Handshake then
      net.onHandshake event env conn session
    else
      net.SignalEvent (Signal.Message conn event.packet.data event.packet.data.length
        (messageType event.packet.flags) event.channelID)

/-- The switch on `event.type` in `Network::Update`. -/
def Network.dispatch (net : Network) (event : ENetEvent) (env : Env) : Network :=
  match event.type with
  | ENetEventType.NONE => net
  | ENetEventType.CONNECT => net.onConnect event env
  | ENetEventType.DISCONNECT => net.onDisconnect event EStateEvent.Disconnect
  | ENetEventType.DISCONNECT_TIMEOUT => net.onDisconnect event EStateEvent.Timeout
  | ENetEventType.RECEIVE => net.onReceive event env

/-- The `while(true)` loop of `Network::Update`. `pending` lists the events for which
`enet_host_check_events` or `enet_host_service` will return a positive value, in the order
the transport yields them; when it is exhausted both return a value `<= 0` and the loop
breaks. -/
def Network.drain (net : Network) : List (ENetEvent × Env) → Nat → Network
  | [], _ => net
  | (event, env) :: rest, eventsLimit =>
    let net := net.dispatch event env
    if event.type ≠ ENetEventType.NONE ∧ eventsLimit ≠ 0 then
      if eventsLimit - 1 = 0 then net else net.drain rest (eventsLimit - 1)
    else net.drain rest eventsLimit

/-- The block after the loop of `Network::Update`: the head of the handshake list is
erased, and its peer reset, when `timenow >= session->m_HandshakeKey`. -/
def Network.checkHandshake (net : Network) (timenow : Int) : Network :=
  match net.m_HandshakeList with
  | [] => net
  | connection :: rest =>
    match connection.m_Peer with
    | none => net
    | some i =>
      match net.session i with
      | none => net
      | some session =>
        if timenow ≥ session.m_HandshakeKey then
          ({ net with m_HandshakeList := rest }).call (ENetCall.peer_reset i)
        else net

/-- The method `Network::Update(timeout, eventsLimit)`; `timenow` is the clock reading of
the block after the loop. The `timeout` only bounds how long `enet_host_service` may
block. -/
def Network.Update (net : Network) (pending : List (ENetEvent × Env)) (timeout : Nat)
    (eventsLimit : Nat) (timenow : Int) : Network :=
  (net.drain pending eventsLimit).checkHandshake timenow

/-- The fields of the class `Config` the session layer passes on. -/
structure Config where
  m_IP : String
  m_Port : Nat
  m_Peers : Nat
  m_Channels : Nat
  m_Data : Nat
  m_BandwidthIn : Nat
  m_BandwidthOut : Nat
  m_BufferSize : Nat
deriving DecidableEq, Repr

/-- What the transport answers while a host is created or a connection is initiated:
whether `enet_address_set_ip` returns 0, the host `enet_host_create` returns (its peer
slots carry a null `data`), and the slot `enet_host_connect` returns. -/
structure HostEnv where
  addressOk : Bool
  host : Option ENetHost
  connect : Option Nat
deriving DecidableEq, Repr

/-- The constructor `Network(std::uint16_t id)`; `enetOk` says whether `enet_initialize`
returns 0. -/
def Network.new (id : Nat) (enetOk : Bool) : Network :=
  { m_Host := none, m_HandshakeList := [], m_UserData := none, m_NetworkID := id,
    m_Server := false, m_Initialized := enetOk, calls := [], signals := [] }

/-- The static method `Network::CreateAddress`. -/
def Network.CreateAddress (env : HostEnv) : Bool := env.addressOk

/-- The static method `Network::CreateHost`: every peer slot of a created host is wired to
its own value-initialised `Session`. -/
def Network.CreateHost (server : Bool) (env : HostEnv) : Option ENetHost :=
  let host : Option ENetHost :=
    if server then (if Network.CreateAddress env then env.host else none) else env.host
  match host with
  | some h => some { peers := h.peers.map (fun p => { p with data := some Session.init }) }
  | none => none

/-- The method `Network::Valid`. -/
def Network.Valid (net : Network) : Bool := net.m_Initialized && net.m_Host.isSome

/-- The method `Network::CreateServer`. -/
def Network.CreateServer (net : Network) (env : HostEnv) : Bool × Network :=
  if !net.m_Initialized then (false, net)
  else if net.m_Host.isSome then (false, net)
  else
    let net := { net with m_Server := true }
    let net := { net with m_Host := Network.CreateHost net.m_Server env }
    (net.m_Host.isSome, net)

/-- The method `Network::CreateClient`. -/
def Network.CreateClient (net : Network) (env : HostEnv) : Bool × Network :=
  if !net.m_Initialized then (false, net)
  else if net.m_Host.isSome && net.m_Server then (false, net)
  else
    let net :=
      if net.m_Host.isNone then
        { net with m_Server := false, m_Host := Network.CreateHost false env }
      else net
    if net.m_Host.isSome then
      if Network.CreateAddress env then
        match env.connect with
        | some peer =>
          match net.session peer with
          | some session =>
            (true, net.setSession peer { session with
              m_State := EStateConnection.Connecting
              m_Sequence := (session.m_Sequence + 1) % 256
              m_UserData := none
              m_HandshakeKey := 0 })
          | none => (false, net)
        | none => (false, net)
      else (false, net)
    else (false, net)

/-! ## Scenario data

Concrete networks and events on which the operations are run. -/

/-- A transport that resolves every address, creates a host with one peer slot per listed
peer id and connects through slot 0. -/
def exampleHostEnv (ids : List Nat) : HostEnv :=
  { addressOk := true
    host := some { peers := ids.map (fun id => { id := id, eventData := 0, data := none }) }
    connect := some 0 }

/-- A server network with two peer slots, as `CreateServer` leaves it. -/
def exampleServer : Network := ((Network.new 0 true).CreateServer (exampleHostEnv [7, 9])).2

/-- A client network with one peer slot, as `CreateClient` leaves it. -/
def exampleClient : Network := ((Network.new 1 true).CreateClient (exampleHostEnv [7])).2

/-- A transport event of the given type for the given slot, carrying `payload`. -/
def mkEvent (type : ENetEventType) (peer : Nat) (payload : List Nat) : ENetEvent :=
  { type := type, peer := peer, channelID := 0, data := 0,
    packet := { flags := ENET_PACKET_FLAG_RELIABLE, data := payload } }

/-- An environment in which packet creation and sending succeed. -/
def okEnv (clock : Int) : Env := { clock := clock, packetOk := true, sendOk := true }

/-- A handle to slot 0 whose recorded sequence is 5. -/
def staleConnection : Connection := { m_Net := some 0, m_Peer := some 0, m_SequenceID := 5 }

/-- The packets handed to `enet_peer_send` for slot `i` among `calls`, oldest first. -/
def sentTo (i : Nat) : List ENetCall → List ENetPacket
  | [] => []
  | ENetCall.peer_send j _ packet :: rest =>
    if j = i then packet :: sentTo i rest else sentTo i rest
  | _ :: rest => sentTo i rest

/-- The transport requests `after` has issued beyond those of `before`. -/
def newCalls (before after : Network) : List ENetCall :=
  after.calls.drop before.calls.length

/-- The arrival of `packets` at slot `i`: one `RECEIVE` event on channel 0 for each. -/
def deliver (i : Nat) (env : Env) (packets : List ENetPacket) : List (ENetEvent × Env) :=
  packets.map (fun packet =>
    ({ type := ENetEventType.RECEIVE, peer := i, channelID := 0, data := 0, packet := packet },
      env))

/-- The honest handshake between slot `sp` of a server network and slot `cp` of a client
network, each side driven by `Update()` with its default arguments: the transport reports
`CONNECT` on both sides, and whatever one side sends to the peer arrives at the other
side, for the three messages of the protocol. The result is the pair of final networks. -/
def handshakeExchange (server client : Network) (sp cp : Nat) (env : Env) :
    Network × Network :=
  let server1 := server.Update [(mkEvent ENetEventType.CONNECT sp [], env)] 0 100 env.clock
  let client1 := client.Update [(mkEvent ENetEventType.CONNECT cp [], env)] 0 100 env.clock
  let client2 :=
    client1.Update (deliver cp env (sentTo sp (newCalls server server1))) 0 100 env.clock
  let server2 :=
    server1.Update (deliver sp env (sentTo cp (newCalls client1 client2))) 0 100 env.clock
  let client3 :=
    client2.Update (deliver cp env (sentTo sp (newCalls server1 server2))) 0 100 env.clock
  (server2, client3)

/-- The handshake keys read through the entries of the handshake list, head first (what
the block after the loop of `Update` would compare with the clock). -/
def Network.queueKeys (net : Network) : List Int :=
  net.m_HandshakeList.filterMap (fun connection =>
    match connection.m_Peer with
    | none => none
    | some i => (net.session i).map (fun session => session.m_HandshakeKey))

/-- The state of a session, for a slot that has one. -/
def Network.state (net : Network) (i : Nat) : Option EStateConnection :=
  (net.session i).map (fun session => session.m_State)

/-- The observations made of the network `out` reached from `net`: the role flag is kept,
slot `i` holds `p`, the signals `sigs` were emitted and the packets `sent` were handed to
the transport for slot `i`. -/
def Reaches (net out : Network) (i : Nat) (p : ENetPeer) (sigs : List Signal)
    (sent : List ENetPacket) : Prop :=
  out.m_Server = net.m_Server ∧ out.m_NetworkID = net.m_NetworkID ∧ out.peer i = some p ∧
    out.signals = net.signals ++ sigs ∧ sentTo i (newCalls net out) = sent

/-- The example server after the transport reported `CONNECT` for slot 0 at second 100:
slot 0 is in `Handshake` with key 102 and is the only entry of the handshake list. -/
def handshakingServer : Network :=
  exampleServer.Update [(mkEvent ENetEventType.CONNECT 0 [], okEnv 100)] 0 100 100

/-- The example client after the transport reported `CONNECT` for slot 0. -/
def handshakingClient : Network :=
  exampleClient.Update [(mkEvent ENetEventType.CONNECT 0 [], okEnv 100)] 0 100 100

/-- The server of `handshakingServer` after the peer of slot 0 went away and a new peer
was accepted into the same slot, all within second 100: `DISCONNECT` for slot 0, then
`CONNECT` for slot 0. -/
def reconnectedServer : Network :=
  handshakingServer.Update
    [(mkEvent ENetEventType.DISCONNECT 0 [], okEnv 100),
     (mkEvent ENetEventType.CONNECT 0 [], okEnv 100)] 0 100 100

/-- The example server after `CONNECT` for slots 0 and 1 at second 100 and, at second 101,
`DISCONNECT` for slot 0 followed by `CONNECT` for slot 0. -/
def reorderedServer : Network :=
  (exampleServer.Update
    [(mkEvent ENetEventType.CONNECT 0 [], okEnv 100),
     (mkEvent ENetEventType.CONNECT 1 [], okEnv 100)] 0 100 100).Update
    [(mkEvent ENetEventType.DISCONNECT 0 [], okEnv 101),
     (mkEvent ENetEventType.CONNECT 0 [], okEnv 101)] 0 100 101

/-! ## `Broadcast` and the class `NetworkManager` -/

/-- The method `Network::Broadcast`; `mallocOk` says whether `enet_malloc` returns memory. -/
def Network.Broadcast (net : Network) (type : EMessage) (channel : Nat) (data : List Nat)
    (size : Nat) (mallocOk : Bool) : Network :=
  if net.Valid then
    if mallocOk then
      net.call (ENetCall.host_broadcast channel ⟨packetFlags type, data.take size⟩)
    else net
  else net

/-- The method `Network::GetID`. -/
def Network.GetID (net : Network) : Nat := net.m_NetworkID

/-- The class `NetworkManager`: the list of networks and the 16-bit counter
`m_NetworkSequenceID`. -/
structure Manager where
  m_Networks : List Network
  m_NetworkSequenceID : Nat
  m_Initialized : Bool
deriving DecidableEq, Repr

/-- The constructor `NetworkManager()`. -/
def Manager.new : Manager :=
  { m_Networks := [], m_NetworkSequenceID := 0, m_Initialized := false }

/-- The method `NetworkManager::CreateNetwork`:
`m_Networks.emplace_back(m_NetworkSequenceID++)` on a `std::uint16_t` counter. The result is
the network created and the manager afterwards; `enetOk` is the answer of
`enet_initialize` to the constructor of the network. -/
def Manager.CreateNetwork (m : Manager) (enetOk : Bool) : Network × Manager :=
  let net := Network.new m.m_NetworkSequenceID enetOk
  (net, { m with
    m_Networks := m.m_Networks ++ [net]
    m_NetworkSequenceID := (m.m_NetworkSequenceID + 1) % 65536 })

/-- The method `NetworkManager::RemoveNetwork`: `std::find_if` on the id, then `erase`. -/
def Manager.RemoveNetwork (m : Manager) (id : Nat) : Manager :=
  { m with m_Networks := m.m_Networks.eraseP (fun net => net.GetID == id) }

/-- The method `NetworkManager::GetNetwork`; `none` is `nullptr`. -/
def Manager.GetNetwork (m : Manager) (id : Nat) : Option Network :=
  m.m_Networks.find? (fun net => net.GetID == id)

/-- The method `NetworkManager::Count`. -/
def Manager.Count (m : Manager) : Nat := m.m_Networks.length

/-- A call of `CreateNetwork` or of `RemoveNetwork`. -/
inductive ManagerCall where
  | CreateNetwork (enetOk : Bool)
  | RemoveNetwork (id : Nat)
deriving DecidableEq, Repr

/-- The manager after the calls, made in order. -/
def Manager.run (m : Manager) : List ManagerCall → Manager
  | [] => m
  | ManagerCall.CreateNetwork enetOk :: rest => (m.CreateNetwork enetOk).2.run rest
  | ManagerCall.RemoveNetwork id :: rest => (m.RemoveNetwork id).run rest

/-- The ids of the networks the `CreateNetwork` calls among `calls` return, in order. -/
def Manager.createdIDs (m : Manager) : List ManagerCall → List Nat
  | [] => []
  | ManagerCall.CreateNetwork enetOk :: rest =>
    (m.CreateNetwork enetOk).1.GetID :: (m.CreateNetwork enetOk).2.createdIDs rest
  | ManagerCall.RemoveNetwork id :: rest => (m.RemoveNetwork id).createdIDs rest

/-- The number of `CreateNetwork` calls among `calls`. -/
def creations : List ManagerCall → Nat
  | [] => 0
  | ManagerCall.CreateNetwork _ :: rest => creations rest + 1
  | ManagerCall.RemoveNetwork _ :: rest => creations rest

/-- The calls `CreateNetwork(); RemoveNetwork(k)` for `k = first, ..., first + n - 1`. -/
def createAndRemove (first : Nat) : Nat → List ManagerCall
  | 0 => []
  | n + 1 =>
    ManagerCall.CreateNetwork true :: ManagerCall.RemoveNetwork first ::
      createAndRemove (first + 1) n

/-- A network is created and kept, 65535 further networks are created and removed one
after the other, and one more network is created. -/
def wrappingCalls : List ManagerCall :=
  ManagerCall.CreateNetwork true :: (createAndRemove 1 65535 ++ [ManagerCall.CreateNetwork true])

/-- The example server once slot 0 has completed the handshake (peer id 7, `CONNECT` at
second 100, then the expected echo). -/
def connectedServer : Network :=
  handshakingServer.Update
    [(mkEvent ENetEventType.RECEIVE 0 (int64Bytes (Scramble 110)), okEnv 100)] 0 100 100

/-- The handle `Connection{net, peer}` to slot 0 of `connectedServer`. -/
def connectedHandle : Connection := Connection.create connectedServer 0

/-! ## `Shutdown`, the events one `Update` takes, slot reuse -/

/-- The method `Network::Shutdown`. The `delete[]` of the session array releases memory and
leaves no trace in this model; no statement of the body assigns `m_Host`, so the pointer
keeps its value. -/
def Network.Shutdown (net : Network) : Network :=
  if net.Valid then (net.call ENetCall.host_flush).call ENetCall.host_destroy else net

/-- The events the `while(true)` loop of `Network::Update` takes from `pending` before it
breaks, in the order it takes them: the control flow of `Network.drain` on its own. -/
def taken : List (ENetEvent × Env) → Nat → List (ENetEvent × Env)
  | [], _ => []
  | (event, env) :: rest, eventsLimit =>
    if event.type ≠ ENetEventType.NONE ∧ eventsLimit ≠ 0 then
      if eventsLimit - 1 = 0 then [(event, env)]
      else (event, env) :: taken rest (eventsLimit - 1)
    else (event, env) :: taken rest eventsLimit

/-- The events of `events` the limit counts (`event.type != ENET_EVENT_TYPE_NONE`). -/
def counted (events : List (ENetEvent × Env)) : List (ENetEvent × Env) :=
  events.filter (fun p => decide (p.1.type ≠ ENetEventType.NONE))

/-- The network after the switch of `Network::Update` has run on each of `events`, in
order. -/
def Network.dispatchAll (net : Network) (events : List (ENetEvent × Env)) : Network :=
  events.foldl (fun net p => net.dispatch p.1 p.2) net

/-- The stream in which the transport reports `CONNECT` for slot `i` once for each element
of `envs`: the slot is reused `envs.length` times. -/
def reuses (i : Nat) (envs : List Env) : List (ENetEvent × Env) :=
  envs.map (fun env => (mkEvent ENetEventType.CONNECT i [], env))

/-- The server of `reconnectedServer` once the peer now in slot 0 has sent the expected
echo: the handshake of slot 0 is complete. -/
def lateServer : Network :=
  reconnectedServer.Update
    [(mkEvent ENetEventType.RECEIVE 0 (int64Bytes (Scramble 110)), okEnv 100)] 0 100 100

/-- The server of `handshakingServer` after a 3-byte packet arrived from slot 0. -/
def rejectedServer : Network :=
  handshakingServer.Update [(mkEvent ENetEventType.RECEIVE 0 [1, 2, 3], okEnv 100)] 0 100 100

/-- A stream of four events for slots 0 and 1 of the example server; the second one has
type `ENET_EVENT_TYPE_NONE`. -/
def limitedStream : List (ENetEvent × Env) :=
  [(mkEvent ENetEventType.CONNECT 0 [], okEnv 100),
   (mkEvent ENetEventType.NONE 0 [], okEnv 100),
   (mkEvent ENetEventType.CONNECT 1 [], okEnv 100),
   (mkEvent ENetEventType.DISCONNECT 0 [], okEnv 100)]

/-- The network after `CreateClient` was called once for each element of `envs`, in
order. -/
def Network.connects (net : Network) (envs : List HostEnv) : Network :=
  envs.foldl (fun net env => (net.CreateClient env).2) net

end NetworkManager

/-!
# HelenaSystems: entity-component store (`ECSManager`)

A shallow embedding of `src/ECSManager/ECSManager.hpp` and `src/ECSManager/ECSManager.ipp`.

Conventions of the embedding

* A component type is the natural number that identifies it; component values are not
  represented.
* The registry (`entt::registry`) is a third-party library and is modelled from the spec.
* `Helena::Engine::SignalEvent` appends to `Manager.signals`, oldest signal first. Handlers
  run synchronously inside the emitter, so each signal is recorded together with the
  registry as it is when the signal is emitted.
* A failed `HELENA_ASSERT` aborts the operation: the result is `none`.
-/

namespace ECSManager

/-- Modelled from the spec: the width in bits of the generation counter of an entity
identifier. The spec makes the identifier a 32-bit value split into index bits and
generation bits and does not give the split; 12 is the width the registry library uses for
32-bit identifiers (with 20 index bits). -/
def generationBits : Nat := 12

/-- Modelled from the spec: the entity identifier of the registry (`entt::entity`), a 32-bit
value split into an index and a generation counter. The two parts are kept apart here; the
generation of an entity of the registry is below `2 ^ generationBits`, and what the
registry does once the index bits are used up is not described by the spec. -/
structure Entity where
  index : Nat
  generation : Nat
deriving DecidableEq, Repr

/-- Modelled from the spec: the registry (`entt::registry`, absent from the sources). For
each index the current generation and whether the index is live; the indices free for
reuse, the most recently freed first; and the component pools, as the pairs of a component
type and an entity index, in insertion order. -/
structure Registry where
  slots : List (Nat × Bool)
  free : List Nat
  components : List (Nat × Nat)
deriving DecidableEq, Repr

/-- Modelled from the spec: the registry of a new store (absent from the sources). -/
def Registry.empty : Registry := { slots := [], free := [], components := [] }

/-- Modelled from the spec: `valid(e)` of the registry (absent from the sources): an entity
is valid iff its index is live and its generation matches the current generation at that
index. -/
def Registry.valid (r : Registry) (e : Entity) : Bool :=
  match r.slots[e.index]? with
  | some (generation, true) => generation == e.generation
  | _ => false

/-- Modelled from the spec: `create()` of the registry (absent from the sources): a fresh
valid entity, on a reused index (whose generation was bumped when it was freed) when there
is one. -/
def Registry.create (r : Registry) : Entity × Registry :=
  match r.free with
  | i :: rest =>
    match r.slots[i]? with
    | some (generation, _) =>
      (⟨i, generation⟩, { r with slots := r.slots.set i (generation, true), free := rest })
    | none => (⟨r.slots.length, 0⟩, { r with slots := r.slots ++ [(0, true)], free := rest })
  | [] => (⟨r.slots.length, 0⟩, { r with slots := r.slots ++ [(0, true)] })

/-- Modelled from the spec: `all_of<T...>(e)` of the registry (absent from the sources):
the pool of every listed type, keyed by entity index, holds the entity. -/
def Registry.all_of (r : Registry) (types : List Nat) (e : Entity) : Bool :=
  types.all (fun type => r.components.contains (type, e.index))

/-- Modelled from the spec: `emplace<T>(e)` of the registry (absent from the sources):
the component is constructed in the pool of `T`. -/
def Registry.emplace (r : Registry) (type : Nat) (e : Entity) : Registry :=
  { r with components := r.components ++ [(type, e.index)] }

/-- Modelled from the spec: `remove<T>(e)` of the registry (absent from the sources): the
component is erased from the pool of `T`. -/
def Registry.remove (r : Registry) (type : Nat) (e : Entity) : Registry :=
  { r with components := r.components.filter (fun c => c != (type, e.index)) }

/-- Modelled from the spec: `destroy(e)` of the registry (absent from the sources): all
components of the entity are removed, the slot is freed and its generation bumped; the
counter has `generationBits` bits, so the bump of the last generation gives 0. -/
def Registry.destroy (r : Registry) (e : Entity) : Registry :=
  { slots := r.slots.set e.index ((e.generation + 1) % 2 ^ generationBits, false)
    free := e.index :: r.free
    components := r.components.filter (fun c => c.2 != e.index) }

/-- The records put on the engine bus (`Events::ECSManager::CreateEntity`, `RemoveEntity`,
`AddComponent<Component>` and `RemoveComponent<Component>`). -/
inductive Signal where
  | CreateEntity (entity : Entity)
  | RemoveEntity (entity : Entity)
  | AddComponent (component : Nat) (entity : Entity)
  | RemoveComponent (component : Nat) (entity : Entity)
deriving DecidableEq, Repr

/-- The class `ECSManager`: the map `m_TypeSequence` (its entries in insertion order) and
the registry, together with the trace of signals. -/
structure Manager where
  m_TypeSequence : List (Nat × Nat)
  m_Registry : Registry
  signals : List (Signal × Registry)
deriving DecidableEq, Repr

/-- The constructor `ECSManager()`. -/
def Manager.new : Manager :=
  { m_TypeSequence := [], m_Registry := Registry.empty, signals := [] }

/-- The function `Helena::Engine::SignalEvent`: the signal is recorded with the registry
its handlers can query. -/
def Manager.SignalEvent (m : Manager) (s : Signal) : Manager :=
  { m with signals := m.signals ++ [(s, m.m_Registry)] }

/-- The method `ECSManager::CreateEntity()`. -/
def Manager.CreateEntity (m : Manager) : Entity × Manager :=
  let created := m.m_Registry.create
  (created.1, ({ m with m_Registry := created.2 }).SignalEvent (Signal.CreateEntity created.1))

/-- The method `ECSManager::HasEntity`. -/
def Manager.HasEntity (m : Manager) (id : Entity) : Bool := m.m_Registry.valid id

/-- The method `ECSManager::RemoveEntity(const Entity id)`. -/
def Manager.RemoveEntity (m : Manager) (id : Entity) : Option Manager :=
  if m.HasEntity id then
    let m := m.SignalEvent (Signal.RemoveEntity id)
    some { m with m_Registry := m.m_Registry.destroy id }
  else none

/-- The method `ECSManager::HasComponent<Components...>`; an empty pack is rejected by the
`static_assert`. -/
def Manager.HasComponent (m : Manager) (components : List Nat) (id : Entity) : Option Bool :=
  if components.isEmpty then none
  else if m.HasEntity id then some (m.m_Registry.all_of components id)
  else none

/-- The method `ECSManager::AddComponent<Component>`. -/
def Manager.AddComponent (m : Manager) (component : Nat) (id : Entity) : Option Manager :=
  if m.HasEntity id then
    match m.HasComponent [component] id with
    | some false =>
      let m := { m with m_Registry := m.m_Registry.emplace component id }
      some (m.SignalEvent (Signal.AddComponent component id))
    | _ => none
  else none

/-- The branch `sizeof...(Components) == 1` of `ECSManager::RemoveComponent`. -/
def Manager.RemoveComponentOne (m : Manager) (component : Nat) (id : Entity) :
    Option Manager :=
  if m.HasEntity id then
    match m.HasComponent [component] id with
    | some true =>
      let m := m.SignalEvent (Signal.RemoveComponent component id)
      some { m with m_Registry := m.m_Registry.remove component id }
    | _ => none
  else none

/-- The method `ECSManager::RemoveComponent<Components...>(const Entity id)`: a pack of one
type takes the branch above, a longer pack is the fold
`(RemoveComponent<Components>(id), ...)`; an empty pack is rejected by the
`static_assert`. -/
def Manager.RemoveComponent (m : Manager) (components : List Nat) (id : Entity) :
    Option Manager :=
  match components with
  | [] => none
  | [component] => m.RemoveComponentOne component id
  | _ =>
    if m.HasEntity id then
      components.foldlM (fun (m : Manager) component => m.RemoveComponentOne component id) m
    else none

/-! ## Scenario data -/

/-- The store after `n` rounds of `CreateEntity()` followed by `RemoveEntity` of the entity
just created, starting from a new store. -/
def recycled : Nat → Option Manager
  | 0 => some Manager.new
  | n + 1 => (recycled n).bind (fun m => m.CreateEntity.2.RemoveEntity m.CreateEntity.1)

/-- The entity created first in a new store. -/
def exampleEntity : Entity := Manager.new.CreateEntity.1

/-- A store with one entity, `exampleEntity`, which holds the components 5 and 6. -/
def exampleStore : Manager :=
  ((Manager.new.CreateEntity.2.AddComponent 5 exampleEntity).bind
    (fun m => m.AddComponent 6 exampleEntity)).getD Manager.new

/-! ## Views and bulk removal -/

/-- Modelled from the spec: `view<T>()` of the registry (absent from the sources): the
entities that hold a component of the type, each with the current generation of its index,
in the order of the pool. -/
def Registry.view (r : Registry) (type : Nat) : List Entity :=
  (r.components.filter (fun c => c.1 == type)).map (fun c =>
    ⟨c.2, match r.slots[c.2]? with
      | some (generation, _) => generation
      | none => 0⟩)

/-- Modelled from the spec: `size<T>()` of the registry (absent from the sources): the
number of components in the pool of the type. -/
def Registry.size (r : Registry) (type : Nat) : Nat :=
  (r.components.filter (fun c => c.1 == type)).length

/-- The method `ECSManager::RemoveComponent<Components...>(It first, It last)`, on the
entities `ids` of the range; an empty pack is rejected by the `static_assert`. -/
def Manager.RemoveComponentRange (m : Manager) (components : List Nat) (ids : List Entity) :
    Option Manager :=
  if components.isEmpty then none
  else ids.foldlM (fun (m : Manager) id => m.RemoveComponent components id) m

/-- The method `ECSManager::ClearComponent<Components...>()`. A pack of one type removes
the component from every entity of the view of that type. For a longer pack the statement
is `(ClearComponent<Components>, ...);`: the instantiations are named and not called, so
the store is left as it is. An empty pack is rejected by the `static_assert`. -/
def Manager.ClearComponent (m : Manager) (components : List Nat) : Option Manager :=
  match components with
  | [] => none
  | [component] => m.RemoveComponentRange [component] (m.m_Registry.view component)
  | _ => some m

/-- The method `ECSManager::SizeComponent<Component>()`. -/
def Manager.SizeComponent (m : Manager) (component : Nat) : Nat :=
  m.m_Registry.size component

/-- The `RemoveComponent` signals among the signals of the store, oldest first. -/
def Manager.removals (m : Manager) : List (Nat × Entity) :=
  m.signals.filterMap (fun s =>
    match s.1 with
    | Signal.RemoveComponent component entity => some (component, entity)
    | _ => none)

end ECSManager

namespace NetworkManager

/-! ## Arithmetic of 64-bit values -/

theorem toU64_lt (v : Int) : toU64 v < 2 ^ 64 := by
  unfold toU64; omega

theorem toU64_toI64 (n : Nat) : toU64 (toI64 n) = n % 2 ^ 64 := by
  unfold toU64 toI64; split <;> omega

theorem toI64_toU64 (v : Int) (h : IsInt64 v) : toI64 (toU64 v) = v := by
  unfold IsInt64 at h
  unfold toU64 toI64; split <;> omega

theorem toI64_isInt64 (n : Nat) : IsInt64 (toI64 n) := by
  unfold IsInt64 toI64; split <;> omega

theorem toI64_injOn (a b : Nat) (ha : a < 2 ^ 64) (hb : b < 2 ^ 64)
    (h : toI64 a = toI64 b) : a = b := by
  have h1 := toU64_toI64 a
  have h2 := toU64_toI64 b
  rw [h] at h1
  omega

theorem Scramble_isInt64 (v : Int) : IsInt64 (Scramble v) := by
  unfold Scramble; exact toI64_isInt64 _

theorem xorU64_isInt64 (k : Int) (m : Nat) : IsInt64 (xorU64 k m) := by
  unfold xorU64; exact toI64_isInt64 _

theorem Scramble_Scramble (x : Int) (h : IsInt64 x) : Scramble (Scramble x) = x := by
  have hu := toU64_lt x
  have hA : toU64 x ^^^ 0xDEADBEEFC0DECAFE < 2 ^ 64 := Nat.xor_lt_two_pow hu (by norm_num)
  have hB : (toU64 x ^^^ 0xDEADBEEFC0DECAFE) ^^^ 0xC0DEFACE12345678 < 2 ^ 64 :=
    Nat.xor_lt_two_pow hA (by norm_num)
  have hC : ((toU64 x ^^^ 0xDEADBEEFC0DECAFE) ^^^ 0xC0DEFACE12345678) ^^^ 0xDEADBEEFC0DECAFE
      < 2 ^ 64 := Nat.xor_lt_two_pow hB (by norm_num)
  simp only [Scramble, toU64_toI64, Nat.mod_eq_of_lt hA, Nat.mod_eq_of_lt hB,
    Nat.mod_eq_of_lt hC]
  have e : (((toU64 x ^^^ 0xDEADBEEFC0DECAFE) ^^^ 0xC0DEFACE12345678) ^^^ 0xDEADBEEFC0DECAFE)
      ^^^ 0xC0DEFACE12345678 = toU64 x := by
    have c : 16045690984333232894 ^^^ (13897821263087556216 ^^^
        (16045690984333232894 ^^^ 13897821263087556216)) = 0 := by decide
    rw [Nat.xor_assoc, Nat.xor_assoc, Nat.xor_assoc, c, Nat.xor_zero]
  rw [e]; exact toI64_toU64 x h


theorem leBytes_length (k n : Nat) : (leBytes k n).length = k := by
  induction k generalizing n with
  | zero => rfl
  | succ k ih => simp [leBytes, ih]

theorem leValue_leBytes (k n : Nat) : leValue (leBytes k n) = n % 256 ^ k := by
  induction k generalizing n with
  | zero => simp [leBytes, leValue, Nat.mod_one]
  | succ k ih =>
    simp only [leBytes, leValue, ih, Nat.mod_mod]
    rw [pow_succ, Nat.mul_comm (256 ^ k) 256, Nat.mod_mul]

theorem int64Bytes_length (v : Int) : (int64Bytes v).length = 8 := leBytes_length 8 _

theorem readInt64_int64Bytes (v : Int) (h : IsInt64 v) : readInt64 (int64Bytes v) = v := by
  unfold readInt64
  rw [List.take_of_length_le (by rw [int64Bytes_length])]
  unfold int64Bytes
  rw [leValue_leBytes]
  have : toU64 v % 256 ^ 8 = toU64 v := Nat.mod_eq_of_lt (by have := toU64_lt v; norm_num at this ⊢; exact this)
  rw [this]
  exact toI64_toU64 v h

theorem Scramble_xorU64_Scramble (k : Int) (m : Nat) (hm : m < 2 ^ 64) :
    Scramble (xorU64 (Scramble k) m) = xorU64 k m := by
  have hu := toU64_lt k
  have hA : toU64 k ^^^ 0xDEADBEEFC0DECAFE < 2 ^ 64 := Nat.xor_lt_two_pow hu (by norm_num)
  have hB : (toU64 k ^^^ 0xDEADBEEFC0DECAFE) ^^^ 0xC0DEFACE12345678 < 2 ^ 64 :=
    Nat.xor_lt_two_pow hA (by norm_num)
  have hC : ((toU64 k ^^^ 0xDEADBEEFC0DECAFE) ^^^ 0xC0DEFACE12345678) ^^^ m < 2 ^ 64 :=
    Nat.xor_lt_two_pow hB hm
  have hD : (((toU64 k ^^^ 0xDEADBEEFC0DECAFE) ^^^ 0xC0DEFACE12345678) ^^^ m) ^^^ 0xDEADBEEFC0DECAFE < 2 ^ 64 :=
    Nat.xor_lt_two_pow hC (by norm_num)
  simp only [Scramble, xorU64, toU64_toI64, Nat.mod_eq_of_lt hA, Nat.mod_eq_of_lt hB,
    Nat.mod_eq_of_lt hC, Nat.mod_eq_of_lt hD]
  congr 1
  have e : ∀ u a b : Nat, u ^^^ a ^^^ b ^^^ m ^^^ a ^^^ b = (u ^^^ m) ^^^ ((a ^^^ a) ^^^ (b ^^^ b)) := by
    intro u a b; ac_rfl
  rw [e, Nat.xor_self, Nat.xor_self, Nat.xor_zero, Nat.xor_zero]

theorem xorU64_Scramble (k : Int) (m : Nat) (hk : IsInt64 k) (hm : m < 2 ^ 64) :
    xorU64 (Scramble k) m = Scramble (xorU64 k m) := by
  rw [← Scramble_xorU64_Scramble (Scramble k) m hm, Scramble_Scramble k hk]

theorem xorU64_inj (k : Int) (a b : Nat) (ha : a < 2 ^ 64) (hb : b < 2 ^ 64)
    (h : xorU64 k a = xorU64 k b) : a = b := by
  unfold xorU64 at h
  have hu := toU64_lt k
  have := toI64_injOn _ _ (Nat.xor_lt_two_pow hu ha) (Nat.xor_lt_two_pow hu hb) h
  exact Nat.xor_right_injective this

/-! ## Reading and writing peer slots -/

@[simp] theorem peer_call (net : Network) (c : ENetCall) (j : Nat) :
    (net.call c).peer j = net.peer j := rfl

@[simp] theorem peer_SignalEvent (net : Network) (sg : Signal) (j : Nat) :
    (net.SignalEvent sg).peer j = net.peer j := rfl

@[simp] theorem peer_AddHandshake (net : Network) (i j : Nat) :
    (net.AddHandshake i).peer j = net.peer j := rfl

@[simp] theorem peer_RemoveHandshake (net : Network) (i j : Nat) :
    (net.RemoveHandshake i).peer j = net.peer j := rfl

theorem peer_setSession (net : Network) (i j : Nat) (s : Session) :
    (net.setSession i s).peer j =
      if j = i then (net.peer i).map (fun p => { p with data := some s }) else net.peer j := by
  unfold Network.setSession Network.peer
  cases hh : net.m_Host with
  | none => simp [hh]
  | some host =>
    simp only
    cases hp : host.peers[i]? with
    | none =>
      simp only [hh]
      split
      · next h => subst h; simp [hp]
      · rfl
    | some p =>
      simp only [List.getElem?_set]
      by_cases h : j = i
      · subst h
        have := (List.getElem?_eq_some_iff.mp hp).1
        simp [hp, this]
      · have h' : ¬ i = j := fun e => h e.symm
        simp [h, h']

theorem peer_setSession_self (net : Network) (i : Nat) (s : Session) (p : ENetPeer)
    (h : net.peer i = some p) :
    (net.setSession i s).peer i = some { p with data := some s } := by
  simp [peer_setSession, h]

theorem peer_setSession_of_ne (net : Network) (i j : Nat) (s : Session) (h : j ≠ i) :
    (net.setSession i s).peer j = net.peer j := by
  simp [peer_setSession, h]

theorem session_of_peer (net : Network) (i : Nat) (p : ENetPeer) (h : net.peer i = some p) :
    net.session i = p.data := by
  simp [Network.session, h]

theorem peer_of_session (net : Network) (i : Nat) (s : Session) (h : net.session i = some s) :
    ∃ p, net.peer i = some p ∧ p.data = some s := by
  unfold Network.session at h
  cases hp : net.peer i with
  | none => simp [hp] at h
  | some p => exact ⟨p, rfl, by simpa [hp] using h⟩

theorem session_setSession_self (net : Network) (i : Nat) (s s0 : Session)
    (h : net.session i = some s0) : (net.setSession i s).session i = some s := by
  obtain ⟨p, hp, _⟩ := peer_of_session net i s0 h
  simp [Network.session, peer_setSession_self net i s p hp]

theorem session_setSession_of_ne (net : Network) (i j : Nat) (s : Session) (h : j ≠ i) :
    (net.setSession i s).session j = net.session j := by
  simp [Network.session, peer_setSession_of_ne net i j s h]

@[simp] theorem session_call (net : Network) (c : ENetCall) (j : Nat) :
    (net.call c).session j = net.session j := rfl

@[simp] theorem session_SignalEvent (net : Network) (sg : Signal) (j : Nat) :
    (net.SignalEvent sg).session j = net.session j := rfl

@[simp] theorem session_AddHandshake (net : Network) (i j : Nat) :
    (net.AddHandshake i).session j = net.session j := rfl

@[simp] theorem session_RemoveHandshake (net : Network) (i j : Nat) :
    (net.RemoveHandshake i).session j = net.session j := rfl

@[simp] theorem enet_peer_get_id_setSession (net : Network) (i j : Nat) (s : Session) :
    (net.setSession i s).enet_peer_get_id j = net.enet_peer_get_id j := by
  unfold Network.enet_peer_get_id
  rw [peer_setSession]
  by_cases h : j = i
  · subst h; cases net.peer j <;> simp
  · simp [h]

@[simp] theorem setSession_calls (net : Network) (i : Nat) (s : Session) :
    (net.setSession i s).calls = net.calls := by
  unfold Network.setSession; split; rfl; split <;> rfl

@[simp] theorem setSession_signals (net : Network) (i : Nat) (s : Session) :
    (net.setSession i s).signals = net.signals := by
  unfold Network.setSession; split; rfl; split <;> rfl

@[simp] theorem setSession_HandshakeList (net : Network) (i : Nat) (s : Session) :
    (net.setSession i s).m_HandshakeList = net.m_HandshakeList := by
  unfold Network.setSession; split; rfl; split <;> rfl

@[simp] theorem setSession_Server (net : Network) (i : Nat) (s : Session) :
    (net.setSession i s).m_Server = net.m_Server := by
  unfold Network.setSession; split; rfl; split <;> rfl

@[simp] theorem setSession_NetworkID (net : Network) (i : Nat) (s : Session) :
    (net.setSession i s).m_NetworkID = net.m_NetworkID := by
  unfold Network.setSession; split; rfl; split <;> rfl

/-! ## Scramble -/

/-- C1: `Scramble` is an involution on the 64-bit integers: scrambling a scrambled value
gives the value back. -/
theorem Scramble_involution (x : Int) (h : IsInt64 x) : Scramble (Scramble x) = x :=
  Scramble_Scramble x h

/-- C1, at the value `0x0123456789abcdef` of the round-trip scenario. -/
theorem Scramble_involution_witness :
    IsInt64 0x0123456789abcdef ∧ Scramble (Scramble 0x0123456789abcdef) = 0x0123456789abcdef :=
  ⟨by decide, Scramble_involution 0x0123456789abcdef (by decide)⟩

/-! ## Stale connection handles -/

/-- C9: on a handle whose recorded sequence differs from the sequence of its slot, `Valid`
is false, `Send` and `Disconnect` return the network unchanged (sessions, handshake list,
transport trace and signals included) and `GetUserData` returns null. -/
theorem stale_connection_noop (net : Network) (c : Connection) (i : Nat) (s : Session)
    (hp : c.m_Peer = some i) (hs : net.session i = some s)
    (hseq : c.m_SequenceID ≠ s.m_Sequence)
    (type : EMessage) (channel : Nat) (data : List Nat) (size : Nat) (mallocOk : Bool)
    (flag : EResetConnection) (d : Nat) :
    c.Valid net = false ∧
    c.Send net type channel data size mallocOk = net ∧
    c.Disconnect net flag d = net ∧
    c.GetUserData net = none := by
  have hv : c.Valid net = false := by
    unfold Connection.Valid
    rw [hp]
    cases c.m_Net <;> simp [hs, hseq]
  refine ⟨hv, ?_, ?_, ?_⟩
  · simp [Connection.Send, hv]
  · simp [Connection.Disconnect, hv]
  · simp [Connection.GetUserData, hv]

/-- C9, on a handle with sequence 5 to slot 0 (sequence 0) of the example server. -/
theorem stale_connection_noop_witness :
    staleConnection.Valid exampleServer = false ∧
    staleConnection.Send exampleServer EMessage.Reliable 0 [1, 2, 3] 3 true = exampleServer ∧
    staleConnection.Disconnect exampleServer EResetConnection.Force 0 = exampleServer ∧
    staleConnection.GetUserData exampleServer = none :=
  stale_connection_noop exampleServer staleConnection 0 Session.init rfl (by decide) (by decide)
    EMessage.Reliable 0 [1, 2, 3] 3 true EResetConnection.Force 0

/-- C10: `SetUserData` through a handle that is not valid (recorded sequence 5, slot
sequence 0) replaces the user data of the slot's current session. -/
theorem stale_SetUserData_overwrites :
    staleConnection.Valid exampleServer = false ∧
    exampleServer.session 0 = some Session.init ∧
    (staleConnection.SetUserData exampleServer (some 42)).session 0 =
      some { Session.init with m_UserData := some 42 } := by
  decide

/-! ## The service loop -/

theorem drain_nil (net : Network) (limit : Nat) : net.drain [] limit = net := by
  unfold Network.drain; rfl

theorem drain_singleton (net : Network) (event : ENetEvent) (env : Env) (limit : Nat) :
    net.drain [(event, env)] limit = net.dispatch event env := by
  unfold Network.drain
  simp only [drain_nil]
  split
  · split <;> rfl
  · rfl

theorem Update_singleton (net : Network) (event : ENetEvent) (env : Env)
    (timeout limit : Nat) (timenow : Int) :
    net.Update [(event, env)] timeout limit timenow =
      (net.dispatch event env).checkHandshake timenow := by
  unfold Network.Update; rw [drain_singleton]

theorem checkHandshake_cases (net : Network) (timenow : Int) :
    net.checkHandshake timenow = net ∨
    ∃ connection rest i session, net.m_HandshakeList = connection :: rest ∧
      connection.m_Peer = some i ∧ net.session i = some session ∧
      session.m_HandshakeKey ≤ timenow ∧
      net.checkHandshake timenow =
        ({ net with m_HandshakeList := rest }).call (ENetCall.peer_reset i) := by
  unfold Network.checkHandshake
  cases hl : net.m_HandshakeList with
  | nil => left; rfl
  | cons connection rest =>
    simp only
    cases hp : connection.m_Peer with
    | none => left; rfl
    | some i =>
      simp only
      cases hs : net.session i with
      | none => left; rfl
      | some session =>
        simp only
        by_cases h : timenow ≥ session.m_HandshakeKey
        · right
          exact ⟨connection, rest, i, session, rfl, hp, hs, h, by simp [h]⟩
        · left; simp [h]

@[simp] theorem checkHandshake_peer (net : Network) (timenow : Int) (j : Nat) :
    (net.checkHandshake timenow).peer j = net.peer j := by
  rcases checkHandshake_cases net timenow with h | ⟨_, _, _, _, _, _, _, _, h⟩ <;> (rw [h]; try rfl)

@[simp] theorem checkHandshake_session (net : Network) (timenow : Int) (j : Nat) :
    (net.checkHandshake timenow).session j = net.session j := by
  rcases checkHandshake_cases net timenow with h | ⟨_, _, _, _, _, _, _, _, h⟩ <;> (rw [h]; try rfl)

@[simp] theorem checkHandshake_signals (net : Network) (timenow : Int) :
    (net.checkHandshake timenow).signals = net.signals := by
  rcases checkHandshake_cases net timenow with h | ⟨_, _, _, _, _, _, _, _, h⟩ <;> (rw [h]; try rfl)

@[simp] theorem checkHandshake_Server (net : Network) (timenow : Int) :
    (net.checkHandshake timenow).m_Server = net.m_Server := by
  rcases checkHandshake_cases net timenow with h | ⟨_, _, _, _, _, _, _, _, h⟩ <;> (rw [h]; try rfl)

theorem checkHandshake_calls (net : Network) (timenow : Int) :
    ∃ l, (net.checkHandshake timenow).calls = net.calls ++ l ∧
      ∀ c ∈ l, ∃ j, c = ENetCall.peer_reset j := by
  rcases checkHandshake_cases net timenow with h | ⟨_, _, i, _, _, _, _, _, h⟩
  · exact ⟨[], by simp [h], by simp⟩
  · exact ⟨[ENetCall.peer_reset i], by rw [h]; rfl, by simp⟩

theorem checkHandshake_list (net : Network) (timenow : Int) :
    ∀ c ∈ (net.checkHandshake timenow).m_HandshakeList, c ∈ net.m_HandshakeList := by
  rcases checkHandshake_cases net timenow with h | ⟨_, _, _, _, hl, _, _, _, h⟩
  · rw [h]; exact fun _ hc => hc
  · rw [h, hl]; intro c hc; exact List.mem_cons_of_mem _ hc

theorem eraseP_no_match {α : Type} (q r : α → Bool) (L : List α)
    (hrq : ∀ c, r c = true → q c = true) (hid : ∀ c ∈ L, q c = true → r c = true)
    (hone : L.countP r ≤ 1) : ∀ c ∈ L.eraseP q, r c = false := by
  induction L with
  | nil => simp
  | cons a L ih =>
    intro c hc
    by_cases ha : q a = true
    · have hap : r a = true := hid a (List.mem_cons_self _ _) ha
      rw [List.eraseP_cons_of_pos ha] at hc
      have h0 : List.countP r L = 0 := by
        rw [List.countP_cons_of_pos _ _ hap] at hone
        omega
      rw [List.countP_eq_zero] at h0
      simpa using h0 c hc
    · rw [List.eraseP_cons_of_neg ha] at hc
      have hap : ¬ r a = true := fun e => ha (hrq a e)
      rcases List.mem_cons.mp hc with e | hc'
      · rw [e]; simpa using hap
      · refine ih ?_ ?_ c hc'
        · intro c hc; exact hid c (List.mem_cons_of_mem _ hc)
        · rw [List.countP_cons_of_neg _ _ hap] at hone
          exact hone

/-- Erasing the first entry with the id of slot `i` leaves no entry for slot `i`, when the
slot is queued at most once and every entry with its id is an entry for it. -/
theorem RemoveHandshake_no_entry (net : Network) (i : Nat)
    (hid : ∀ c ∈ net.m_HandshakeList, c.GetID net = net.enet_peer_get_id i → c.m_Peer = some i)
    (hone : net.m_HandshakeList.countP (fun c => c.m_Peer == some i) ≤ 1) :
    ∀ c ∈ (net.RemoveHandshake i).m_HandshakeList, c.m_Peer ≠ some i := by
  intro c hc
  have := eraseP_no_match (fun conn : Connection => conn.GetID net == net.enet_peer_get_id i)
    (fun c : Connection => c.m_Peer == some i) net.m_HandshakeList
    (by intro c hc; simp at hc; simp [Connection.GetID, hc])
    (by intro c hc hq; simp at hq; simpa using hid c hc hq) hone c hc
  simpa using this

/-! ## Traces and fields under the primitive updates -/

theorem session_setSession (net : Network) (i j : Nat) (s : Session) :
    (net.setSession i s).session j =
      if j = i then (net.peer i).map (fun _ => s) else net.session j := by
  unfold Network.session
  rw [peer_setSession]
  by_cases h : j = i
  · subst h; cases net.peer j <;> simp
  · simp [h]

@[simp] theorem calls_call (net : Network) (c : ENetCall) :
    (net.call c).calls = net.calls ++ [c] := rfl

@[simp] theorem signals_call (net : Network) (c : ENetCall) :
    (net.call c).signals = net.signals := rfl

@[simp] theorem HandshakeList_call (net : Network) (c : ENetCall) :
    (net.call c).m_HandshakeList = net.m_HandshakeList := rfl

@[simp] theorem Server_call (net : Network) (c : ENetCall) :
    (net.call c).m_Server = net.m_Server := rfl

@[simp] theorem calls_SignalEvent (net : Network) (sg : Signal) :
    (net.SignalEvent sg).calls = net.calls := rfl

@[simp] theorem signals_SignalEvent (net : Network) (sg : Signal) :
    (net.SignalEvent sg).signals = net.signals ++ [sg] := rfl

@[simp] theorem HandshakeList_SignalEvent (net : Network) (sg : Signal) :
    (net.SignalEvent sg).m_HandshakeList = net.m_HandshakeList := rfl

@[simp] theorem Server_SignalEvent (net : Network) (sg : Signal) :
    (net.SignalEvent sg).m_Server = net.m_Server := rfl

@[simp] theorem calls_AddHandshake (net : Network) (i : Nat) :
    (net.AddHandshake i).calls = net.calls := rfl

@[simp] theorem signals_AddHandshake (net : Network) (i : Nat) :
    (net.AddHandshake i).signals = net.signals := rfl

@[simp] theorem HandshakeList_AddHandshake (net : Network) (i : Nat) :
    (net.AddHandshake i).m_HandshakeList =
      net.m_HandshakeList ++ [Connection.create net i] := rfl

@[simp] theorem Server_AddHandshake (net : Network) (i : Nat) :
    (net.AddHandshake i).m_Server = net.m_Server := rfl

@[simp] theorem calls_RemoveHandshake (net : Network) (i : Nat) :
    (net.RemoveHandshake i).calls = net.calls := rfl

@[simp] theorem signals_RemoveHandshake (net : Network) (i : Nat) :
    (net.RemoveHandshake i).signals = net.signals := rfl

@[simp] theorem Server_RemoveHandshake (net : Network) (i : Nat) :
    (net.RemoveHandshake i).m_Server = net.m_Server := rfl

/-! ## The cases of the switch in `Update` -/

theorem dispatch_wrong_length (net : Network) (i : Nat) (s : Session)
    (event : ENetEvent) (env : Env)
    (hs : net.session i = some s) (hstate : s.m_State = EStateConnection.Handshake)
    (htype : event.type = ENetEventType.RECEIVE) (hi : event.peer = i)
    (hlen : event.packet.data.length ≠ 8) :
    net.dispatch event env =
      (if net.m_Server then net.RemoveHandshake i else net).call (ENetCall.peer_reset i) := by
  subst hi
  simp [Network.dispatch, htype, Network.onReceive, hs, hstate, Network.onHandshake, hlen]

theorem dispatch_server_connect (net : Network) (i : Nat) (s : Session)
    (event : ENetEvent) (env : Env)
    (hserver : net.m_Server = true) (hs : net.session i = some s)
    (htype : event.type = ENetEventType.CONNECT) (hi : event.peer = i) :
    let key := toI64 (toU64 (env.clock + 2))
    let s1 : Session :=
      { m_UserData := none, m_HandshakeKey := key, m_State := EStateConnection.Handshake,
        m_Sequence := (s.m_Sequence + 1) % 256 }
    let net1 := net.setSession i s1
    let packet : ENetPacket :=
      { flags := ENET_PACKET_FLAG_RELIABLE, data := int64Bytes (Scramble (Scramble key)) }
    net.dispatch event env =
      if env.packetOk = false then net1.call (ENetCall.peer_reset i)
      else if env.sendOk = false then
        (net1.call (ENetCall.peer_send i 0 packet)).call (ENetCall.peer_reset i)
      else (net1.call (ENetCall.peer_send i 0 packet)).AddHandshake i := by
  intro key s1 net1 packet
  subst hi
  cases hpk : env.packetOk <;> cases hsk : env.sendOk <;>
    simp [Network.dispatch, htype, Network.onConnect, hs, hserver, Network.SendHandshake,
      hpk, hsk, net1, s1, key, packet]

theorem dispatch_client_connect (net : Network) (i : Nat) (s : Session)
    (event : ENetEvent) (env : Env)
    (hclient : net.m_Server = false) (hs : net.session i = some s)
    (htype : event.type = ENetEventType.CONNECT) (hi : event.peer = i) :
    net.dispatch event env =
      net.setSession i { s with m_State := EStateConnection.Handshake } := by
  subst hi
  simp [Network.dispatch, htype, Network.onConnect, hs, hclient]

theorem dispatch_client_first (net : Network) (i : Nat) (p : ENetPeer) (s : Session)
    (event : ENetEvent) (env : Env)
    (hclient : net.m_Server = false) (hpeer : net.peer i = some p) (hdata : p.data = some s)
    (hstate : s.m_State = EStateConnection.Handshake) (hkey : s.m_HandshakeKey = 0)
    (htype : event.type = ENetEventType.RECEIVE) (hi : event.peer = i)
    (hlen : event.packet.data.length = 8) :
    let key := xorU64 (Scramble (readInt64 event.packet.data)) (p.id + 1)
    let net1 := net.setSession i { s with m_HandshakeKey := key }
    let packet : ENetPacket :=
      { flags := ENET_PACKET_FLAG_RELIABLE, data := int64Bytes (Scramble (Scramble key)) }
    net.dispatch event env =
      if env.packetOk = false then net1.call (ENetCall.peer_reset i)
      else if env.sendOk = false then
        (net1.call (ENetCall.peer_send i 0 packet)).call (ENetCall.peer_reset i)
      else net1.call (ENetCall.peer_send i 0 packet) := by
  intro key net1 packet
  have hs : net.session i = some s := by rw [session_of_peer net i p hpeer, hdata]
  have hid : (Connection.create net i).GetID net = p.id := by
    simp [Connection.GetID, Connection.create, Network.enet_peer_get_id, hpeer]
  subst hi
  cases hpk : env.packetOk <;> cases hsk : env.sendOk <;>
    simp [Network.dispatch, htype, Network.onReceive, hs, hstate, Network.onHandshake, hlen,
      hclient, hkey, hid, Network.SendHandshake, hpk, hsk, net1, key, packet]

theorem dispatch_client_second (net : Network) (i : Nat) (p : ENetPeer) (s : Session)
    (event : ENetEvent) (env : Env)
    (hclient : net.m_Server = false) (hpeer : net.peer i = some p) (hdata : p.data = some s)
    (hstate : s.m_State = EStateConnection.Handshake) (hkey : s.m_HandshakeKey ≠ 0)
    (htype : event.type = ENetEventType.RECEIVE) (hi : event.peer = i)
    (hlen : event.packet.data.length = 8) :
    net.dispatch event env =
      if s.m_HandshakeKey = Scramble (readInt64 event.packet.data) then
        (net.setSession i { s with m_State := EStateConnection.Connected }).SignalEvent
          (Signal.Event (Connection.create net i) p.eventData EStateEvent.Connect)
      else net.call (ENetCall.peer_reset i) := by
  have hs : net.session i = some s := by rw [session_of_peer net i p hpeer, hdata]
  subst hi
  by_cases hk : s.m_HandshakeKey = Scramble (readInt64 event.packet.data)
  · simp only [Network.dispatch, htype, Network.onReceive, hs, hstate, Network.onHandshake, hlen,
      hclient, hkey]
    simp [← hk, hkey, peer_setSession, hpeer]
  · simp [Network.dispatch, htype, Network.onReceive, hs, hstate, Network.onHandshake, hlen,
      hclient, hkey, hk]

theorem dispatch_server_reply (net : Network) (i : Nat) (p : ENetPeer) (s : Session)
    (event : ENetEvent) (env : Env)
    (hserver : net.m_Server = true) (hpeer : net.peer i = some p) (hdata : p.data = some s)
    (hstate : s.m_State = EStateConnection.Handshake)
    (htype : event.type = ENetEventType.RECEIVE) (hi : event.peer = i)
    (hlen : event.packet.data.length = 8) :
    let expected := xorU64 s.m_HandshakeKey (p.id + 1)
    let s1 : Session := { s with m_HandshakeKey := expected }
    let net1 := (net.RemoveHandshake i).setSession i s1
    let packet : ENetPacket :=
      { flags := ENET_PACKET_FLAG_RELIABLE, data := int64Bytes (Scramble (Scramble expected)) }
    net.dispatch event env =
      if expected ≠ Scramble (readInt64 event.packet.data) then
        net1.call (ENetCall.peer_reset i)
      else if env.packetOk = false then
        (net1.call (ENetCall.peer_reset i)).call (ENetCall.peer_reset i)
      else if env.sendOk = false then
        (((net1.call (ENetCall.peer_send i 0 packet)).call (ENetCall.peer_reset i)).call
          (ENetCall.peer_reset i))
      else
        (((net1.call (ENetCall.peer_send i 0 packet)).setSession i
          { s1 with m_State := EStateConnection.Connected }).SignalEvent
          (Signal.Event (Connection.create net i) p.eventData EStateEvent.Connect)) := by
  intro expected s1 net1 packet
  have hs : net.session i = some s := by rw [session_of_peer net i p hpeer, hdata]
  have hid : (Connection.create net i).GetID (net.RemoveHandshake i) = p.id := by
    simp [Connection.GetID, Connection.create, Network.enet_peer_get_id, hpeer]
  subst hi
  simp only [Network.dispatch, htype, Network.onReceive, hs, hstate, if_true,
    Network.onHandshake, hlen, ne_eq, not_true_eq_false, if_false, hserver, hid]
  by_cases hk : expected = Scramble (readInt64 event.packet.data)
  · simp only [expected] at hk
    simp only [hk, not_true_eq_false, if_false]
    cases hpk : env.packetOk <;> cases hsk : env.sendOk <;>
      simp [Network.SendHandshake, hpk, hsk, net1, s1, expected, packet, hk, hstate,
        peer_setSession, hpeer]
  · simp only [expected] at hk
    simp only [hk, not_false_eq_true, if_true]
    simp [net1, s1, expected, hstate]

theorem Scramble_ne_self (v : Int) : Scramble v ≠ v := by
  intro e
  have hu := toU64_lt v
  have hA : toU64 v ^^^ 0xDEADBEEFC0DECAFE < 2 ^ 64 := Nat.xor_lt_two_pow hu (by norm_num)
  have hB : (toU64 v ^^^ 0xDEADBEEFC0DECAFE) ^^^ 0xC0DEFACE12345678 < 2 ^ 64 :=
    Nat.xor_lt_two_pow hA (by norm_num)
  have e2 : toU64 (Scramble v) = toU64 v := by rw [e]
  simp only [Scramble, toU64_toI64, Nat.mod_eq_of_lt hA, Nat.mod_eq_of_lt hB] at e2
  rw [Nat.xor_assoc] at e2
  have e3 : toU64 v ^^^ (16045690984333232894 ^^^ 13897821263087556216) = toU64 v ^^^ 0 := by
    rw [e2, Nat.xor_zero]
  have := Nat.xor_right_injective e3
  revert this
  decide

theorem int64Bytes_injective (a b : Int) (ha : IsInt64 a) (hb : IsInt64 b)
    (h : int64Bytes a = int64Bytes b) : a = b := by
  rw [← readInt64_int64Bytes a ha, ← readInt64_int64Bytes b hb, h]

/-! ## What one `Update` with a single pending event leaves behind -/

theorem sentTo_append (i : Nat) (l1 l2 : List ENetCall) :
    sentTo i (l1 ++ l2) = sentTo i l1 ++ sentTo i l2 := by
  induction l1 with
  | nil => rfl
  | cons c l1 ih =>
    cases c <;> simp [sentTo, ih]
    split <;> simp

theorem sentTo_resets (i : Nat) (l : List ENetCall)
    (h : ∀ c ∈ l, ∃ j, c = ENetCall.peer_reset j) : sentTo i l = [] := by
  induction l with
  | nil => rfl
  | cons c l ih =>
    obtain ⟨j, hj⟩ := h c (List.mem_cons_self _ _)
    subst hj
    simp only [sentTo]
    exact ih (fun c hc => h c (List.mem_cons_of_mem _ hc))

theorem newCalls_of_append (net out : Network) (l : List ENetCall)
    (h : out.calls = net.calls ++ l) : newCalls net out = l := by
  unfold newCalls; rw [h]; simp

theorem Reaches_checkHandshake (net mid : Network) (i : Nat) (p : ENetPeer)
    (sigs : List Signal) (l : List ENetCall) (timenow : Int)
    (h1 : mid.m_Server = net.m_Server) (h0 : mid.m_NetworkID = net.m_NetworkID)
    (h2 : mid.peer i = some p)
    (h3 : mid.signals = net.signals ++ sigs) (h4 : mid.calls = net.calls ++ l) :
    Reaches net (mid.checkHandshake timenow) i p sigs (sentTo i l) := by
  obtain ⟨l', hl', hr⟩ := checkHandshake_calls mid timenow
  refine ⟨by simp [h1], ?_, by simp [h2], by simp [h3], ?_⟩
  · rcases checkHandshake_cases mid timenow with h | ⟨_, _, _, _, _, _, _, _, h⟩ <;>
      (rw [h]; exact h0)
  · rw [newCalls_of_append net _ (l ++ l') (by rw [hl', h4, List.append_assoc]),
      sentTo_append, sentTo_resets i l' hr, List.append_nil]

theorem NetworkID_call (net : Network) (c : ENetCall) :
    (net.call c).m_NetworkID = net.m_NetworkID := rfl

theorem NetworkID_SignalEvent (net : Network) (sg : Signal) :
    (net.SignalEvent sg).m_NetworkID = net.m_NetworkID := rfl

theorem NetworkID_AddHandshake (net : Network) (i : Nat) :
    (net.AddHandshake i).m_NetworkID = net.m_NetworkID := rfl

theorem NetworkID_RemoveHandshake (net : Network) (i : Nat) :
    (net.RemoveHandshake i).m_NetworkID = net.m_NetworkID := rfl

theorem step_server_connect (net : Network) (i : Nat) (p : ENetPeer) (s : Session)
    (event : ENetEvent) (clock : Int) (timeout limit : Nat) (timenow : Int)
    (hserver : net.m_Server = true) (hpeer : net.peer i = some p) (hdata : p.data = some s)
    (htype : event.type = ENetEventType.CONNECT) (hi : event.peer = i)
    (hsum : IsInt64 (clock + 2)) :
    Reaches net (net.Update [(event, okEnv clock)] timeout limit timenow) i
      { p with data := some ⟨none, clock + 2, EStateConnection.Handshake,
                              (s.m_Sequence + 1) % 256⟩ } []
      [⟨ENET_PACKET_FLAG_RELIABLE, int64Bytes (clock + 2)⟩] := by
  have hs : net.session i = some s := by rw [session_of_peer net i p hpeer, hdata]
  have hkey : toI64 (toU64 (clock + 2)) = clock + 2 := toI64_toU64 _ hsum
  have hss : Scramble (Scramble (clock + 2)) = clock + 2 := Scramble_Scramble _ hsum
  have hd := dispatch_server_connect net i s event (okEnv clock) hserver hs htype hi
  simp only [okEnv, hkey, hss, Bool.true_eq_false, if_false] at hd
  rw [Update_singleton]
  have := Reaches_checkHandshake net (net.dispatch event (okEnv clock)) i
    { p with data := some ⟨none, clock + 2, EStateConnection.Handshake,
                            (s.m_Sequence + 1) % 256⟩ } []
    [ENetCall.peer_send i 0 ⟨ENET_PACKET_FLAG_RELIABLE, int64Bytes (clock + 2)⟩]
    timenow
    (by simp [okEnv, hd]) (by simp [okEnv, hd, NetworkID_AddHandshake, NetworkID_call])
    (by simp [okEnv, hd, peer_setSession, hpeer]) (by simp [okEnv, hd]) (by simp [okEnv, hd])
  simpa [sentTo] using this

theorem step_client_connect (net : Network) (i : Nat) (p : ENetPeer) (s : Session)
    (event : ENetEvent) (env : Env) (timeout limit : Nat) (timenow : Int)
    (hclient : net.m_Server = false) (hpeer : net.peer i = some p) (hdata : p.data = some s)
    (htype : event.type = ENetEventType.CONNECT) (hi : event.peer = i) :
    Reaches net (net.Update [(event, env)] timeout limit timenow) i
      { p with data := some { s with m_State := EStateConnection.Handshake } } [] [] := by
  have hs : net.session i = some s := by rw [session_of_peer net i p hpeer, hdata]
  have hd := dispatch_client_connect net i s event env hclient hs htype hi
  rw [Update_singleton]
  have := Reaches_checkHandshake net (net.dispatch event env) i
    { p with data := some { s with m_State := EStateConnection.Handshake } } [] [] timenow
    (by simp [hd]) (by simp [hd]) (by simp [hd, peer_setSession, hpeer]) (by simp [hd])
    (by simp [hd])
  simpa [sentTo] using this

theorem step_client_first (net : Network) (i : Nat) (p : ENetPeer) (s : Session)
    (event : ENetEvent) (clock : Int) (timeout limit : Nat) (timenow : Int)
    (hclient : net.m_Server = false) (hpeer : net.peer i = some p) (hdata : p.data = some s)
    (hstate : s.m_State = EStateConnection.Handshake) (hkey : s.m_HandshakeKey = 0)
    (htype : event.type = ENetEventType.RECEIVE) (hi : event.peer = i)
    (hlen : event.packet.data.length = 8) :
    Reaches net (net.Update [(event, okEnv clock)] timeout limit timenow) i
      { p with data := some { s with
          m_HandshakeKey := xorU64 (Scramble (readInt64 event.packet.data)) (p.id + 1) } } []
      [⟨ENET_PACKET_FLAG_RELIABLE, int64Bytes (xorU64 (Scramble (readInt64 event.packet.data)) (p.id + 1))⟩] := by
  have hss := Scramble_Scramble _
    (xorU64_isInt64 (Scramble (readInt64 event.packet.data)) (p.id + 1))
  have hd := dispatch_client_first net i p s event (okEnv clock) hclient hpeer hdata hstate hkey
    htype hi hlen
  simp only [okEnv, hss, Bool.true_eq_false, if_false] at hd
  rw [Update_singleton]
  have := Reaches_checkHandshake net (net.dispatch event (okEnv clock)) i
    { p with data := some { s with
        m_HandshakeKey := xorU64 (Scramble (readInt64 event.packet.data)) (p.id + 1) } } []
    [ENetCall.peer_send i 0 ⟨ENET_PACKET_FLAG_RELIABLE, int64Bytes (xorU64 (Scramble (readInt64 event.packet.data)) (p.id + 1))⟩]
    timenow
    (by simp [okEnv, hd]) (by simp [okEnv, hd, NetworkID_call])
    (by simp [okEnv, hd, peer_setSession, hpeer]) (by simp [okEnv, hd]) (by simp [okEnv, hd])
  simpa [sentTo] using this

theorem step_client_second (net : Network) (i : Nat) (p : ENetPeer) (s : Session)
    (event : ENetEvent) (env : Env) (timeout limit : Nat) (timenow : Int)
    (hclient : net.m_Server = false) (hpeer : net.peer i = some p) (hdata : p.data = some s)
    (hstate : s.m_State = EStateConnection.Handshake) (hkey : s.m_HandshakeKey ≠ 0)
    (htype : event.type = ENetEventType.RECEIVE) (hi : event.peer = i)
    (hlen : event.packet.data.length = 8)
    (hmatch : s.m_HandshakeKey = Scramble (readInt64 event.packet.data)) :
    Reaches net (net.Update [(event, env)] timeout limit timenow) i
      { p with data := some { s with m_State := EStateConnection.Connected } }
      [Signal.Event (Connection.create net i) p.eventData EStateEvent.Connect] [] := by
  have hd := dispatch_client_second net i p s event env hclient hpeer hdata hstate hkey
    htype hi hlen
  rw [if_pos hmatch] at hd
  rw [Update_singleton]
  have := Reaches_checkHandshake net (net.dispatch event env) i
    { p with data := some { s with m_State := EStateConnection.Connected } }
    [Signal.Event (Connection.create net i) p.eventData EStateEvent.Connect] [] timenow
    (by simp [hd]) (by simp [hd, NetworkID_SignalEvent])
    (by simp [hd, peer_setSession, hpeer]) (by simp [hd]) (by simp [hd])
  simpa [sentTo] using this

theorem step_server_accept (net : Network) (i : Nat) (p : ENetPeer) (s : Session)
    (event : ENetEvent) (clock : Int) (timeout limit : Nat) (timenow : Int)
    (hserver : net.m_Server = true) (hpeer : net.peer i = some p) (hdata : p.data = some s)
    (hstate : s.m_State = EStateConnection.Handshake)
    (htype : event.type = ENetEventType.RECEIVE) (hi : event.peer = i)
    (hlen : event.packet.data.length = 8)
    (hmatch : xorU64 s.m_HandshakeKey (p.id + 1) = Scramble (readInt64 event.packet.data)) :
    Reaches net (net.Update [(event, okEnv clock)] timeout limit timenow) i
      { p with data := some { s with
          m_HandshakeKey := xorU64 s.m_HandshakeKey (p.id + 1)
          m_State := EStateConnection.Connected } }
      [Signal.Event (Connection.create net i) p.eventData EStateEvent.Connect]
      [⟨ENET_PACKET_FLAG_RELIABLE, int64Bytes (xorU64 s.m_HandshakeKey (p.id + 1))⟩] := by
  have hss := Scramble_Scramble _ (xorU64_isInt64 s.m_HandshakeKey (p.id + 1))
  have hd := dispatch_server_reply net i p s event (okEnv clock) hserver hpeer hdata hstate
    htype hi hlen
  simp only [okEnv, hss, Bool.true_eq_false, if_false, ne_eq] at hd
  rw [if_neg (not_not.mpr hmatch)] at hd
  rw [Update_singleton]
  have := Reaches_checkHandshake net (net.dispatch event (okEnv clock)) i
    { p with data := some { s with
        m_HandshakeKey := xorU64 s.m_HandshakeKey (p.id + 1)
        m_State := EStateConnection.Connected } }
    [Signal.Event (Connection.create net i) p.eventData EStateEvent.Connect]
    [ENetCall.peer_send i 0 ⟨ENET_PACKET_FLAG_RELIABLE, int64Bytes (xorU64 s.m_HandshakeKey (p.id + 1))⟩]
    timenow
    (by simp [okEnv, hd]) (by simp [okEnv, hd, NetworkID_SignalEvent, NetworkID_call, NetworkID_RemoveHandshake])
    (by simp [okEnv, hd, peer_setSession, hpeer]) (by simp [okEnv, hd])
    (by simp [okEnv, hd])
  simpa [sentTo] using this

theorem step_server_reject (net : Network) (i : Nat) (p : ENetPeer) (s : Session)
    (event : ENetEvent) (env : Env) (timeout limit : Nat) (timenow : Int)
    (hserver : net.m_Server = true) (hpeer : net.peer i = some p) (hdata : p.data = some s)
    (hstate : s.m_State = EStateConnection.Handshake)
    (htype : event.type = ENetEventType.RECEIVE) (hi : event.peer = i)
    (hlen : event.packet.data.length = 8)
    (hmatch : xorU64 s.m_HandshakeKey (p.id + 1) ≠ Scramble (readInt64 event.packet.data)) :
    Reaches net (net.Update [(event, env)] timeout limit timenow) i
      { p with data := some { s with m_HandshakeKey := xorU64 s.m_HandshakeKey (p.id + 1) } }
      [] [] := by
  have hd := dispatch_server_reply net i p s event env hserver hpeer hdata hstate
    htype hi hlen
  simp only [ne_eq] at hd
  rw [if_pos hmatch] at hd
  rw [Update_singleton]
  have := Reaches_checkHandshake net (net.dispatch event env) i
    { p with data := some { s with m_HandshakeKey := xorU64 s.m_HandshakeKey (p.id + 1) } }
    [] [ENetCall.peer_reset i] timenow
    (by simp [hd]) (by simp [hd, NetworkID_call, NetworkID_RemoveHandshake])
    (by simp [hd, peer_setSession, hpeer]) (by simp [hd]) (by simp [hd])
  simpa [sentTo] using this

theorem state_of_peer (net : Network) (i : Nat) (p : ENetPeer) (s : Session)
    (h : net.peer i = some p) (hd : p.data = some s) : net.state i = some s.m_State := by
  simp [Network.state, session_of_peer net i p h, hd]

/-! ## The handshake -/

/-- The honest exchange started by the server-side `CONNECT` at a clock reading whose key
`clock + 2` does not overflow, with both sends succeeding, a client session whose key is 0
and peer ids below 2^32: if both sides see the same peer id and the key the client derives,
`Scramble(clock + 2) XOR (id + 1)`, is not 0, both sessions end in `Connected` and each
side has emitted exactly one `Connect` event; if the two sides see different peer ids the
server session stays in `Handshake` and the server emits nothing. -/
theorem handshake_exchange_of_key (server client : Network) (sp cp : Nat) (ps pc : ENetPeer)
    (ss sc : Session) (clock : Int)
    (hS : server.m_Server = true) (hC : client.m_Server = false)
    (hps : server.peer sp = some ps) (hss : ps.data = some ss)
    (hpc : client.peer cp = some pc) (hsc : pc.data = some sc)
    (hkey0 : sc.m_HandshakeKey = 0) (hclock : IsInt64 (clock + 2))
    (hidS : ps.id < 2 ^ 32) (hidC : pc.id < 2 ^ 32) :
    let out := handshakeExchange server client sp cp (okEnv clock)
    (ps.id = pc.id → xorU64 (Scramble (clock + 2)) (pc.id + 1) ≠ 0 →
      out.1.state sp = some EStateConnection.Connected ∧
      out.2.state cp = some EStateConnection.Connected ∧
      out.1.signals = server.signals ++
        [Signal.Event ⟨some server.m_NetworkID, some sp, (ss.m_Sequence + 1) % 256⟩
          ps.eventData EStateEvent.Connect] ∧
      out.2.signals = client.signals ++
        [Signal.Event ⟨some client.m_NetworkID, some cp, sc.m_Sequence⟩
          pc.eventData EStateEvent.Connect]) ∧
    (ps.id ≠ pc.id →
      out.1.state sp = some EStateConnection.Handshake ∧ out.1.signals = server.signals) := by
  intro out
  -- the server answers the CONNECT of the transport with its challenge
  obtain ⟨s1S, s1N, s1P, s1G, s1T⟩ := step_server_connect server sp ps ss
    (mkEvent ENetEventType.CONNECT sp []) clock 0 100 clock hS hps hss rfl rfl hclock
  -- the client enters the handshake
  obtain ⟨c1S, c1N, c1P, c1G, _⟩ := step_client_connect client cp pc sc
    (mkEvent ENetEventType.CONNECT cp []) (okEnv clock) 0 100 clock hC hpc hsc rfl rfl
  generalize hserver1 :
    server.Update [(mkEvent ENetEventType.CONNECT sp [], okEnv clock)] 0 100 clock = server1
    at s1S s1N s1P s1G s1T
  generalize hclient1 :
    client.Update [(mkEvent ENetEventType.CONNECT cp [], okEnv clock)] 0 100 clock = client1
    at c1S c1N c1P c1G
  -- the client derives its key from the challenge and echoes it
  have hread1 : readInt64 (int64Bytes (clock + 2)) = clock + 2 := readInt64_int64Bytes _ hclock
  obtain ⟨c2S, c2N, c2P, c2G, c2T⟩ := step_client_first client1 cp _ _
    ⟨ENetEventType.RECEIVE, cp, 0, 0, ⟨ENET_PACKET_FLAG_RELIABLE, int64Bytes (clock + 2)⟩⟩
    clock 0 100 clock (c1S.trans hC) c1P rfl rfl hkey0 rfl rfl (int64Bytes_length _)
  simp only [hread1] at c2P c2T
  generalize hclient2 : client1.Update [(⟨ENetEventType.RECEIVE, cp, 0, 0,
    ⟨ENET_PACKET_FLAG_RELIABLE, int64Bytes (clock + 2)⟩⟩, okEnv clock)] 0 100 clock = client2
    at c2S c2N c2P c2G c2T
  have hout : out = (server1.Update (deliver sp (okEnv clock) (sentTo cp (newCalls client1 client2)))
      0 100 clock,
      client2.Update (deliver cp (okEnv clock) (sentTo sp (newCalls server1
        (server1.Update (deliver sp (okEnv clock) (sentTo cp (newCalls client1 client2)))
          0 100 clock)))) 0 100 clock) := by
    simp only [out, handshakeExchange, okEnv] at *
    simp only [hserver1, hclient1, s1T, deliver, List.map, hclient2]
  rw [hout, c2T]
  simp only [deliver, List.map]
  -- what the server decrypts
  have hkc : IsInt64 (xorU64 (Scramble (clock + 2)) (pc.id + 1)) := xorU64_isInt64 _ _
  have hdec : Scramble (readInt64 (int64Bytes (xorU64 (Scramble (clock + 2)) (pc.id + 1)))) =
      xorU64 (clock + 2) (pc.id + 1) := by
    rw [readInt64_int64Bytes _ hkc, Scramble_xorU64_Scramble _ _ (by omega)]
  refine ⟨?_, ?_⟩
  · intro hid hnz
    -- the server accepts the echo and replies
    obtain ⟨s2S, s2N, s2P, s2G, s2T⟩ := step_server_accept server1 sp _ _
      ⟨ENetEventType.RECEIVE, sp, 0, 0,
        ⟨ENET_PACKET_FLAG_RELIABLE, int64Bytes (xorU64 (Scramble (clock + 2)) (pc.id + 1))⟩⟩
      clock 0 100 clock (s1S.trans hS) s1P rfl rfl rfl rfl (int64Bytes_length _)
      (by rw [hdec, hid])
    generalize server1.Update [(⟨ENetEventType.RECEIVE, sp, 0, 0, ⟨ENET_PACKET_FLAG_RELIABLE,
      int64Bytes (xorU64 (Scramble (clock + 2)) (pc.id + 1))⟩⟩, okEnv clock)] 0 100 clock = server2
      at s2S s2N s2P s2G s2T ⊢
    rw [s2T]
    simp only [List.map]
    -- the client checks the reply
    obtain ⟨c3S, c3N, c3P, c3G, _⟩ := step_client_second client2 cp _ _
      ⟨ENetEventType.RECEIVE, cp, 0, 0,
        ⟨ENET_PACKET_FLAG_RELIABLE, int64Bytes (xorU64 (clock + 2) (ps.id + 1))⟩⟩
      (okEnv clock) 0 100 clock (c2S.trans (c1S.trans hC)) c2P rfl rfl hnz rfl rfl
      (int64Bytes_length _)
      (by
        show xorU64 (Scramble (clock + 2)) (pc.id + 1) =
          Scramble (readInt64 (int64Bytes (xorU64 (clock + 2) (ps.id + 1))))
        rw [readInt64_int64Bytes _ (xorU64_isInt64 _ _), hid,
          xorU64_Scramble _ _ hclock (by omega)])
    generalize client2.Update [(⟨ENetEventType.RECEIVE, cp, 0, 0, ⟨ENET_PACKET_FLAG_RELIABLE,
      int64Bytes (xorU64 (clock + 2) (ps.id + 1))⟩⟩, okEnv clock)] 0 100 clock = client3
      at c3S c3N c3P c3G ⊢
    refine ⟨state_of_peer _ _ _ _ s2P rfl, state_of_peer _ _ _ _ c3P rfl, ?_, ?_⟩
    · rw [s2G, s1G]
      simp [Connection.create, session_of_peer _ _ _ s1P, s1N]
    · rw [c3G, c2G, c1G]
      simp [Connection.create, session_of_peer _ _ _ c2P, c2N, c1N]
  · intro hid
    have hne : xorU64 (clock + 2) (ps.id + 1) ≠ xorU64 (clock + 2) (pc.id + 1) := by
      intro e
      have := xorU64_inj _ _ _ (by omega) (by omega) e
      omega
    obtain ⟨_, _, s2P, s2G, _⟩ := step_server_reject server1 sp _ _
      ⟨ENetEventType.RECEIVE, sp, 0, 0,
        ⟨ENET_PACKET_FLAG_RELIABLE, int64Bytes (xorU64 (Scramble (clock + 2)) (pc.id + 1))⟩⟩
      (okEnv clock) 0 100 clock (s1S.trans hS) s1P rfl rfl rfl rfl (int64Bytes_length _)
      (by rw [hdec]; exact hne)
    refine ⟨state_of_peer _ _ _ _ s2P rfl, ?_⟩
    rw [s2G, s1G]
    simp

/-- The server reply, for every network: for a server-side peer in `Handshake` with key
`K` and peer id `id` that receives an 8-byte payload, `Update` sets the session to `Connected` and emits exactly
one `Connect` event if `Scramble(payload) = K XOR (id + 1)` and the echo is created and
sent; otherwise the session stays in `Handshake`, nothing is emitted and the peer is reset.
In both cases the key becomes `K XOR (id + 1)`, and the peer has no entry left in the
handshake list provided it had at most one entry and every entry carrying its id was its
own. -/
theorem server_handshake_reply (net : Network) (i : Nat) (p : ENetPeer) (s : Session)
    (event : ENetEvent) (env : Env) (timeout limit : Nat) (timenow : Int)
    (hserver : net.m_Server = true) (hpeer : net.peer i = some p) (hdata : p.data = some s)
    (hstate : s.m_State = EStateConnection.Handshake)
    (htype : event.type = ENetEventType.RECEIVE) (hi : event.peer = i)
    (hlen : event.packet.data.length = 8) :
    let out := net.Update [(event, env)] timeout limit timenow
    let expected := xorU64 s.m_HandshakeKey (p.id + 1)
    let accepted := Scramble (readInt64 event.packet.data) = expected ∧
      env.packetOk = true ∧ env.sendOk = true
    (accepted →
      out.session i = some { s with m_HandshakeKey := expected,
                                    m_State := EStateConnection.Connected } ∧
      out.signals = net.signals ++
        [Signal.Event (Connection.create net i) p.eventData EStateEvent.Connect]) ∧
    (¬ accepted →
      out.session i = some { s with m_HandshakeKey := expected } ∧
      out.signals = net.signals ∧
      ∃ l, out.calls = net.calls ++ l ∧ ENetCall.peer_reset i ∈ l) ∧
    ((∀ c ∈ net.m_HandshakeList, c.GetID net = p.id → c.m_Peer = some i) →
      net.m_HandshakeList.countP (fun c => c.m_Peer == some i) ≤ 1 →
      ∀ c ∈ out.m_HandshakeList, c.m_Peer ≠ some i) := by
  intro out expected accepted
  have hout : out = (net.dispatch event env).checkHandshake timenow := Update_singleton ..
  have hd := dispatch_server_reply net i p s event env hserver hpeer hdata hstate htype hi hlen
  simp only at hd
  obtain ⟨l, hl, _⟩ := checkHandshake_calls (net.dispatch event env) timenow
  refine ⟨?_, ?_, ?_⟩
  · rintro ⟨h1, h2, h3⟩
    have h1' : xorU64 s.m_HandshakeKey (p.id + 1) = Scramble (readInt64 event.packet.data) :=
      h1.symm
    rw [hout, checkHandshake_session, checkHandshake_signals, hd]
    simp [h1', h2, h3, session_setSession, hpeer, peer_setSession, expected]
  · intro hna
    rw [hout, checkHandshake_session, checkHandshake_signals, hl, hd]
    by_cases h1 : xorU64 s.m_HandshakeKey (p.id + 1) = Scramble (readInt64 event.packet.data)
    · cases h2 : env.packetOk
      · simp [h1, session_setSession, hpeer, expected]
      · cases h3 : env.sendOk
        · simp [h1, session_setSession, hpeer, expected]
        · exact absurd ⟨h1.symm, h2, h3⟩ hna
    · simp [h1, session_setSession, hpeer, expected]
  · intro hid hone c hc
    have hid' : ∀ c ∈ net.m_HandshakeList,
        c.GetID net = net.enet_peer_get_id i → c.m_Peer = some i := by
      intro c hc h
      exact hid c hc (by simpa [Network.enet_peer_get_id, hpeer] using h)
    have hrm := RemoveHandshake_no_entry net i hid' hone
    rw [hout] at hc
    have hc' := checkHandshake_list _ _ c hc
    rw [hd] at hc'
    refine hrm c ?_
    revert hc'
    split
    · simp
    · split
      · simp
      · split <;> simp

/-- A handshake packet of the wrong length, for every network: for a peer in `Handshake`,
on a client or a server network, that receives a packet whose length is not 8, `Update` resets the peer, emits nothing and leaves
every session as it was (the peer stays in `Handshake`). On a client the handshake list
gains no entry; on a server the peer has no entry left in it provided it had at most one
entry and every entry carrying its id was its own. -/
theorem handshake_wrong_length (net : Network) (i : Nat) (p : ENetPeer) (s : Session)
    (event : ENetEvent) (env : Env) (timeout limit : Nat) (timenow : Int)
    (hpeer : net.peer i = some p) (hdata : p.data = some s)
    (hstate : s.m_State = EStateConnection.Handshake)
    (htype : event.type = ENetEventType.RECEIVE) (hi : event.peer = i)
    (hlen : event.packet.data.length ≠ 8) :
    let out := net.Update [(event, env)] timeout limit timenow
    (∀ j, out.session j = net.session j) ∧
    out.state i = some EStateConnection.Handshake ∧
    out.signals = net.signals ∧
    (∃ l, out.calls = net.calls ++ l ∧ ENetCall.peer_reset i ∈ l) ∧
    (net.m_Server = false → ∀ c ∈ out.m_HandshakeList, c ∈ net.m_HandshakeList) ∧
    (net.m_Server = true →
      (∀ c ∈ net.m_HandshakeList, c.GetID net = p.id → c.m_Peer = some i) →
      net.m_HandshakeList.countP (fun c => c.m_Peer == some i) ≤ 1 →
      ∀ c ∈ out.m_HandshakeList, c.m_Peer ≠ some i) := by
  intro out
  have hs : net.session i = some s := by rw [session_of_peer net i p hpeer, hdata]
  have hout : out = (net.dispatch event env).checkHandshake timenow := Update_singleton ..
  have hd := dispatch_wrong_length net i s event env hs hstate htype hi hlen
  obtain ⟨l, hl, _⟩ := checkHandshake_calls (net.dispatch event env) timenow
  have hsess : ∀ j, out.session j = net.session j := by
    intro j
    rw [hout, checkHandshake_session, hd]
    cases net.m_Server <;> simp
  refine ⟨hsess, ?_, ?_, ?_, ?_, ?_⟩
  · simp [Network.state, hsess, hs, hstate]
  · rw [hout, checkHandshake_signals, hd]
    cases net.m_Server <;> simp
  · rw [hout, hl, hd]
    cases net.m_Server <;> simp
  · intro hclient c hc
    rw [hout] at hc
    have hc' := checkHandshake_list _ _ c hc
    rw [hd, hclient] at hc'
    simpa using hc'
  · intro hserver hid hone c hc
    have hid' : ∀ c ∈ net.m_HandshakeList,
        c.GetID net = net.enet_peer_get_id i → c.m_Peer = some i := by
      intro c hc h
      exact hid c hc (by simpa [Network.enet_peer_get_id, hpeer] using h)
    rw [hout] at hc
    have hc' := checkHandshake_list _ _ c hc
    rw [hd, hserver] at hc'
    exact RemoveHandshake_no_entry net i hid' hone c (by simpa using hc')

/-- The server challenge, for every network: on a server-side `CONNECT` at a clock reading
whose sum with 2 is a 64-bit value, `Update` puts the session in `Handshake` with key `clock + 2`, a bumped
sequence and no user data, and, when a packet can be created, the first request it makes
of the transport is the send on channel 0 of a reliable packet holding the 8 bytes of the
key itself, which is `Scramble(Scramble(key))` and differs from the bytes of
`Scramble(key)`. -/
theorem server_connect_challenge (net : Network) (i : Nat) (s : Session)
    (event : ENetEvent) (env : Env) (timeout limit : Nat) (timenow : Int)
    (hserver : net.m_Server = true) (hs : net.session i = some s)
    (htype : event.type = ENetEventType.CONNECT) (hi : event.peer = i)
    (hsum : IsInt64 (env.clock + 2))
    (hpacket : env.packetOk = true) :
    let out := net.Update [(event, env)] timeout limit timenow
    let key := env.clock + 2
    out.session i = some ⟨none, key, EStateConnection.Handshake, (s.m_Sequence + 1) % 256⟩ ∧
    (∃ l, out.calls = net.calls ++
      ENetCall.peer_send i 0 { flags := ENET_PACKET_FLAG_RELIABLE, data := int64Bytes key } :: l) ∧
    Scramble (Scramble key) = key ∧
    int64Bytes key ≠ int64Bytes (Scramble key) := by
  intro out key
  obtain ⟨p, hp, _⟩ := peer_of_session net i s hs
  have hkey : toI64 (toU64 (env.clock + 2)) = key := toI64_toU64 _ hsum
  have hss : Scramble (Scramble key) = key := Scramble_Scramble key hsum
  have hout : out = (net.dispatch event env).checkHandshake timenow := Update_singleton ..
  have hd := dispatch_server_connect net i s event env hserver hs htype hi
  simp only [hkey, hss, hpacket] at hd
  refine ⟨?_, ?_, hss, ?_⟩
  · rw [hout, checkHandshake_session, hd]
    cases env.sendOk <;> simp [session_setSession, hp]
  · obtain ⟨l, hl, _⟩ := checkHandshake_calls (net.dispatch event env) timenow
    rw [hout, hl, hd]
    cases env.sendOk
    · exact ⟨ENetCall.peer_reset i :: l, by simp⟩
    · exact ⟨l, by simp⟩
  · intro e
    exact Scramble_ne_self key (int64Bytes_injective _ _ hsum (Scramble_isInt64 _) e).symm

/-- C6 (as amended): for a client-side peer in `Handshake` with key 0 that receives an
8-byte message, the key becomes `Scramble(first) XOR (id + 1)` and nothing is emitted; if
that key is not 0, the next 8-byte message sets the session to `Connected` and emits
exactly one `Connect` event when the key equals `Scramble(second)`, and otherwise resets
the peer, emits nothing and leaves the session as it was. -/
theorem client_second_message (net : Network) (i : Nat) (p : ENetPeer) (s : Session)
    (first second : ENetEvent) (env1 env2 : Env) (timeout limit : Nat) (t1 t2 : Int)
    (hclient : net.m_Server = false) (hpeer : net.peer i = some p) (hdata : p.data = some s)
    (hstate : s.m_State = EStateConnection.Handshake) (hkey0 : s.m_HandshakeKey = 0)
    (htype1 : first.type = ENetEventType.RECEIVE) (hi1 : first.peer = i)
    (hlen1 : first.packet.data.length = 8)
    (htype2 : second.type = ENetEventType.RECEIVE) (hi2 : second.peer = i)
    (hlen2 : second.packet.data.length = 8)
    (hkey : xorU64 (Scramble (readInt64 first.packet.data)) (p.id + 1) ≠ 0) :
    let key := xorU64 (Scramble (readInt64 first.packet.data)) (p.id + 1)
    let mid := net.Update [(first, env1)] timeout limit t1
    let out := mid.Update [(second, env2)] timeout limit t2
    mid.session i = some { s with m_HandshakeKey := key } ∧
    mid.signals = net.signals ∧
    (key = Scramble (readInt64 second.packet.data) →
      out.session i = some { s with m_HandshakeKey := key,
                                    m_State := EStateConnection.Connected } ∧
      out.signals = mid.signals ++
        [Signal.Event (Connection.create mid i) p.eventData EStateEvent.Connect]) ∧
    (key ≠ Scramble (readInt64 second.packet.data) →
      out.session i = mid.session i ∧ out.signals = mid.signals ∧
      ∃ l, out.calls = mid.calls ++ l ∧ ENetCall.peer_reset i ∈ l) := by
  intro key mid out
  have hmid : mid = (net.dispatch first env1).checkHandshake t1 := Update_singleton ..
  have hd1 := dispatch_client_first net i p s first env1 hclient hpeer hdata hstate hkey0
    htype1 hi1 hlen1
  simp only at hd1
  have hmidP : mid.peer i = some { p with data := some { s with m_HandshakeKey := key } } := by
    rw [hmid, checkHandshake_peer, hd1]
    cases env1.packetOk <;> cases env1.sendOk <;> simp [peer_setSession, hpeer, key]
  have hmidS : mid.m_Server = false := by
    rw [hmid, checkHandshake_Server, hd1]
    cases env1.packetOk <;> cases env1.sendOk <;> simp [hclient]
  have hmidG : mid.signals = net.signals := by
    rw [hmid, checkHandshake_signals, hd1]
    cases env1.packetOk <;> cases env1.sendOk <;> simp
  have hout : out = (mid.dispatch second env2).checkHandshake t2 := Update_singleton ..
  have hd2 := dispatch_client_second mid i _ _ second env2 hmidS hmidP rfl hstate hkey
    htype2 hi2 hlen2
  obtain ⟨l, hl, _⟩ := checkHandshake_calls (mid.dispatch second env2) t2
  refine ⟨by rw [session_of_peer _ _ _ hmidP], hmidG, ?_, ?_⟩
  · intro hm
    rw [hout, checkHandshake_session, checkHandshake_signals, hd2, if_pos hm]
    simp [session_setSession, hmidP]
  · intro hm
    rw [hout, checkHandshake_session, checkHandshake_signals, hl, hd2, if_neg hm]
    simp

/-- C7: after the loop of `Update` has drained the transport events, an empty handshake
list, or a head whose key is greater than the clock, leaves the network as it is; a head
whose key is at most the clock is erased from the list and its peer is reset, the signals
and the sessions being untouched. In particular a server slot that got `CONNECT` at second
`t` into an empty list is queued with key `t + 2`, and an `Update` without events at a
second `T >= t + 2` erases it and resets the peer, no event having been emitted. -/
theorem handshake_queue_timeout (net : Network) (pending : List (ENetEvent × Env))
    (timeout limit : Nat) (timenow : Int) :
    let mid := net.drain pending limit
    let out := net.Update pending timeout limit timenow
    (mid.m_HandshakeList = [] → out = mid) ∧
    (∀ connection rest i session, mid.m_HandshakeList = connection :: rest →
      connection.m_Peer = some i → mid.session i = some session →
      (session.m_HandshakeKey ≤ timenow →
        out.m_HandshakeList = rest ∧ out.calls = mid.calls ++ [ENetCall.peer_reset i] ∧
        out.signals = mid.signals ∧ out.m_Host = mid.m_Host) ∧
      (timenow < session.m_HandshakeKey → out = mid)) ∧
    (∀ i s t T, net.m_Server = true → net.m_HandshakeList = [] → net.session i = some s →
      IsInt64 (t + 2) → t + 2 ≤ T →
      let queued := net.Update [(mkEvent ENetEventType.CONNECT i [], okEnv t)] timeout limit t
      let later := queued.Update [] timeout limit T
      queued.m_HandshakeList = [⟨some net.m_NetworkID, some i, (s.m_Sequence + 1) % 256⟩] ∧
      queued.calls = net.calls ++
        [ENetCall.peer_send i 0 ⟨ENET_PACKET_FLAG_RELIABLE, int64Bytes (t + 2)⟩] ∧
      later.m_HandshakeList = [] ∧
      later.calls = queued.calls ++ [ENetCall.peer_reset i] ∧
      later.signals = net.signals) := by
  intro mid out
  have hout : out = mid.checkHandshake timenow := rfl
  refine ⟨?_, ?_, ?_⟩
  · intro h
    rw [hout]; unfold Network.checkHandshake; rw [h]
  · intro connection rest i session hl hp hs
    constructor
    · intro hk
      rw [hout]; unfold Network.checkHandshake
      simp [hl, hp, hs, hk]
      rfl
    · intro hk
      rw [hout]; unfold Network.checkHandshake
      simp [hl, hp, hs, hk]
  · intro i s t T hserver hempty hs hsum hT queued later
    have hkey : toI64 (toU64 (t + 2)) = t + 2 := toI64_toU64 _ hsum
    have hss : Scramble (Scramble (t + 2)) = t + 2 := Scramble_Scramble _ hsum
    obtain ⟨p, hp, hpd⟩ := peer_of_session net i s hs
    have hd := dispatch_server_connect net i s (mkEvent ENetEventType.CONNECT i []) (okEnv t)
      hserver hs rfl rfl
    simp only [okEnv, hkey, hss, Bool.true_eq_false, if_false] at hd
    have hq : queued = ((net.setSession i ⟨none, t + 2, EStateConnection.Handshake,
        (s.m_Sequence + 1) % 256⟩).call (ENetCall.peer_send i 0
          ⟨ENET_PACKET_FLAG_RELIABLE, int64Bytes (t + 2)⟩)).AddHandshake i := by
      show Network.Update _ _ _ _ _ = _
      rw [Update_singleton]
      simp only [okEnv, hd]
      unfold Network.checkHandshake
      simp [hempty, Connection.create, session_setSession, hp]
    have hqs : queued.session i = some ⟨none, t + 2, EStateConnection.Handshake,
        (s.m_Sequence + 1) % 256⟩ := by
      rw [hq]; simp [session_setSession, hp]
    have hql : queued.m_HandshakeList =
        [⟨some net.m_NetworkID, some i, (s.m_Sequence + 1) % 256⟩] := by
      rw [hq]; simp [hempty, Connection.create, session_setSession, hp, NetworkID_call]
    have hlater : later = queued.checkHandshake T := by
      show Network.Update _ _ _ _ _ = _
      unfold Network.Update; rw [drain_nil]
    refine ⟨hql, by rw [hq]; simp, ?_, ?_, ?_⟩
    · rw [hlater]; unfold Network.checkHandshake; simp [hql, hqs, hT]
    · rw [hlater]; unfold Network.checkHandshake; simp [hql, hqs, hT]
    · rw [hlater, checkHandshake_signals, hq]; simp

/-- The proviso on the derived key in `handshake_exchange_of_key` is needed for 64-bit
keys at large: for the key `2194172355522763918` and peer id 7 the client derives the key
0, takes the reply of the server for a first message again, and stays in `Handshake`
without a `Connect` event. A clock that counts nanoseconds in 64 bits never reads that many
seconds. -/
theorem zero_client_key_beyond_clock :
    IsInt64 2194172355522763916 ∧ IsInt64 (2194172355522763916 + 2) ∧
    xorU64 (Scramble (2194172355522763916 + 2)) (7 + 1) = 0 ∧
    (handshakeExchange exampleServer exampleClient 0 0 (okEnv 2194172355522763916)).1.state 0 =
      some EStateConnection.Connected ∧
    (handshakeExchange exampleServer exampleClient 0 0 (okEnv 2194172355522763916)).2.state 0 =
      some EStateConnection.Handshake ∧
    (handshakeExchange exampleServer exampleClient 0 0 (okEnv 2194172355522763916)).2.signals =
      [] := by
  decide

/-- The server reply on slot 0 of the handshaking example server (key 102, peer id 7)
receiving the payload whose scramble is `102 XOR 8 = 110`. -/
theorem server_handshake_reply_witness :
    (handshakingServer.Update
        [(mkEvent ENetEventType.RECEIVE 0 (int64Bytes (Scramble 110)), okEnv 100)]
        0 100 100).session 0 = some ⟨none, 110, EStateConnection.Connected, 1⟩ ∧
      (handshakingServer.Update
        [(mkEvent ENetEventType.RECEIVE 0 (int64Bytes (Scramble 110)), okEnv 100)]
        0 100 100).signals = handshakingServer.signals ++
          [Signal.Event (Connection.create handshakingServer 0) 0 EStateEvent.Connect] :=
  (server_handshake_reply handshakingServer 0 ⟨7, 0, some ⟨none, 102, EStateConnection.Handshake, 1⟩⟩
    ⟨none, 102, EStateConnection.Handshake, 1⟩
    (mkEvent ENetEventType.RECEIVE 0 (int64Bytes (Scramble 110))) (okEnv 100) 0 100 100
    rfl (by decide) rfl rfl rfl rfl (by decide)).1 ⟨by decide, rfl, rfl⟩

/-- Claim C3, failing input. On the server reached by `CONNECT`, `DISCONNECT`, `CONNECT`
for slot 0 the slot is queued twice, because the `DISCONNECT` case does not dequeue it.
The slot is in `Handshake` and receives the expected 8-byte payload: the session becomes
`Connected`, and the peer is not removed from the handshake list, where one entry of the
slot is left. -/
theorem server_reply_keeps_second_entry :
    reconnectedServer.m_Server = true ∧
    reconnectedServer.session 0 = some ⟨none, 102, EStateConnection.Handshake, 2⟩ ∧
    reconnectedServer.enet_peer_get_id 0 = 7 ∧
    Scramble (readInt64 (int64Bytes (Scramble 110))) = xorU64 102 (7 + 1) ∧
    (reconnectedServer.Update
      [(mkEvent ENetEventType.RECEIVE 0 (int64Bytes (Scramble 110)), okEnv 100)]
      0 100 100).state 0 = some EStateConnection.Connected ∧
    (reconnectedServer.Update
      [(mkEvent ENetEventType.RECEIVE 0 (int64Bytes (Scramble 110)), okEnv 100)]
      0 100 100).m_HandshakeList = [⟨some 0, some 0, 2⟩] := by
  decide

/-- A 3-byte packet on slot 0 of the handshaking example server. -/
theorem handshake_wrong_length_witness :
    (handshakingServer.Update [(mkEvent ENetEventType.RECEIVE 0 [1, 2, 3], okEnv 100)]
      0 100 100).state 0 = some EStateConnection.Handshake ∧
    (handshakingServer.Update [(mkEvent ENetEventType.RECEIVE 0 [1, 2, 3], okEnv 100)]
      0 100 100).signals = handshakingServer.signals :=
  have h := handshake_wrong_length handshakingServer 0
    ⟨7, 0, some ⟨none, 102, EStateConnection.Handshake, 1⟩⟩
    ⟨none, 102, EStateConnection.Handshake, 1⟩
    (mkEvent ENetEventType.RECEIVE 0 [1, 2, 3]) (okEnv 100) 0 100 100
    (by decide) rfl rfl rfl rfl (by decide)
  ⟨h.2.1, h.2.2.1⟩

/-- Claim C4, failing input. On the server reached by `CONNECT`, `DISCONNECT`, `CONNECT`
for slot 0 the slot is queued twice, because the `DISCONNECT` case does not dequeue it.
After a 3-byte packet from the slot, which is in `Handshake`, the peer is not removed from
the handshake list: one entry of the slot is left. -/
theorem wrong_length_keeps_second_entry :
    reconnectedServer.m_Server = true ∧
    reconnectedServer.state 0 = some EStateConnection.Handshake ∧
    (reconnectedServer.Update [(mkEvent ENetEventType.RECEIVE 0 [1, 2, 3], okEnv 100)]
      0 100 100).m_HandshakeList = [⟨some 0, some 0, 2⟩] := by
  decide

/-- The server challenge on slot 0 of the example server at second 100. -/
theorem server_connect_challenge_witness :
    (exampleServer.Update [(mkEvent ENetEventType.CONNECT 0 [], okEnv 100)] 0 100 100).session 0 =
      some ⟨none, 102, EStateConnection.Handshake, 1⟩ :=
  (server_connect_challenge exampleServer 0 Session.init
    (mkEvent ENetEventType.CONNECT 0 []) (okEnv 100) 0 100 100 rfl (by decide) rfl rfl
    (by decide) rfl).1

/-- Claim C5, failing input. On the example server the transport reports `CONNECT` for
slot 0 at second 100: the key is 102, the only request made of the transport is the send
of the bytes of 102, the key in clear, and these are not the bytes of `Scramble(102)`. -/
theorem server_connect_payload_not_scrambled :
    (exampleServer.Update [(mkEvent ENetEventType.CONNECT 0 [], okEnv 100)] 0 100 100).session 0 =
      some ⟨none, 102, EStateConnection.Handshake, 1⟩ ∧
    (exampleServer.Update [(mkEvent ENetEventType.CONNECT 0 [], okEnv 100)] 0 100 100).calls =
      [ENetCall.peer_send 0 0 ⟨ENET_PACKET_FLAG_RELIABLE, int64Bytes 102⟩] ∧
    int64Bytes 102 ≠ int64Bytes (Scramble 102) := by
  decide

/-- C6, on slot 0 of the handshaking example client (peer id 7) receiving the bytes of
102 and then the bytes of `102 XOR 8 = 110`. -/
theorem client_second_message_witness :
    ((handshakingClient.Update
        [(mkEvent ENetEventType.RECEIVE 0 (int64Bytes 102), okEnv 100)] 0 100 100).Update
        [(mkEvent ENetEventType.RECEIVE 0 (int64Bytes 110), okEnv 100)] 0 100 100).session 0 =
      some ⟨none, xorU64 (Scramble (readInt64 (int64Bytes 102))) (7 + 1),
        EStateConnection.Connected, 1⟩ :=
  ((client_second_message handshakingClient 0
    ⟨7, 0, some ⟨none, 0, EStateConnection.Handshake, 1⟩⟩
    ⟨none, 0, EStateConnection.Handshake, 1⟩
    (mkEvent ENetEventType.RECEIVE 0 (int64Bytes 102))
    (mkEvent ENetEventType.RECEIVE 0 (int64Bytes 110)) (okEnv 100) (okEnv 100) 0 100 100 100
    rfl (by decide) rfl rfl rfl rfl rfl (by decide) rfl rfl (by decide) (by decide)).2.2.1
    (by decide)).1

/-- C6 as stated fails on the handshaking example client (peer id 7) when the first
message is `Scramble(8)`: the derived key is 0, and the next message is treated as a first
message again, so that a message whose scramble equals the key 0 neither connects the
session nor emits an event, and a message whose scramble differs does not reset the
peer. -/
theorem client_zero_key_repeats_first_message :
    handshakingClient.session 0 = some ⟨none, 0, EStateConnection.Handshake, 1⟩ ∧
    (handshakingClient.Update
      [(mkEvent ENetEventType.RECEIVE 0 (int64Bytes (Scramble 8)), okEnv 100)]
      0 100 100).session 0 = some ⟨none, 0, EStateConnection.Handshake, 1⟩ ∧
    (0 : Int) = Scramble (readInt64 (int64Bytes (Scramble 0))) ∧
    ((handshakingClient.Update
      [(mkEvent ENetEventType.RECEIVE 0 (int64Bytes (Scramble 8)), okEnv 100)] 0 100 100).Update
      [(mkEvent ENetEventType.RECEIVE 0 (int64Bytes (Scramble 0)), okEnv 100)]
      0 100 100).session 0 = some ⟨none, 8, EStateConnection.Handshake, 1⟩ ∧
    ((handshakingClient.Update
      [(mkEvent ENetEventType.RECEIVE 0 (int64Bytes (Scramble 8)), okEnv 100)] 0 100 100).Update
      [(mkEvent ENetEventType.RECEIVE 0 (int64Bytes (Scramble 0)), okEnv 100)]
      0 100 100).signals = [] ∧
    (0 : Int) ≠ Scramble (readInt64 (int64Bytes 5)) ∧
    ENetCall.peer_reset 0 ∉ ((handshakingClient.Update
      [(mkEvent ENetEventType.RECEIVE 0 (int64Bytes (Scramble 8)), okEnv 100)] 0 100 100).Update
      [(mkEvent ENetEventType.RECEIVE 0 (int64Bytes 5), okEnv 100)]
      0 100 100).calls := by
  decide

/-- C7, on the example server: slot 0 gets `CONNECT` at second 100 and an `Update`
without events at second 102 erases it from the handshake list and resets it. -/
theorem handshake_queue_timeout_witness :
    handshakingServer.m_HandshakeList = [⟨some 0, some 0, 1⟩] ∧
    (handshakingServer.Update [] 0 100 102).m_HandshakeList = [] ∧
    (handshakingServer.Update [] 0 100 102).calls =
      handshakingServer.calls ++ [ENetCall.peer_reset 0] ∧
    (handshakingServer.Update [] 0 100 102).signals = exampleServer.signals :=
  have h := (handshake_queue_timeout exampleServer [] 0 100 0).2.2 0 Session.init 100 102
    rfl rfl rfl (by decide) (by decide)
  ⟨h.1, h.2.2.1, h.2.2.2.1, h.2.2.2.2⟩

/-- C8: on the server reached by `CONNECT` for slots 0 and 1 at second 100, then
`DISCONNECT` and `CONNECT` for slot 0 at second 101, the handshake list reads the keys
103, 102, 103 from head to tail, which is not non-decreasing, and an `Update` at second
102 leaves the expired slot 1 in the list because the head has not expired. -/
theorem handshake_queue_out_of_order :
    reorderedServer.m_Server = true ∧
    reorderedServer.m_HandshakeList =
      [⟨some 0, some 0, 1⟩, ⟨some 0, some 1, 1⟩, ⟨some 0, some 0, 2⟩] ∧
    reorderedServer.queueKeys = [103, 102, 103] ∧
    ¬ reorderedServer.queueKeys.Pairwise (fun a b => a ≤ b) ∧
    reorderedServer.Update [] 0 100 102 = reorderedServer := by
  decide

/-! ## `Disconnect` and `Send` through a valid handle -/

theorem Valid_setSession (net : Network) (c : Connection) (i : Nat) (s s' : Session)
    (hp : c.m_Peer = some i) (hs : net.session i = some s)
    (hseq : s'.m_Sequence = s.m_Sequence) :
    c.Valid (net.setSession i s') = c.Valid net := by
  obtain ⟨p, hpeer, _⟩ := peer_of_session net i s hs
  unfold Connection.Valid
  rw [hp]
  cases c.m_Net <;> simp [session_setSession, hpeer, hs, hseq]

theorem Valid_call (net : Network) (c : Connection) (x : ENetCall) :
    c.Valid (net.call x) = c.Valid net := rfl

theorem Disconnect_of_active (net : Network) (c : Connection) (i : Nat) (s : Session)
    (flag : EResetConnection) (d : Nat)
    (hvalid : c.Valid net = true) (hp : c.m_Peer = some i) (hs : net.session i = some s)
    (h1 : s.m_State ≠ EStateConnection.Disconnecting)
    (h2 : s.m_State ≠ EStateConnection.Disconnected) :
    c.Disconnect net flag d =
      match flag with
      | EResetConnection.Default =>
        (net.setSession i { s with m_State := EStateConnection.Disconnecting }).call
          (ENetCall.peer_disconnect_later i d)
      | EResetConnection.Update =>
        (net.setSession i { s with m_State := EStateConnection.Disconnecting }).call
          (ENetCall.peer_disconnect i d)
      | EResetConnection.Force =>
        (net.setSession i { s with m_State := EStateConnection.Disconnected }).call
          (ENetCall.peer_reset i)
      | EResetConnection.Now =>
        (net.setSession i { s with m_State := EStateConnection.Disconnecting }).call
          (ENetCall.peer_disconnect_now i d) := by
  cases flag <;> simp [Connection.Disconnect, hvalid, hp, hs, h1, h2]

theorem Disconnect_of_inactive (net : Network) (c : Connection) (i : Nat) (s : Session)
    (flag : EResetConnection) (d : Nat)
    (hp : c.m_Peer = some i) (hs : net.session i = some s)
    (h : s.m_State = EStateConnection.Disconnecting ∨
      s.m_State = EStateConnection.Disconnected) :
    c.Disconnect net flag d = net := by
  unfold Connection.Disconnect
  rcases h with h | h <;> simp [hp, hs, h]

/-- C11: through a valid handle whose session is `Connecting`, `Handshake` or `Connected`,
`Disconnect` with `Default`, `Update` and `Now` sets the state to `Disconnecting` and asks
the transport for disconnect-later, disconnect and disconnect-now; with `Force` it sets
the state to `Disconnected` and resets the transport peer. With every flag no signal is
emitted, the sequence of the slot is kept and the other sessions are untouched. -/
theorem Disconnect_flags (net : Network) (c : Connection) (i : Nat) (s : Session) (d : Nat)
    (hvalid : c.Valid net = true) (hp : c.m_Peer = some i) (hs : net.session i = some s)
    (hstate : s.m_State = EStateConnection.Connecting ∨
      s.m_State = EStateConnection.Handshake ∨ s.m_State = EStateConnection.Connected) :
    ((c.Disconnect net EResetConnection.Default d).session i =
        some { s with m_State := EStateConnection.Disconnecting } ∧
      (c.Disconnect net EResetConnection.Default d).calls =
        net.calls ++ [ENetCall.peer_disconnect_later i d]) ∧
    ((c.Disconnect net EResetConnection.Update d).session i =
        some { s with m_State := EStateConnection.Disconnecting } ∧
      (c.Disconnect net EResetConnection.Update d).calls =
        net.calls ++ [ENetCall.peer_disconnect i d]) ∧
    ((c.Disconnect net EResetConnection.Now d).session i =
        some { s with m_State := EStateConnection.Disconnecting } ∧
      (c.Disconnect net EResetConnection.Now d).calls =
        net.calls ++ [ENetCall.peer_disconnect_now i d]) ∧
    ((c.Disconnect net EResetConnection.Force d).session i =
        some { s with m_State := EStateConnection.Disconnected } ∧
      (c.Disconnect net EResetConnection.Force d).calls =
        net.calls ++ [ENetCall.peer_reset i]) ∧
    (∀ flag, (c.Disconnect net flag d).signals = net.signals ∧
      ((c.Disconnect net flag d).session i).map (fun x => x.m_Sequence) =
        some s.m_Sequence ∧
      ∀ j, j ≠ i → (c.Disconnect net flag d).session j = net.session j) := by
  have h1 : s.m_State ≠ EStateConnection.Disconnecting := by
    rcases hstate with h | h | h <;> simp [h]
  have h2 : s.m_State ≠ EStateConnection.Disconnected := by
    rcases hstate with h | h | h <;> simp [h]
  obtain ⟨p, hpeer, _⟩ := peer_of_session net i s hs
  have hd := fun flag => Disconnect_of_active net c i s flag d hvalid hp hs h1 h2
  refine ⟨?_, ?_, ?_, ?_, ?_⟩
  · rw [hd]; simp [session_setSession, hpeer]
  · rw [hd]; simp [session_setSession, hpeer]
  · rw [hd]; simp [session_setSession, hpeer]
  · rw [hd]; simp [session_setSession, hpeer]
  · intro flag
    rw [hd]
    cases flag <;> simp [session_setSession, hpeer] <;> intro j hj <;> simp [hj]

/-- C12: through a valid handle whose session is `Disconnecting` or `Disconnected`,
`Disconnect` returns the network unchanged, whatever the flag and the data; and for every
handle and network a second `Disconnect` after a first one changes nothing more. -/
theorem Disconnect_idempotent (net : Network) (c : Connection)
    (flag flag2 : EResetConnection) (d d2 : Nat) :
    (∀ i s, c.Valid net = true → c.m_Peer = some i → net.session i = some s →
      (s.m_State = EStateConnection.Disconnecting ∨
        s.m_State = EStateConnection.Disconnected) →
      c.Disconnect net flag d = net) ∧
    c.Disconnect (c.Disconnect net flag d) flag2 d2 = c.Disconnect net flag d := by
  constructor
  · intro i s _ hp hs h
    exact Disconnect_of_inactive net c i s flag d hp hs h
  · by_cases hvalid : c.Valid net = true
    · cases hp : c.m_Peer with
      | none => simp [Connection.Disconnect, hp]
      | some i =>
        cases hs : net.session i with
        | none => simp [Connection.Disconnect, hp, hs]
        | some s =>
          by_cases hact : s.m_State = EStateConnection.Disconnecting ∨
              s.m_State = EStateConnection.Disconnected
          · rw [Disconnect_of_inactive net c i s flag d hp hs hact]
            exact Disconnect_of_inactive net c i s flag2 d2 hp hs hact
          · have h1 : s.m_State ≠ EStateConnection.Disconnecting := fun h => hact (Or.inl h)
            have h2 : s.m_State ≠ EStateConnection.Disconnected := fun h => hact (Or.inr h)
            obtain ⟨p, hpeer, _⟩ := peer_of_session net i s hs
            rw [Disconnect_of_active net c i s flag d hvalid hp hs h1 h2]
            cases flag
            all_goals
              refine Disconnect_of_inactive _ c i _ flag2 d2 hp
                (by simp [session_setSession, hpeer]; rfl) (by simp)
    · have hv : c.Valid net = false := by simpa using hvalid
      have : c.Disconnect net flag d = net := by simp [Connection.Disconnect, hv]
      rw [this]
      simp [Connection.Disconnect, hv]

/-- C13: through a valid handle `Send` returns the network unchanged unless the session is
`Connected`; when it is `Connected` and memory is available, the only effect is one send
to the slot, on the given channel, of a packet whose flags are those mapped from the
message type and whose data are the first `size` bytes given (all of them when `size` is
their number); without memory nothing is sent. The mapped flags are 0 for `None`, the
reliable flag for `Reliable`, the unreliable-fragmented flag for `Fragmented` and the
unsequenced flag for `Unsequenced`, and no two message types share their flags. -/
theorem Send_only_when_connected (net : Network) (c : Connection) (i : Nat) (s : Session)
    (type : EMessage) (channel : Nat) (data : List Nat) (size : Nat) (mallocOk : Bool)
    (hvalid : c.Valid net = true) (hp : c.m_Peer = some i) (hs : net.session i = some s) :
    (s.m_State ≠ EStateConnection.Connected →
      c.Send net type channel data size mallocOk = net) ∧
    (s.m_State = EStateConnection.Connected → mallocOk = true →
      c.Send net type channel data size mallocOk =
        net.call (ENetCall.peer_send i channel ⟨packetFlags type, data.take size⟩) ∧
      (size = data.length → data.take size = data)) ∧
    (mallocOk = false → c.Send net type channel data size mallocOk = net) ∧
    (s.m_State = EStateConnection.Connected →
      c.Send net EMessage.None channel data size true =
        net.call (ENetCall.peer_send i channel ⟨0, data.take size⟩) ∧
      c.Send net EMessage.Reliable channel data size true =
        net.call (ENetCall.peer_send i channel ⟨ENET_PACKET_FLAG_RELIABLE, data.take size⟩) ∧
      c.Send net EMessage.Fragmented channel data size true =
        net.call (ENetCall.peer_send i channel
          ⟨ENET_PACKET_FLAG_UNRELIABLE_FRAGMENTED, data.take size⟩) ∧
      c.Send net EMessage.Unsequenced channel data size true =
        net.call (ENetCall.peer_send i channel
          ⟨ENET_PACKET_FLAG_UNSEQUENCED, data.take size⟩)) ∧
    (∀ t1 t2, packetFlags t1 = packetFlags t2 → t1 = t2) := by
  refine ⟨?_, ?_, ?_, ?_, ?_⟩
  · intro h
    simp [Connection.Send, hvalid, hp, hs, h]
  · intro h hm
    refine ⟨by simp [Connection.Send, hvalid, hp, hs, h, hm], ?_⟩
    intro hsz
    rw [hsz, List.take_length]
  · intro hm
    simp [Connection.Send, hvalid, hp, hs, hm]
  · intro h
    refine ⟨?_, ?_, ?_, ?_⟩ <;> simp [Connection.Send, hvalid, hp, hs, h, packetFlags]
  · intro t1 t2
    cases t1 <;> cases t2 <;> decide

/-- C14: decoding the flags that `Send` and `Broadcast` produce for a message type gives
that type back, and every flags value produced for no message type decodes to `Reliable`;
`Broadcast` on a valid network hands the transport a packet with the flags mapped from
the type. -/
theorem messageType_packetFlags :
    (∀ type, messageType (packetFlags type) = type) ∧
    (∀ flags, (∀ type, flags ≠ packetFlags type) → messageType flags = EMessage.Reliable) ∧
    (∀ (net : Network) (type : EMessage) (channel : Nat) (data : List Nat) (size : Nat),
      net.Valid = true →
      net.Broadcast type channel data size true =
        net.call (ENetCall.host_broadcast channel ⟨packetFlags type, data.take size⟩)) := by
  refine ⟨?_, ?_, ?_⟩
  · intro type; cases type <;> decide
  · intro flags h
    have h0 := h EMessage.None
    have h1 := h EMessage.Reliable
    have h2 := h EMessage.Fragmented
    have h3 := h EMessage.Unsequenced
    simp only [packetFlags] at h0 h1 h2 h3
    simp [messageType, h0, h1, h2, h3]
  · intro net type channel data size hv
    simp [Network.Broadcast, hv]

/-- C15: when `Update` dispatches `DISCONNECT` (respectively `DISCONNECT_TIMEOUT`) for a
slot, whatever the state of its session, it emits exactly one `Event` of type `Disconnect`
(respectively `Timeout`) carrying the data of the transport event and a handle that is
valid in the network as it is when the event is emitted; afterwards the session is
`Disconnected` and otherwise as before (same sequence, key and user data). -/
theorem disconnect_event (net : Network) (i : Nat) (p : ENetPeer) (s : Session)
    (event : ENetEvent) (env : Env) (timeout limit : Nat) (timenow : Int)
    (hpeer : net.peer i = some p) (hdata : p.data = some s) (hi : event.peer = i) :
    (Connection.create net i).Valid net = true ∧
    (event.type = ENetEventType.DISCONNECT →
      (net.Update [(event, env)] timeout limit timenow).signals = net.signals ++
        [Signal.Event (Connection.create net i) event.data EStateEvent.Disconnect] ∧
      (net.Update [(event, env)] timeout limit timenow).session i =
        some { s with m_State := EStateConnection.Disconnected }) ∧
    (event.type = ENetEventType.DISCONNECT_TIMEOUT →
      (net.Update [(event, env)] timeout limit timenow).signals = net.signals ++
        [Signal.Event (Connection.create net i) event.data EStateEvent.Timeout] ∧
      (net.Update [(event, env)] timeout limit timenow).session i =
        some { s with m_State := EStateConnection.Disconnected }) := by
  have hs : net.session i = some s := by rw [session_of_peer net i p hpeer, hdata]
  subst hi
  refine ⟨?_, ?_, ?_⟩
  · simp [Connection.Valid, Connection.create, hs]
  · intro ht
    rw [Update_singleton, checkHandshake_signals, checkHandshake_session]
    simp [Network.dispatch, ht, Network.onDisconnect, hs, session_setSession, hpeer]
  · intro ht
    rw [Update_singleton, checkHandshake_signals, checkHandshake_session]
    simp [Network.dispatch, ht, Network.onDisconnect, hs, session_setSession, hpeer]

/-! ## `CreateClient` -/

theorem session_fresh_host (net : Network) (server : Bool) (env : HostEnv) (j : Nat) (s : Session)
    (hnet : net.m_Host = Network.CreateHost server env) (h : net.session j = some s) :
    s = Session.init := by
  unfold Network.session Network.peer at h
  rw [hnet] at h
  cases hc : Network.CreateHost server env with
  | none => simp [hc] at h
  | some host =>
    have hhost : ∀ p ∈ host.peers, p.data = some Session.init := by
      unfold Network.CreateHost at hc
      simp only at hc
      split at hc
      · rename_i h0 _
        simp only [Option.some.injEq] at hc
        subst hc
        intro p hp
        simp only [List.mem_map] at hp
        obtain ⟨q, _, rfl⟩ := hp
        rfl
      · simp at hc
    simp only [hc] at h
    cases hp : host.peers[j]? with
    | none => simp [hp] at h
    | some p =>
      simp only [hp] at h
      obtain ⟨hj, hpj⟩ := List.getElem?_eq_some_iff.mp hp
      have := hhost p (hpj ▸ List.getElem_mem hj)
      rw [this] at h
      exact (Option.some.inj h).symm

theorem session_eq_none_of_no_host (net : Network) (j : Nat) (h : net.m_Host = none) :
    net.session j = none := by
  simp [Network.session, Network.peer, h]

/-- The network in which `CreateClient` looks for a slot: the given one, or the given one
with a freshly created client host when it had none. -/
theorem CreateClient_cases (net : Network) (env : HostEnv) :
    (net.CreateClient env = (false, net)) ∨
    (net.m_Host = none ∧
      net.CreateClient env =
        (false, { net with m_Server := false, m_Host := Network.CreateHost false env })) ∨
    (∃ base peer prev, env.connect = some peer ∧
      (base = net ∨ (net.m_Host = none ∧
        base = { net with m_Server := false, m_Host := Network.CreateHost false env })) ∧
      base.session peer = some prev ∧
      net.CreateClient env = (true, base.setSession peer
        ⟨none, 0, EStateConnection.Connecting, (prev.m_Sequence + 1) % 256⟩)) := by
  unfold Network.CreateClient
  by_cases hinit : (!net.m_Initialized) = true
  · left; rw [if_pos hinit]
  rw [if_neg hinit]
  by_cases hsrv : (net.m_Host.isSome && net.m_Server) = true
  · left; rw [if_pos hsrv]
  rw [if_neg hsrv]
  cases hh : net.m_Host with
  | some host =>
    have e1 : (if (some host : Option ENetHost).isNone = true then
        ({ net with m_Server := false, m_Host := Network.CreateHost false env } : Network)
        else net) = net := by simp
    simp only [e1, hh, Option.isSome_some, if_true]
    cases ha : Network.CreateAddress env
    · left; simp
    · cases hc : env.connect with
      | none => left; simp
      | some peer =>
        cases hs : net.session peer with
        | none => left; simp [hs]
        | some prev =>
          right; right
          exact ⟨net, peer, prev, rfl, Or.inl rfl, hs, by simp [hs]⟩
  | none =>
    rw [if_pos (show (none : Option ENetHost).isNone = true from rfl)]
    generalize hbase : ({ net with m_Server := false, m_Host := Network.CreateHost false env }
      : Network) = base
    by_cases hb : base.m_Host.isSome = true
    · rw [if_pos hb]
      cases ha : Network.CreateAddress env
      · right; left; simp
      · cases hc : env.connect with
        | none => right; left; simp
        | some peer =>
          cases hs : base.session peer with
          | none => right; left; simp [hs]
          | some prev =>
            right; right
            exact ⟨base, peer, prev, rfl, Or.inr ⟨rfl, rfl⟩, hs, by simp [hs]⟩
    · right; left; rw [if_neg hb]; simp

/-- C16: when `CreateClient` returns true, the slot the transport chose holds a session in
`Connecting` with key 0, no user data and the previous sequence plus one modulo 256, where
the previous session is the one the slot had, or the value-initialised one when the host
was created by this call; the session of every other slot is the one it had, or
value-initialised on a host created by this call. When `CreateClient` returns false every
session that existed is unchanged and any other session is value-initialised, on a host
created by this call. -/
theorem CreateClient_sessions (net : Network) (env : HostEnv) :
    ((net.CreateClient env).1 = true →
      ∃ peer prev, env.connect = some peer ∧
        (net.session peer = some prev ∨ (net.m_Host = none ∧ prev = Session.init)) ∧
        (net.CreateClient env).2.session peer =
          some ⟨none, 0, EStateConnection.Connecting, (prev.m_Sequence + 1) % 256⟩ ∧
        (∀ j s, j ≠ peer → net.session j = some s →
          (net.CreateClient env).2.session j = some s) ∧
        (∀ j s, j ≠ peer → (net.CreateClient env).2.session j = some s →
          net.session j = some s ∨ (net.m_Host = none ∧ s = Session.init))) ∧
    ((net.CreateClient env).1 = false →
      (∀ j s, net.session j = some s → (net.CreateClient env).2.session j = some s) ∧
      (∀ j s, (net.CreateClient env).2.session j = some s →
        net.session j = some s ∨ (net.m_Host = none ∧ s = Session.init))) := by
  rcases CreateClient_cases net env with h | ⟨hh, h⟩ | ⟨base, peer, prev, hc, hbase, hs, h⟩
  · rw [h]
    refine ⟨by simp, fun _ => ⟨fun j s hj => hj, fun j s hj => Or.inl hj⟩⟩
  · rw [h]
    refine ⟨by simp, fun _ => ⟨?_, ?_⟩⟩
    · intro j s hj
      rw [session_eq_none_of_no_host net j hh] at hj
      simp at hj
    · intro j s hj
      exact Or.inr ⟨hh, session_fresh_host _ false env j s rfl hj⟩
  · rw [h]
    obtain ⟨p, hpeer, _⟩ := peer_of_session base peer prev hs
    refine ⟨fun _ => ⟨peer, prev, hc, ?_, ?_, ?_, ?_⟩, by simp⟩
    · rcases hbase with hb | ⟨hh, hb⟩
      · left; rw [← hb]; exact hs
      · right; exact ⟨hh, session_fresh_host base false env peer prev (by rw [hb]) hs⟩
    · simp [session_setSession, hpeer]
    · intro j s hj hjs
      simp only [session_setSession, hj, if_false]
      rcases hbase with hb | ⟨hh, _⟩
      · rw [hb]; exact hjs
      · rw [session_eq_none_of_no_host net j hh] at hjs
        simp at hjs
    · intro j s hj hjs
      simp only [session_setSession, hj, if_false] at hjs
      rcases hbase with hb | ⟨hh, hb⟩
      · left; rw [← hb]; exact hjs
      · right; exact ⟨hh, session_fresh_host base false env j s (by rw [hb]) hjs⟩

/-! ## Network ids -/

/-- The invariant of the manager after `c` creations: the counter is `c` reduced to 16
bits, the ids of the live networks are below `c` and increase along the list. -/
theorem ids_after_calls (calls : List ManagerCall) (m : Manager) (c : Nat)
    (h1 : m.m_NetworkSequenceID = c % 65536)
    (h2 : ∀ net ∈ m.m_Networks, net.GetID < c)
    (h3 : (m.m_Networks.map Network.GetID).Pairwise (fun a b => a < b))
    (hc : c + creations calls ≤ 65536) :
    m.createdIDs calls = List.range' c (creations calls) ∧
    (m.run calls).m_NetworkSequenceID = (c + creations calls) % 65536 ∧
    (∀ net ∈ (m.run calls).m_Networks, net.GetID < c + creations calls) ∧
    ((m.run calls).m_Networks.map Network.GetID).Pairwise (fun a b => a < b) := by
  induction calls generalizing m c with
  | nil => exact ⟨rfl, by simpa [Manager.run, creations] using h1, by simpa [Manager.run, creations] using h2, h3⟩
  | cons call rest ih =>
    cases call with
    | CreateNetwork enetOk =>
      simp only [creations] at hc ⊢
      have hlt : c < 65536 := by omega
      have hid : m.m_NetworkSequenceID = c := by rw [h1]; exact Nat.mod_eq_of_lt hlt
      have := ih (m.CreateNetwork enetOk).2 (c + 1)
        (by simp [Manager.CreateNetwork, hid])
        (by
          intro net hnet
          simp only [Manager.CreateNetwork, List.mem_append, List.mem_singleton] at hnet
          rcases hnet with h | h
          · exact Nat.lt_succ_of_lt (h2 net h)
          · subst h; simp [Network.GetID, Network.new, hid])
        (by
          simp only [Manager.CreateNetwork, List.map_append, List.map_cons, List.map_nil]
          rw [List.pairwise_append]
          refine ⟨h3, by simp, ?_⟩
          intro a ha b hb
          simp only [List.mem_singleton] at hb
          subst hb
          simp only [List.mem_map] at ha
          obtain ⟨net, hnet, rfl⟩ := ha
          simpa [Network.GetID, Network.new, hid] using h2 net hnet)
        (by omega)
      obtain ⟨i1, i2, i3, i4⟩ := this
      refine ⟨?_, ?_, ?_, ?_⟩
      · simp only [Manager.createdIDs]
        rw [i1, List.range'_succ]
        simp [Manager.CreateNetwork, Network.GetID, Network.new, hid]
      · simp only [Manager.run]; rw [i2]; congr 1; omega
      · simp only [Manager.run]; intro net hnet; have := i3 net hnet; omega
      · simpa only [Manager.run] using i4
    | RemoveNetwork id =>
      simp only [creations] at hc ⊢
      have hsub : (m.RemoveNetwork id).m_Networks.Sublist m.m_Networks := List.eraseP_sublist _
      have := ih (m.RemoveNetwork id) c (by simpa [Manager.RemoveNetwork] using h1)
        (fun net hnet => h2 net (hsub.subset hnet))
        (h3.sublist (hsub.map _)) hc
      simpa only [Manager.createdIDs, Manager.run] using this

theorem GetID_injOn (l : List Network)
    (h : (l.map Network.GetID).Pairwise (fun a b => a < b))
    (a b : Network) (ha : a ∈ l) (hb : b ∈ l) (hab : a.GetID = b.GetID) : a = b := by
  induction l with
  | nil => simp at ha
  | cons x l ih =>
    simp only [List.map_cons, List.pairwise_cons] at h
    rcases List.mem_cons.mp ha with ha1 | ha1 <;> rcases List.mem_cons.mp hb with hb1 | hb1
    · rw [ha1, hb1]
    · subst ha1
      have := h.1 b.GetID (List.mem_map_of_mem _ hb1)
      omega
    · subst hb1
      have := h.1 a.GetID (List.mem_map_of_mem _ ha1)
      omega
    · exact ih h.2 ha1 hb1

theorem GetNetwork_iff (m : Manager)
    (h : (m.m_Networks.map Network.GetID).Pairwise (fun a b => a < b))
    (id : Nat) (net : Network) :
    m.GetNetwork id = some net ↔ net ∈ m.m_Networks ∧ net.GetID = id := by
  unfold Manager.GetNetwork
  constructor
  · intro hf
    exact ⟨List.mem_of_find?_eq_some hf, by simpa using List.find?_some hf⟩
  · rintro ⟨hmem, hid⟩
    cases hf : m.m_Networks.find? (fun net => net.GetID == id) with
    | none =>
      rw [List.find?_eq_none] at hf
      exact absurd (by simpa using hid) (hf net hmem)
    | some net' =>
      have h1 := List.mem_of_find?_eq_some hf
      have h2 : net'.GetID = id := by simpa using List.find?_some hf
      rw [GetID_injOn m.m_Networks h net' net h1 hmem (by rw [h2, hid])]

/-- C17 (as amended): for every sequence of `CreateNetwork` and `RemoveNetwork` calls on a
new manager with at most 65536 `CreateNetwork` calls, the n-th network created has id
n - 1, so that each id is greater than all ids created before; the ids of the live
networks increase along the list, and `GetNetwork(id)` returns a network exactly when it is
the live network with that id. -/
theorem network_ids_increase (calls : List ManagerCall) (h : creations calls ≤ 65536) :
    Manager.new.createdIDs calls = List.range (creations calls) ∧
    (Manager.new.createdIDs calls).Pairwise (fun a b => a < b) ∧
    ((Manager.new.run calls).m_Networks.map Network.GetID).Pairwise (fun a b => a < b) ∧
    (∀ id net, (Manager.new.run calls).GetNetwork id = some net ↔
      net ∈ (Manager.new.run calls).m_Networks ∧ net.GetID = id) := by
  obtain ⟨i1, _, _, i4⟩ := ids_after_calls calls Manager.new 0 rfl (by simp [Manager.new])
    (by simp [Manager.new]) (by omega)
  have e : Manager.new.createdIDs calls = List.range (creations calls) := by
    rw [i1, List.range_eq_range']
  refine ⟨e, ?_, i4, fun id net => GetNetwork_iff _ i4 id net⟩
  rw [e]
  exact List.pairwise_lt_range _

theorem run_append (m : Manager) (l1 l2 : List ManagerCall) :
    m.run (l1 ++ l2) = (m.run l1).run l2 := by
  induction l1 generalizing m with
  | nil => rfl
  | cons c l1 ih => cases c <;> simp [Manager.run, ih]

theorem createdIDs_append (m : Manager) (l1 l2 : List ManagerCall) :
    m.createdIDs (l1 ++ l2) = m.createdIDs l1 ++ (m.run l1).createdIDs l2 := by
  induction l1 generalizing m with
  | nil => rfl
  | cons c l1 ih => cases c <;> simp [Manager.run, Manager.createdIDs, ih]

theorem run_createAndRemove (n first : Nat) (m : Manager)
    (h1 : m.m_Networks = [Network.new 0 true]) (h2 : m.m_NetworkSequenceID = first % 65536)
    (h3 : 1 ≤ first) (h4 : first + n ≤ 65536) :
    m.run (createAndRemove first n) =
      { m with m_NetworkSequenceID := (first + n) % 65536 } ∧
    m.createdIDs (createAndRemove first n) = List.range' first n := by
  induction n generalizing first m with
  | zero =>
    simp [createAndRemove, Manager.run, Manager.createdIDs, ← h2]
  | succ n ih =>
    have hlt : first < 65536 := by omega
    have hid : m.m_NetworkSequenceID = first := by rw [h2]; exact Nat.mod_eq_of_lt hlt
    have hne : ¬ (0 = first) := by omega
    have hstep : ((m.CreateNetwork true).2.RemoveNetwork first) =
        { m with m_NetworkSequenceID := (first + 1) % 65536 } := by
      simp [Manager.CreateNetwork, Manager.RemoveNetwork, h1, hid, Network.GetID, Network.new,
        List.eraseP_cons, hne]
    obtain ⟨i1, i2⟩ := ih (first + 1) { m with m_NetworkSequenceID := (first + 1) % 65536 }
      h1 rfl (by omega) (by omega)
    constructor
    · simp only [createAndRemove, Manager.run, hstep, i1]
      congr 1
      omega
    · simp only [createAndRemove, Manager.createdIDs, Manager.run, hstep, i2]
      simp [Manager.CreateNetwork, Network.GetID, Network.new, hid, List.range'_succ]

theorem creations_createAndRemove (n first : Nat) (tail : List ManagerCall) :
    creations (createAndRemove first n ++ tail) = n + creations tail := by
  induction n generalizing first with
  | zero => simp [createAndRemove]
  | succ n ih =>
    show creations (createAndRemove (first + 1) n ++ tail) + 1 = n + 1 + creations tail
    rw [ih]; omega

theorem wrap_after (n : Nat) (h : 1 + n = 65536) :
    creations (ManagerCall.CreateNetwork true ::
      (createAndRemove 1 n ++ [ManagerCall.CreateNetwork true])) = n + 2 ∧
    (Manager.new.createdIDs (ManagerCall.CreateNetwork true ::
      (createAndRemove 1 n ++ [ManagerCall.CreateNetwork true]))).head? = some 0 ∧
    (Manager.new.createdIDs (ManagerCall.CreateNetwork true ::
      (createAndRemove 1 n ++ [ManagerCall.CreateNetwork true]))).getLast? = some 0 ∧
    (Manager.new.run (ManagerCall.CreateNetwork true ::
      (createAndRemove 1 n ++ [ManagerCall.CreateNetwork true]))).m_Networks =
      [Network.new 0 true, Network.new 0 true] := by
  have hm : (Manager.new.CreateNetwork true).2.m_Networks = [Network.new 0 true] := rfl
  obtain ⟨i1, i2⟩ := run_createAndRemove n 1 (Manager.new.CreateNetwork true).2 hm rfl
    (by omega) (by omega)
  refine ⟨?_, rfl, ?_, ?_⟩
  · simp only [creations, creations_createAndRemove]
  · simp only [Manager.createdIDs, createdIDs_append, i1, i2, h]
    simp only [Manager.createdIDs, Manager.CreateNetwork, Network.GetID, Network.new]
    rw [← List.cons_append, List.getLast?_append]
    simp
  · simp only [Manager.run, run_append, i1, h]
    simp [Manager.run, Manager.CreateNetwork, Manager.new]

/-- C17 as stated fails after 65536 creations: a network is created and kept, 65535
networks are created and removed, and the next network created gets id 0 again, so that
two live networks have id 0. -/
theorem network_id_wraps :
    creations wrappingCalls = 65537 ∧
    (Manager.new.createdIDs wrappingCalls).head? = some 0 ∧
    (Manager.new.createdIDs wrappingCalls).getLast? = some 0 ∧
    (Manager.new.run wrappingCalls).m_Networks = [Network.new 0 true, Network.new 0 true] :=
  wrap_after 65535 rfl

/-- C11, on the handle to slot 0 of the connected example server. -/
theorem Disconnect_flags_witness :
    (connectedHandle.Disconnect connectedServer EResetConnection.Force 3).session 0 =
        some ⟨none, 110, EStateConnection.Disconnected, 1⟩ ∧
      (connectedHandle.Disconnect connectedServer EResetConnection.Force 3).calls =
        connectedServer.calls ++ [ENetCall.peer_reset 0] :=
  (Disconnect_flags connectedServer connectedHandle 0 ⟨none, 110, EStateConnection.Connected, 1⟩
    3 (by decide) rfl (by decide) (Or.inr (Or.inr rfl))).2.2.2.1

/-- C12, on the handle to slot 0 of the connected example server after a forced
disconnect. -/
theorem Disconnect_idempotent_witness :
    connectedHandle.Disconnect
        (connectedHandle.Disconnect connectedServer EResetConnection.Force 3)
        EResetConnection.Default 5 =
      connectedHandle.Disconnect connectedServer EResetConnection.Force 3 :=
  (Disconnect_idempotent connectedServer connectedHandle EResetConnection.Force
    EResetConnection.Default 3 5).2

/-- C13, on the handle to slot 0 of the connected example server: a `Fragmented` message
of three bytes on channel 2 goes out with the unreliable-fragmented flag, 8. -/
theorem Send_only_when_connected_witness :
    ENET_PACKET_FLAG_UNRELIABLE_FRAGMENTED = 8 ∧
    connectedHandle.Send connectedServer EMessage.Fragmented 2 [1, 2, 3] 3 true =
      connectedServer.call (ENetCall.peer_send 0 2
        ⟨ENET_PACKET_FLAG_UNRELIABLE_FRAGMENTED, [1, 2, 3].take 3⟩) :=
  ⟨rfl, ((Send_only_when_connected connectedServer connectedHandle 0
    ⟨none, 110, EStateConnection.Connected, 1⟩ EMessage.Fragmented 2 [1, 2, 3] 3 true
    (by decide) rfl (by decide)).2.2.2.1 rfl).2.2.1⟩

/-- C14, on the flags value 4, which no message type produces. -/
theorem messageType_packetFlags_witness : messageType 4 = EMessage.Reliable :=
  messageType_packetFlags.2.1 4 (by intro type; cases type <;> decide)

/-- C15, on slot 0 of the connected example server. -/
theorem disconnect_event_witness :
    (connectedServer.Update [(mkEvent ENetEventType.DISCONNECT 0 [], okEnv 100)]
        0 100 100).signals = connectedServer.signals ++
        [Signal.Event (Connection.create connectedServer 0)
          (mkEvent ENetEventType.DISCONNECT 0 []).data EStateEvent.Disconnect] ∧
      (connectedServer.Update [(mkEvent ENetEventType.DISCONNECT 0 [], okEnv 100)]
        0 100 100).session 0 = some ⟨none, 110, EStateConnection.Disconnected, 1⟩ :=
  (disconnect_event connectedServer 0 ⟨7, 0, some ⟨none, 110, EStateConnection.Connected, 1⟩⟩
    ⟨none, 110, EStateConnection.Connected, 1⟩ (mkEvent ENetEventType.DISCONNECT 0 [])
    (okEnv 100) 0 100 100 (by decide) rfl rfl).2.1 rfl

/-- C16, on the creation of the example client. -/
theorem CreateClient_sessions_witness :
    ∃ peer prev, (exampleHostEnv [7]).connect = some peer ∧
      ((Network.new 1 true).session peer = some prev ∨
        ((Network.new 1 true).m_Host = none ∧ prev = Session.init)) ∧
      ((Network.new 1 true).CreateClient (exampleHostEnv [7])).2.session peer =
        some ⟨none, 0, EStateConnection.Connecting, (prev.m_Sequence + 1) % 256⟩ ∧
      (∀ j s, j ≠ peer → (Network.new 1 true).session j = some s →
        ((Network.new 1 true).CreateClient (exampleHostEnv [7])).2.session j = some s) ∧
      (∀ j s, j ≠ peer →
        ((Network.new 1 true).CreateClient (exampleHostEnv [7])).2.session j = some s →
        (Network.new 1 true).session j = some s ∨
          ((Network.new 1 true).m_Host = none ∧ s = Session.init)) :=
  (CreateClient_sessions (Network.new 1 true) (exampleHostEnv [7])).1 (by decide)

/-- C17, on three creations with a removal in between. -/
theorem network_ids_increase_witness :
    Manager.new.createdIDs
        [ManagerCall.CreateNetwork true, ManagerCall.CreateNetwork true,
          ManagerCall.RemoveNetwork 0, ManagerCall.CreateNetwork false] =
      List.range (creations
        [ManagerCall.CreateNetwork true, ManagerCall.CreateNetwork true,
          ManagerCall.RemoveNetwork 0, ManagerCall.CreateNetwork false]) :=
  (network_ids_increase
    [ManagerCall.CreateNetwork true, ManagerCall.CreateNetwork true,
      ManagerCall.RemoveNetwork 0, ManagerCall.CreateNetwork false] (by decide)).1

/-! ## The events one `Update` takes -/

theorem taken_initial (pending : List (ENetEvent × Env)) (limit : Nat) :
    taken pending limit <+: pending := by
  induction pending generalizing limit with
  | nil => simp [taken]
  | cons p rest ih =>
    obtain ⟨event, env⟩ := p
    unfold taken
    split_ifs
    · exact ⟨rest, rfl⟩
    · exact (List.prefix_cons_inj _).2 (ih _)
    · exact (List.prefix_cons_inj _).2 (ih _)

theorem counted_cons (p : ENetEvent × Env) (events : List (ENetEvent × Env)) :
    counted (p :: events) =
      if p.1.type ≠ ENetEventType.NONE then p :: counted events else counted events := by
  unfold counted
  by_cases h : p.1.type = ENetEventType.NONE <;> simp [List.filter_cons, h]

theorem counted_taken_le (pending : List (ENetEvent × Env)) (limit : Nat) (h : 0 < limit) :
    (counted (taken pending limit)).length ≤ limit := by
  induction pending generalizing limit with
  | nil => simp [taken, counted]
  | cons p rest ih =>
    obtain ⟨event, env⟩ := p
    unfold taken
    split_ifs with h1 h2
    · rw [counted_cons, if_pos h1.1]
      simp [counted]
      omega
    · rw [counted_cons, if_pos h1.1]
      have := ih (limit - 1) (by omega)
      simp only [List.length_cons]
      omega
    · have hnone : event.type = ENetEventType.NONE := by
        by_contra hne
        exact h1 ⟨hne, by omega⟩
      rw [counted_cons, if_neg (by simpa using hnone)]
      exact ih limit h

theorem dispatchAll_cons (net : Network) (p : ENetEvent × Env)
    (events : List (ENetEvent × Env)) :
    net.dispatchAll (p :: events) = (net.dispatch p.1 p.2).dispatchAll events := by
  simp [Network.dispatchAll]

theorem dispatchAll_nil (net : Network) : net.dispatchAll [] = net := by
  simp [Network.dispatchAll]

theorem dispatch_NONE (net : Network) (event : ENetEvent) (env : Env)
    (h : event.type = ENetEventType.NONE) : net.dispatch event env = net := by
  simp [Network.dispatch, h]

theorem drain_eq_dispatchAll (net : Network) (pending : List (ENetEvent × Env))
    (limit : Nat) : net.drain pending limit = net.dispatchAll (taken pending limit) := by
  induction pending generalizing net limit with
  | nil => simp [Network.drain, taken, dispatchAll_nil]
  | cons p rest ih =>
    obtain ⟨event, env⟩ := p
    unfold Network.drain taken
    split_ifs
    · simp [dispatchAll_cons, dispatchAll_nil]
    · simp [dispatchAll_cons, ih]
    · simp [dispatchAll_cons, ih]

theorem dispatchAll_counted (net : Network) (events : List (ENetEvent × Env)) :
    net.dispatchAll (counted events) = net.dispatchAll events := by
  induction events generalizing net with
  | nil => simp [counted]
  | cons p rest ih =>
    rw [counted_cons]
    by_cases h : p.1.type = ENetEventType.NONE
    · rw [if_neg (by simpa using h), dispatchAll_cons, dispatch_NONE _ _ _ h, ih]
    · rw [if_pos h, dispatchAll_cons, dispatchAll_cons, ih]

theorem taken_append (pending rest : List (ENetEvent × Env)) (limit : Nat) (h : 0 < limit)
    (hfull : (counted (taken pending limit)).length = limit) :
    taken (pending ++ rest) limit = taken pending limit := by
  induction pending generalizing limit with
  | nil => simp [taken, counted] at hfull; omega
  | cons p more ih =>
    obtain ⟨event, env⟩ := p
    rw [List.cons_append]
    unfold taken at hfull ⊢
    split_ifs at hfull ⊢ with h1 h2
    · rfl
    · rw [counted_cons, if_pos h1.1] at hfull
      simp only [List.length_cons] at hfull
      rw [ih (limit - 1) (by omega) (by omega)]
    · have hnone : event.type = ENetEventType.NONE := by
        by_contra hne
        exact h1 ⟨hne, by omega⟩
      rw [counted_cons, if_neg (by simpa using hnone)] at hfull
      rw [ih limit h hfull]

theorem taken_unlimited (pending : List (ENetEvent × Env)) : taken pending 0 = pending := by
  induction pending with
  | nil => simp [taken]
  | cons p rest ih =>
    obtain ⟨event, env⟩ := p
    simp [taken, ih]

/-- Claim C23. One call of `Network::Update` with `eventsLimit = n > 0` takes a prefix of
the pending stream, in the order of the transport; at most `n` of the events taken have a
type other than `ENET_EVENT_TYPE_NONE`, and only those change anything. The call returns
the network reached by dispatching them followed by the handshake check, and once `n` such
events were taken nothing that follows in the stream is looked at. -/
theorem Update_events_limit (net : Network) (pending : List (ENetEvent × Env))
    (timeout n : Nat) (timenow : Int) (h : 0 < n) :
    taken pending n <+: pending ∧ (counted (taken pending n)).length ≤ n ∧
      net.Update pending timeout n timenow =
        (net.dispatchAll (counted (taken pending n))).checkHandshake timenow ∧
      ∀ rest, (counted (taken pending n)).length = n →
        net.Update (pending ++ rest) timeout n timenow =
          net.Update pending timeout n timenow := by
  refine ⟨taken_initial _ _, counted_taken_le _ _ h, ?_, ?_⟩
  · rw [dispatchAll_counted, ← drain_eq_dispatchAll]
    rfl
  · intro rest hfull
    unfold Network.Update
    rw [drain_eq_dispatchAll, drain_eq_dispatchAll, taken_append _ _ _ h hfull]

/-- C23, on the example server with a stream of four events and a limit of two. -/
theorem Update_events_limit_witness :
    taken limitedStream 2 = limitedStream.take 3 ∧
      (taken limitedStream 2 <+: limitedStream ∧ (counted (taken limitedStream 2)).length ≤ 2 ∧
      exampleServer.Update limitedStream 100 2 100 =
        (exampleServer.dispatchAll (counted (taken limitedStream 2))).checkHandshake 100 ∧
      ∀ rest, (counted (taken limitedStream 2)).length = 2 →
        exampleServer.Update (limitedStream ++ rest) 100 2 100 =
          exampleServer.Update limitedStream 100 2 100) :=
  ⟨by decide, Update_events_limit exampleServer limitedStream 100 2 100 (by decide)⟩

/-! ## Session states across one event -/

theorem SendHandshake_session (net : Network) (i : Nat) (key : Int) (env : Env) (j : Nat) :
    (net.SendHandshake i key env).2.session j = net.session j := by
  unfold Network.SendHandshake
  cases env.packetOk <;> cases env.sendOk <;> simp

theorem SendHandshake_signals (net : Network) (i : Nat) (key : Int) (env : Env) :
    (net.SendHandshake i key env).2.signals = net.signals := by
  unfold Network.SendHandshake
  cases env.packetOk <;> cases env.sendOk <;> simp

theorem SendHandshake_peer (net : Network) (i : Nat) (key : Int) (env : Env) (j : Nat) :
    (net.SendHandshake i key env).2.peer j = net.peer j := by
  unfold Network.SendHandshake
  cases env.packetOk <;> cases env.sendOk <;> simp

theorem SendHandshake_sent (net : Network) (i : Nat) (key : Int) (env : Env) :
    (net.SendHandshake i key env).1 = (env.packetOk && env.sendOk) := by
  unfold Network.SendHandshake
  cases env.packetOk <;> cases env.sendOk <;> simp

theorem dispatch_session_of_ne (net : Network) (event : ENetEvent) (env : Env) (j : Nat)
    (h : j ≠ event.peer) : (net.dispatch event env).session j = net.session j := by
  unfold Network.dispatch
  cases event.type
  · rfl
  · simp only [Network.onConnect]
    cases net.session event.peer with
    | none => rfl
    | some s =>
      simp only
      split_ifs <;>
        simp [SendHandshake_session, session_setSession_of_ne _ _ _ _ h]
  · simp only [Network.onDisconnect, session_SignalEvent]
    cases net.session event.peer with
    | none => rfl
    | some s => simp [session_setSession_of_ne _ _ _ _ h]
  · simp only [Network.onDisconnect, session_SignalEvent]
    cases net.session event.peer with
    | none => rfl
    | some s => simp [session_setSession_of_ne _ _ _ _ h]
  · simp only [Network.onReceive]
    cases net.session event.peer with
    | none => rfl
    | some s =>
      simp only [Network.onHandshake]
      split_ifs <;>
        simp [SendHandshake_session, session_setSession_of_ne _ _ _ _ h]

theorem dispatch_Server (net : Network) (event : ENetEvent) (env : Env) :
    (net.dispatch event env).m_Server = net.m_Server := by
  unfold Network.dispatch
  cases event.type
  · rfl
  · simp only [Network.onConnect]
    cases net.session event.peer with
    | none => rfl
    | some s =>
      simp only [Network.SendHandshake]
      split_ifs <;> simp
  · simp only [Network.onDisconnect, session_SignalEvent]
    cases net.session event.peer with
    | none => rfl
    | some s => simp
  · simp only [Network.onDisconnect, session_SignalEvent]
    cases net.session event.peer with
    | none => rfl
    | some s => simp
  · simp only [Network.onReceive]
    cases net.session event.peer with
    | none => rfl
    | some s =>
      simp only [Network.onHandshake, Network.SendHandshake]
      split_ifs <;> simp

/-- The state of the session of slot `event.peer` after the switch of `Update` ran on
`event`, case by case, with the signals emitted when the state becomes `Connected`. -/
theorem dispatch_state (net : Network) (event : ENetEvent) (env : Env) (p : ENetPeer)
    (s : Session) (hp : net.peer event.peer = some p) (hd : p.data = some s) :
    ∃ s', (net.dispatch event env).session event.peer = some s' ∧
      ((event.type = ENetEventType.CONNECT ∧ s'.m_State = EStateConnection.Handshake) ∨
       (event.type ≠ ENetEventType.CONNECT ∧ s'.m_State = EStateConnection.Disconnected) ∨
       (event.type ≠ ENetEventType.CONNECT ∧ s'.m_State = s.m_State) ∨
       (event.type = ENetEventType.RECEIVE ∧ s.m_State = EStateConnection.Handshake ∧
        s'.m_State = EStateConnection.Connected ∧ event.packet.data.length = 8 ∧
        ((net.m_Server = true ∧
            xorU64 s.m_HandshakeKey (p.id + 1) = Scramble (readInt64 event.packet.data) ∧
            env.packetOk = true ∧ env.sendOk = true) ∨
          (net.m_Server = false ∧ s.m_HandshakeKey ≠ 0 ∧
            s.m_HandshakeKey = Scramble (readInt64 event.packet.data))) ∧
        (net.dispatch event env).signals = net.signals ++
          [Signal.Event (Connection.create net event.peer) p.eventData
            EStateEvent.Connect])) := by
  have hs : net.session event.peer = some s := by rw [session_of_peer net _ p hp, hd]
  cases htype : event.type with
  | NONE =>
    refine ⟨s, ?_, Or.inr (Or.inr (Or.inl ⟨by simp, rfl⟩))⟩
    simp [Network.dispatch, htype, hs]
  | CONNECT =>
    cases hsrv : net.m_Server with
    | false =>
      rw [dispatch_client_connect net _ s event env hsrv hs htype rfl]
      exact ⟨_, session_setSession_self _ _ _ _ hs, Or.inl ⟨rfl, rfl⟩⟩
    | true =>
      have h := dispatch_server_connect net _ s event env hsrv hs htype rfl
      simp only at h
      rw [h]
      refine ⟨⟨none, toI64 (toU64 (env.clock + 2)), EStateConnection.Handshake,
        (s.m_Sequence + 1) % 256⟩, ?_, Or.inl ⟨rfl, rfl⟩⟩
      split_ifs <;> simp [session_setSession_self _ _ _ _ hs]
  | DISCONNECT =>
    refine ⟨{ s with m_State := EStateConnection.Disconnected }, ?_,
      Or.inr (Or.inl ⟨by simp, rfl⟩)⟩
    simp only [Network.dispatch, htype, Network.onDisconnect, session_SignalEvent, hs]
    exact session_setSession_self _ _ _ s (by simpa using hs)
  | DISCONNECT_TIMEOUT =>
    refine ⟨{ s with m_State := EStateConnection.Disconnected }, ?_,
      Or.inr (Or.inl ⟨by simp, rfl⟩)⟩
    simp only [Network.dispatch, htype, Network.onDisconnect, session_SignalEvent, hs]
    exact session_setSession_self _ _ _ s (by simpa using hs)
  | RECEIVE =>
    by_cases hstate : s.m_State = EStateConnection.Handshake
    · by_cases hlen : event.packet.data.length = 8
      · cases hsrv : net.m_Server with
        | false =>
          by_cases hkey : s.m_HandshakeKey = 0
          · have h := dispatch_client_first net _ p s event env hsrv hp hd hstate hkey htype
              rfl hlen
            simp only at h
            rw [h]
            refine ⟨⟨s.m_UserData, xorU64 (Scramble (readInt64 event.packet.data)) (p.id + 1),
                s.m_State, s.m_Sequence⟩, ?_,
              Or.inr (Or.inr (Or.inl ⟨by simp, rfl⟩))⟩
            split_ifs <;> simp [session_setSession_self _ _ _ _ hs]
          · rw [dispatch_client_second net _ p s event env hsrv hp hd hstate hkey htype
              rfl hlen]
            by_cases hk : s.m_HandshakeKey = Scramble (readInt64 event.packet.data)
            · rw [if_pos hk]
              refine ⟨{ s with m_State := EStateConnection.Connected }, ?_,
                Or.inr (Or.inr (Or.inr ⟨rfl, hstate, rfl, hlen,
                  Or.inr ⟨rfl, hkey, hk⟩, by simp⟩))⟩
              simp [session_setSession_self _ _ _ _ hs]
            · rw [if_neg hk]
              exact ⟨s, by simpa using hs, Or.inr (Or.inr (Or.inl ⟨by simp, rfl⟩))⟩
        | true =>
          have h := dispatch_server_reply net _ p s event env hsrv hp hd hstate htype rfl hlen
          simp only at h
          rw [h]
          have hs1 : ∀ x : Session, ((net.RemoveHandshake event.peer).setSession event.peer
              x).session event.peer = some x := fun x =>
            session_setSession_self _ _ _ s (by simpa using hs)
          by_cases hk : xorU64 s.m_HandshakeKey (p.id + 1) =
              Scramble (readInt64 event.packet.data)
          · rw [if_neg (by simpa using hk)]
            cases hpk : env.packetOk with
            | false =>
              refine ⟨{ s with m_HandshakeKey := xorU64 s.m_HandshakeKey (p.id + 1) }, ?_,
                Or.inr (Or.inr (Or.inl ⟨by simp, rfl⟩))⟩
              simp [hs1]
            | true =>
              cases hsk : env.sendOk with
              | false =>
                refine ⟨{ s with m_HandshakeKey := xorU64 s.m_HandshakeKey (p.id + 1) }, ?_,
                  Or.inr (Or.inr (Or.inl ⟨by simp, rfl⟩))⟩
                simp [hs1]
              | true =>
                refine ⟨⟨s.m_UserData, xorU64 s.m_HandshakeKey (p.id + 1),
                  EStateConnection.Connected, s.m_Sequence⟩, ?_,
                  Or.inr (Or.inr (Or.inr ⟨rfl, hstate, rfl, hlen,
                    Or.inl ⟨rfl, hk, rfl, rfl⟩, by simp⟩))⟩
                simp only [if_false, session_SignalEvent, Bool.true_eq_false]
                exact session_setSession_self _ _ _ _ (by simpa using hs1 _)
          · rw [if_pos (by simpa using hk)]
            refine ⟨{ s with m_HandshakeKey := xorU64 s.m_HandshakeKey (p.id + 1) }, ?_,
              Or.inr (Or.inr (Or.inl ⟨by simp, rfl⟩))⟩
            simp [hs1]
      · rw [dispatch_wrong_length net _ s event env hs hstate htype rfl hlen]
        refine ⟨s, ?_, Or.inr (Or.inr (Or.inl ⟨by simp, rfl⟩))⟩
        split_ifs <;> simpa using hs
    · refine ⟨s, ?_, Or.inr (Or.inr (Or.inl ⟨by simp, rfl⟩))⟩
      simp [Network.dispatch, htype, Network.onReceive, hs, hstate]

theorem session_setSession_cases (net : Network) (i j : Nat) (x s' : Session)
    (h : (net.setSession i x).session j = some s') : s' = x ∨ net.session j = some s' := by
  rw [session_setSession] at h
  by_cases e : j = i
  · rw [if_pos e] at h
    cases hp : net.peer i with
    | none => simp [hp] at h
    | some p => left; simpa [hp] using h.symm
  · rw [if_neg e] at h
    exact Or.inr h

theorem dispatch_session_none (net : Network) (event : ENetEvent) (env : Env) (j : Nat)
    (h : net.session j = none) : (net.dispatch event env).session j = none := by
  by_cases e : j = event.peer
  · subst e
    unfold Network.dispatch
    cases event.type <;>
      simp [Network.onConnect, Network.onDisconnect, Network.onReceive, h]
  · rw [dispatch_session_of_ne _ _ _ _ e, h]

theorem Disconnect_session_cases (net : Network) (c : Connection) (flag : EResetConnection)
    (d j : Nat) (s' : Session) (h : (c.Disconnect net flag d).session j = some s') :
    net.session j = some s' ∨ s'.m_State = EStateConnection.Disconnecting ∨
      s'.m_State = EStateConnection.Disconnected := by
  unfold Connection.Disconnect at h
  split_ifs at h with hv
  · exact Or.inl h
  · cases hp : c.m_Peer with
    | none => rw [hp] at h; exact Or.inl h
    | some i =>
      rw [hp] at h
      simp only at h
      cases hs : net.session i with
      | none => rw [hs] at h; exact Or.inl h
      | some s =>
        rw [hs] at h
        simp only at h
        split_ifs at h
        · cases flag <;> simp only [session_call] at h <;>
            rcases session_setSession_cases _ _ _ _ _ h with e | e <;>
            first
              | exact Or.inl e
              | (subst e; simp)
        · exact Or.inl h

theorem Send_session (net : Network) (c : Connection) (type : EMessage) (channel : Nat)
    (data : List Nat) (size : Nat) (mallocOk : Bool) (j : Nat) :
    (c.Send net type channel data size mallocOk).session j = net.session j := by
  unfold Connection.Send
  cases c.Valid net
  · rfl
  · cases c.m_Peer with
    | none => rfl
    | some i =>
      simp only [if_true]
      cases net.session i with
      | none => rfl
      | some s =>
        simp only
        cases mallocOk <;> split_ifs <;> rfl

theorem SetUserData_session_cases (net : Network) (c : Connection) (data : Option Nat)
    (j : Nat) (s' : Session) (h : (c.SetUserData net data).session j = some s') :
    ∃ s, net.session j = some s ∧ s'.m_State = s.m_State := by
  unfold Connection.SetUserData at h
  cases hp : c.m_Peer with
  | none => rw [hp] at h; exact ⟨s', h, rfl⟩
  | some i =>
    rw [hp] at h
    simp only at h
    cases hs : net.session i with
    | none => rw [hs] at h; exact ⟨s', h, rfl⟩
    | some s =>
      rw [hs] at h
      simp only at h
      by_cases e : j = i
      · subst e
        rw [session_setSession_self _ _ _ _ hs] at h
        refine ⟨s, hs, ?_⟩
        have := Option.some.inj h
        rw [← this]
      · rw [session_setSession_of_ne _ _ _ _ e] at h
        exact ⟨s', h, rfl⟩

theorem CreateClient_session_cases (net : Network) (env : HostEnv) (j : Nat) (s' : Session)
    (h : (net.CreateClient env).2.session j = some s') :
    net.session j = some s' ∨ s'.m_State = EStateConnection.Connecting ∨
      s'.m_State = EStateConnection.Disconnected := by
  rcases CreateClient_cases net env with e | ⟨hh, e⟩ | ⟨base, peer, prev, _, hb, _, e⟩
  · rw [e] at h; exact Or.inl h
  · rw [e] at h
    right; right
    have := session_fresh_host _ false env j s' rfl h
    rw [this]; rfl
  · rw [e] at h
    rcases session_setSession_cases _ _ _ _ _ h with e1 | e1
    · right; left; rw [e1]
    · rcases hb with hb | ⟨_, hb⟩
      · left; rw [← hb]; exact e1
      · right; right
        rw [hb] at e1
        have := session_fresh_host _ false env j s' rfl e1
        rw [this]; rfl

theorem CreateServer_session_cases (net : Network) (env : HostEnv) (j : Nat) (s' : Session)
    (h : (net.CreateServer env).2.session j = some s') :
    net.session j = some s' ∨ s' = Session.init := by
  unfold Network.CreateServer at h
  split_ifs at h
  · exact Or.inl h
  · exact Or.inl h
  · exact Or.inr (session_fresh_host _ true env j s' rfl h)

theorem state_eq_some (net : Network) (j : Nat) (st : EStateConnection) :
    net.state j = some st ↔ ∃ s, net.session j = some s ∧ s.m_State = st := by
  unfold Network.state
  cases net.session j <;> simp

/-- Claim C24. A session that is not `Connected` (or does not exist) before one `Update`
step and is `Connected` after it was in `Handshake`, the event was a `RECEIVE` for its peer
with an 8-byte payload that passed the check of the role (server: the payload unscrambles
to the key xor-ed with `id + 1` and the reply was sent; client: the stored key is not zero
and equals the unscrambled payload), and the step emitted exactly one signal, the
`Event{Connect}` of that peer. `Disconnect`, `Send`, `SetUserData`, `CreateClient` and
`CreateServer` never make such a session `Connected`. -/
theorem Connected_only_by_handshake (net : Network) (j : Nat)
    (hn : net.state j ≠ some EStateConnection.Connected) :
    (∀ event env timeout limit timenow,
      (net.Update [(event, env)] timeout limit timenow).state j =
        some EStateConnection.Connected →
      event.type = ENetEventType.RECEIVE ∧ event.peer = j ∧
        net.state j = some EStateConnection.Handshake ∧ event.packet.data.length = 8 ∧
        ∃ p s, net.peer j = some p ∧ p.data = some s ∧
          ((net.m_Server = true ∧
              xorU64 s.m_HandshakeKey (p.id + 1) = Scramble (readInt64 event.packet.data) ∧
              env.packetOk = true ∧ env.sendOk = true) ∨
            (net.m_Server = false ∧ s.m_HandshakeKey ≠ 0 ∧
              s.m_HandshakeKey = Scramble (readInt64 event.packet.data))) ∧
          (net.Update [(event, env)] timeout limit timenow).signals = net.signals ++
            [Signal.Event (Connection.create net j) p.eventData EStateEvent.Connect]) ∧
    (∀ (c : Connection) flag d,
      (c.Disconnect net flag d).state j ≠ some EStateConnection.Connected) ∧
    (∀ (c : Connection) type channel data size mallocOk,
      (c.Send net type channel data size mallocOk).state j ≠
        some EStateConnection.Connected) ∧
    (∀ (c : Connection) data,
      (c.SetUserData net data).state j ≠ some EStateConnection.Connected) ∧
    (∀ env, (net.CreateClient env).2.state j ≠ some EStateConnection.Connected) ∧
    (∀ env, (net.CreateServer env).2.state j ≠ some EStateConnection.Connected) := by
  have hn' : ∀ s, net.session j = some s → s.m_State ≠ EStateConnection.Connected := by
    intro s hs hc
    exact hn ((state_eq_some _ _ _).2 ⟨s, hs, hc⟩)
  refine ⟨?_, ?_, ?_, ?_, ?_, ?_⟩
  · intro event env timeout limit timenow h
    rw [Update_singleton] at h ⊢
    rw [checkHandshake_signals]
    obtain ⟨s', hs', hc⟩ := (state_eq_some _ _ _).1 h
    rw [checkHandshake_session] at hs'
    cases hs : net.session j with
    | none => rw [dispatch_session_none _ _ _ _ hs] at hs'; cases hs'
    | some s =>
      by_cases e : j = event.peer
      · subst e
        obtain ⟨p, hp, hd⟩ := peer_of_session net _ s hs
        obtain ⟨s2, h2, hcase⟩ := dispatch_state net event env p s hp hd
        rw [h2] at hs'
        have e2 : s2 = s' := Option.some.inj hs'
        subst e2
        rcases hcase with ⟨_, h3⟩ | ⟨_, h3⟩ | ⟨_, h3⟩ | ⟨ht, hst, _, hlen, hchk, hsig⟩
        · rw [hc] at h3; cases h3
        · rw [hc] at h3; cases h3
        · exact absurd (h3.symm.trans hc) (hn' s hs)
        · exact ⟨ht, rfl, (state_eq_some _ _ _).2 ⟨s, hs, hst⟩, hlen, p, s, hp, hd, hchk,
            hsig⟩
      · rw [dispatch_session_of_ne _ _ _ _ e, hs] at hs'
        exact absurd hc (hn' s' (by rw [hs, hs']))
  · intro c flag d h
    obtain ⟨s', hs', hc⟩ := (state_eq_some _ _ _).1 h
    rcases Disconnect_session_cases _ _ _ _ _ _ hs' with e | e | e
    · exact hn' s' e hc
    · rw [hc] at e; cases e
    · rw [hc] at e; cases e
  · intro c type channel data size mallocOk h
    obtain ⟨s', hs', hc⟩ := (state_eq_some _ _ _).1 h
    rw [Send_session] at hs'
    exact hn' s' hs' hc
  · intro c data h
    obtain ⟨s', hs', hc⟩ := (state_eq_some _ _ _).1 h
    obtain ⟨s, hs, e⟩ := SetUserData_session_cases _ _ _ _ _ hs'
    exact hn' s hs (e.symm.trans hc)
  · intro env h
    obtain ⟨s', hs', hc⟩ := (state_eq_some _ _ _).1 h
    rcases CreateClient_session_cases _ _ _ _ hs' with e | e | e
    · exact hn' s' e hc
    · rw [hc] at e; cases e
    · rw [hc] at e; cases e
  · intro env h
    obtain ⟨s', hs', hc⟩ := (state_eq_some _ _ _).1 h
    rcases CreateServer_session_cases _ _ _ _ hs' with e | e
    · exact hn' s' e hc
    · rw [e] at hc; cases hc

/-- C24, on the example server in the middle of the handshake of slot 0: the echo makes
the session `Connected`. -/
theorem Connected_only_by_handshake_witness :
    handshakingServer.state 0 ≠ some EStateConnection.Connected ∧
    connectedServer.state 0 = some EStateConnection.Connected ∧
    connectedServer.signals = handshakingServer.signals ++
      [Signal.Event (Connection.create handshakingServer 0) 0 EStateEvent.Connect] ∧
    ((mkEvent ENetEventType.RECEIVE 0 (int64Bytes (Scramble 110))).type =
        ENetEventType.RECEIVE ∧
      (mkEvent ENetEventType.RECEIVE 0 (int64Bytes (Scramble 110))).peer = 0 ∧
      handshakingServer.state 0 = some EStateConnection.Handshake ∧
      (mkEvent ENetEventType.RECEIVE 0 (int64Bytes (Scramble 110))).packet.data.length = 8 ∧
      ∃ p s, handshakingServer.peer 0 = some p ∧ p.data = some s ∧
        ((handshakingServer.m_Server = true ∧
            xorU64 s.m_HandshakeKey (p.id + 1) = Scramble (readInt64
              (mkEvent ENetEventType.RECEIVE 0 (int64Bytes (Scramble 110))).packet.data) ∧
            (okEnv 100).packetOk = true ∧ (okEnv 100).sendOk = true) ∨
          (handshakingServer.m_Server = false ∧ s.m_HandshakeKey ≠ 0 ∧
            s.m_HandshakeKey = Scramble (readInt64
              (mkEvent ENetEventType.RECEIVE 0 (int64Bytes (Scramble 110))).packet.data))) ∧
        (handshakingServer.Update
            [(mkEvent ENetEventType.RECEIVE 0 (int64Bytes (Scramble 110)), okEnv 100)]
            0 100 100).signals = handshakingServer.signals ++
          [Signal.Event (Connection.create handshakingServer 0) p.eventData
            EStateEvent.Connect]) :=
  ⟨by decide, by decide, by decide,
    (Connected_only_by_handshake handshakingServer 0 (by decide)).1
      (mkEvent ENetEventType.RECEIVE 0 (int64Bytes (Scramble 110))) (okEnv 100) 0 100 100
      (by decide)⟩

/-- Claim C25, counterexample. Slot 0 of the example server is `Disconnected`, not
`Connecting`, when the transport reports `CONNECT` for it, and `Update` sets it to
`Handshake`. -/
theorem server_Handshake_from_Disconnected :
    exampleServer.m_Server = true ∧
    exampleServer.state 0 = some EStateConnection.Disconnected ∧
    (exampleServer.Update [(mkEvent ENetEventType.CONNECT 0 [], okEnv 100)] 0 100 100).state 0 =
      some EStateConnection.Handshake := by
  decide

/-- Claim C25, amended. A session that is not in `Handshake` before one `Update` step and
is in `Handshake` after it received the `CONNECT` event of its peer, and `CONNECT` puts the
session of its peer in `Handshake` whatever the state before. No `Update` step and no call
of `Disconnect`, `Send`, `SetUserData` or `CreateServer` sets a session to `Connecting`,
and `CreateClient` changes nothing on a server network that has a host: the session of a
server slot is never `Connecting`. -/
theorem Handshake_only_on_CONNECT (net : Network) (j : Nat) :
    (∀ event env timeout limit timenow,
      net.state j ≠ some EStateConnection.Handshake →
      (net.Update [(event, env)] timeout limit timenow).state j =
        some EStateConnection.Handshake →
      event.type = ENetEventType.CONNECT ∧ event.peer = j) ∧
    (∀ event env timeout limit timenow,
      event.type = ENetEventType.CONNECT → event.peer = j → net.session j ≠ none →
      (net.Update [(event, env)] timeout limit timenow).state j =
        some EStateConnection.Handshake) ∧
    (net.state j ≠ some EStateConnection.Connecting →
      (∀ event env timeout limit timenow,
        (net.Update [(event, env)] timeout limit timenow).state j ≠
          some EStateConnection.Connecting) ∧
      (∀ (c : Connection) flag d,
        (c.Disconnect net flag d).state j ≠ some EStateConnection.Connecting) ∧
      (∀ (c : Connection) type channel data size mallocOk,
        (c.Send net type channel data size mallocOk).state j ≠
          some EStateConnection.Connecting) ∧
      (∀ (c : Connection) data,
        (c.SetUserData net data).state j ≠ some EStateConnection.Connecting) ∧
      (∀ env, (net.CreateServer env).2.state j ≠ some EStateConnection.Connecting)) ∧
    (∀ env, net.m_Server = true → net.m_Host ≠ none →
      net.CreateClient env = (false, net)) := by
  refine ⟨?_, ?_, ?_, ?_⟩
  · intro event env timeout limit timenow hn h
    rw [Update_singleton] at h
    obtain ⟨s', hs', hc⟩ := (state_eq_some _ _ _).1 h
    rw [checkHandshake_session] at hs'
    cases hs : net.session j with
    | none => rw [dispatch_session_none _ _ _ _ hs] at hs'; cases hs'
    | some s =>
      have hns : s.m_State ≠ EStateConnection.Handshake := fun e =>
        hn ((state_eq_some _ _ _).2 ⟨s, hs, e⟩)
      by_cases e : j = event.peer
      · subst e
        obtain ⟨p, hp, hd⟩ := peer_of_session net _ s hs
        obtain ⟨s2, h2, hcase⟩ := dispatch_state net event env p s hp hd
        rw [h2] at hs'
        have e2 : s2 = s' := Option.some.inj hs'
        subst e2
        rcases hcase with ⟨ht, _⟩ | ⟨_, h3⟩ | ⟨_, h3⟩ | ⟨_, _, h3, _⟩
        · exact ⟨ht, rfl⟩
        · rw [hc] at h3; cases h3
        · exact absurd (h3.symm.trans hc) hns
        · rw [hc] at h3; cases h3
      · rw [dispatch_session_of_ne _ _ _ _ e, hs] at hs'
        have e2 : s = s' := Option.some.inj hs'
        subst e2
        exact absurd hc hns
  · intro event env timeout limit timenow ht hpeer hsome
    subst hpeer
    rw [Update_singleton]
    cases hs : net.session event.peer with
    | none => exact absurd hs hsome
    | some s =>
      obtain ⟨p, hp, hd⟩ := peer_of_session net _ s hs
      obtain ⟨s2, h2, hcase⟩ := dispatch_state net event env p s hp hd
      refine (state_eq_some _ _ _).2 ⟨s2, by rw [checkHandshake_session, h2], ?_⟩
      rcases hcase with ⟨_, h3⟩ | ⟨h3, _⟩ | ⟨h3, _⟩ | ⟨h3, _⟩
      · exact h3
      · exact absurd ht h3
      · exact absurd ht h3
      · rw [ht] at h3; cases h3
  · intro hn
    have hn' : ∀ s, net.session j = some s → s.m_State ≠ EStateConnection.Connecting := by
      intro s hs hc
      exact hn ((state_eq_some _ _ _).2 ⟨s, hs, hc⟩)
    refine ⟨?_, ?_, ?_, ?_, ?_⟩
    · intro event env timeout limit timenow h
      rw [Update_singleton] at h
      obtain ⟨s', hs', hc⟩ := (state_eq_some _ _ _).1 h
      rw [checkHandshake_session] at hs'
      cases hs : net.session j with
      | none => rw [dispatch_session_none _ _ _ _ hs] at hs'; cases hs'
      | some s =>
        by_cases e : j = event.peer
        · subst e
          obtain ⟨p, hp, hd⟩ := peer_of_session net _ s hs
          obtain ⟨s2, h2, hcase⟩ := dispatch_state net event env p s hp hd
          rw [h2] at hs'
          have e2 : s2 = s' := Option.some.inj hs'
          subst e2
          rcases hcase with ⟨_, h3⟩ | ⟨_, h3⟩ | ⟨_, h3⟩ | ⟨_, _, h3, _⟩
          · rw [hc] at h3; cases h3
          · rw [hc] at h3; cases h3
          · exact hn' s hs (h3.symm.trans hc)
          · rw [hc] at h3; cases h3
        · rw [dispatch_session_of_ne _ _ _ _ e, hs] at hs'
          exact hn' s' (by rw [hs, hs']) hc
    · intro c flag d h
      obtain ⟨s', hs', hc⟩ := (state_eq_some _ _ _).1 h
      rcases Disconnect_session_cases _ _ _ _ _ _ hs' with e | e | e
      · exact hn' s' e hc
      · rw [hc] at e; cases e
      · rw [hc] at e; cases e
    · intro c type channel data size mallocOk h
      obtain ⟨s', hs', hc⟩ := (state_eq_some _ _ _).1 h
      rw [Send_session] at hs'
      exact hn' s' hs' hc
    · intro c data h
      obtain ⟨s', hs', hc⟩ := (state_eq_some _ _ _).1 h
      obtain ⟨s, hs, e⟩ := SetUserData_session_cases _ _ _ _ _ hs'
      exact hn' s hs (e.symm.trans hc)
    · intro env h
      obtain ⟨s', hs', hc⟩ := (state_eq_some _ _ _).1 h
      rcases CreateServer_session_cases _ _ _ _ hs' with e | e
      · exact hn' s' e hc
      · rw [e] at hc; cases hc
  · intro env hsrv hhost
    unfold Network.CreateClient
    cases hinit : net.m_Initialized
    · simp
    · cases hh : net.m_Host with
      | none => exact absurd hh hhost
      | some host => simp [hsrv]

/-- C25 as amended, on the example client: the `CONNECT` event of slot 0 sets the session
`CreateClient` left in `Connecting` to `Handshake`. -/
theorem Handshake_only_on_CONNECT_witness :
    exampleClient.state 0 = some EStateConnection.Connecting ∧
    handshakingClient.state 0 = some EStateConnection.Handshake ∧
    ((mkEvent ENetEventType.CONNECT 0 []).type = ENetEventType.CONNECT ∧
      (mkEvent ENetEventType.CONNECT 0 []).peer = 0) :=
  ⟨by decide, by decide,
    (Handshake_only_on_CONNECT exampleClient 0).1 (mkEvent ENetEventType.CONNECT 0 [])
      (okEnv 100) 0 100 100 (by decide) (by decide)⟩

/-- Claim C26, failing inputs. Slot 0 of the example server is in `Handshake` with key 102.
A 3-byte packet, an 8-byte packet that fails the check, and the queue timeout at second
102 each make `Update` reset the peer, and each leaves the session in `Handshake`, not in
`Disconnected`; `Disconnect` with `Force`, which also resets the peer, does set
`Disconnected`. -/
theorem reset_leaves_Handshake :
    handshakingServer.state 0 = some EStateConnection.Handshake ∧
    (newCalls handshakingServer rejectedServer = [ENetCall.peer_reset 0] ∧
      rejectedServer.state 0 = some EStateConnection.Handshake) ∧
    (newCalls handshakingServer (handshakingServer.Update
        [(mkEvent ENetEventType.RECEIVE 0 (int64Bytes 0), okEnv 100)] 0 100 100) =
        [ENetCall.peer_reset 0] ∧
      (handshakingServer.Update
        [(mkEvent ENetEventType.RECEIVE 0 (int64Bytes 0), okEnv 100)] 0 100 100).state 0 =
        some EStateConnection.Handshake) ∧
    (newCalls handshakingServer (handshakingServer.Update [] 0 100 102) =
        [ENetCall.peer_reset 0] ∧
      (handshakingServer.Update [] 0 100 102).state 0 = some EStateConnection.Handshake) ∧
    (newCalls handshakingServer ((Connection.create handshakingServer 0).Disconnect
        handshakingServer EResetConnection.Force 0) = [ENetCall.peer_reset 0] ∧
      ((Connection.create handshakingServer 0).Disconnect
        handshakingServer EResetConnection.Force 0).state 0 =
        some EStateConnection.Disconnected) := by
  decide

/-- Claim C27. On a valid network `Shutdown` flushes the host and then destroys it, and
`Valid()` is still true afterwards: a second `Shutdown` flushes and destroys the same host
once more. -/
theorem Shutdown_not_idempotent (net : Network) (h : net.Valid = true) :
    net.Shutdown.calls = net.calls ++ [ENetCall.host_flush, ENetCall.host_destroy] ∧
    net.Shutdown.m_Host = net.m_Host ∧ net.Shutdown.Valid = true ∧
    net.Shutdown.Shutdown.calls = net.calls ++
      [ENetCall.host_flush, ENetCall.host_destroy, ENetCall.host_flush,
        ENetCall.host_destroy] ∧
    net.Shutdown.Shutdown ≠ net.Shutdown := by
  have e1 : net.Shutdown = (net.call ENetCall.host_flush).call ENetCall.host_destroy := by
    simp [Network.Shutdown, h]
  have hv : net.Shutdown.Valid = true := by
    rw [e1]; exact h
  have e2 : net.Shutdown.Shutdown =
      (net.Shutdown.call ENetCall.host_flush).call ENetCall.host_destroy := by
    rw [Network.Shutdown, if_pos hv]
  refine ⟨by rw [e1]; simp, by rw [e1]; rfl, hv, by rw [e2, e1]; simp, ?_⟩
  intro e
  have := congrArg (fun n => n.calls.length) e
  rw [e2] at this
  simp at this

/-- C27, on the example server. -/
theorem Shutdown_not_idempotent_witness :
    exampleServer.Shutdown.calls =
      exampleServer.calls ++ [ENetCall.host_flush, ENetCall.host_destroy] ∧
    exampleServer.Shutdown.m_Host = exampleServer.m_Host ∧
    exampleServer.Shutdown.Valid = true ∧
    exampleServer.Shutdown.Shutdown.calls = exampleServer.calls ++
      [ENetCall.host_flush, ENetCall.host_destroy, ENetCall.host_flush,
        ENetCall.host_destroy] ∧
    exampleServer.Shutdown.Shutdown ≠ exampleServer.Shutdown :=
  Shutdown_not_idempotent exampleServer (by decide)

/-- Claim C28, failing input. On the example server the transport reports `CONNECT`,
`DISCONNECT` and `CONNECT` for slot 0 within second 100: slot 0 is queued twice. The echo
of the new peer completes the handshake and removes one entry; the other stays, so a
`Connected` peer sits in the queue, and the `Update` of second 110 resets it. -/
theorem queue_holds_Connected_peer :
    reconnectedServer.m_HandshakeList.map (fun c => c.m_Peer) = [some 0, some 0] ∧
    lateServer.state 0 = some EStateConnection.Connected ∧
    lateServer.m_HandshakeList.map (fun c => c.m_Peer) = [some 0] ∧
    newCalls lateServer (lateServer.Update [] 0 100 110) = [ENetCall.peer_reset 0] ∧
    (lateServer.Update [] 0 100 110).state 0 = some EStateConnection.Connected := by
  decide

/-! ## Slot reuse and the 8-bit sequence -/

theorem dispatch_reuse (net : Network) (i : Nat) (s : Session) (env : Env)
    (hserver : net.m_Server = true) (hs : net.session i = some s) :
    ∃ s', (net.dispatch (mkEvent ENetEventType.CONNECT i []) env).session i = some s' ∧
      s'.m_Sequence = (s.m_Sequence + 1) % 256 := by
  have h := dispatch_server_connect net i s (mkEvent ENetEventType.CONNECT i []) env hserver hs
    rfl rfl
  simp only at h
  rw [h]
  refine ⟨⟨none, toI64 (toU64 (env.clock + 2)), EStateConnection.Handshake,
    (s.m_Sequence + 1) % 256⟩, ?_, rfl⟩
  split_ifs <;> simp [session_setSession_self _ _ _ _ hs]

theorem dispatchAll_reuses (net : Network) (i : Nat) (s : Session) (envs : List Env)
    (hserver : net.m_Server = true) (hs : net.session i = some s)
    (hseq : s.m_Sequence < 256) :
    ∃ s', (net.dispatchAll (reuses i envs)).session i = some s' ∧
      s'.m_Sequence = (s.m_Sequence + envs.length) % 256 := by
  induction envs generalizing net s with
  | nil => exact ⟨s, by simpa [reuses, dispatchAll_nil] using hs, by simp; omega⟩
  | cons env rest ih =>
    obtain ⟨s1, hs1, hq1⟩ := dispatch_reuse net i s env hserver hs
    have hsrv1 : (net.dispatch (mkEvent ENetEventType.CONNECT i []) env).m_Server = true := by
      rw [dispatch_Server]; exact hserver
    obtain ⟨s2, hs2, hq2⟩ := ih _ s1 hsrv1 hs1 (by rw [hq1]; omega)
    refine ⟨s2, ?_, ?_⟩
    · simpa [reuses, dispatchAll_cons] using hs2
    · rw [hq2, hq1]
      simp only [List.length_cons]
      omega

theorem connects_nil (net : Network) : net.connects [] = net := rfl

theorem connects_cons (net : Network) (env : HostEnv) (envs : List HostEnv) :
    net.connects (env :: envs) = (net.CreateClient env).2.connects envs := rfl

theorem CreateClient_reuse (net : Network) (i : Nat) (s : Session) (env : HostEnv)
    (hinit : net.m_Initialized = true) (hclient : net.m_Server = false)
    (hs : net.session i = some s) (haddr : env.addressOk = true)
    (hconn : env.connect = some i) :
    (net.CreateClient env).2.m_Initialized = true ∧
    (net.CreateClient env).2.m_Server = false ∧
    ∃ s', (net.CreateClient env).2.session i = some s' ∧
      s'.m_Sequence = (s.m_Sequence + 1) % 256 := by
  have hhost : net.m_Host.isSome = true := by
    cases hh : net.m_Host with
    | none => rw [session_eq_none_of_no_host net i hh] at hs; cases hs
    | some host => rfl
  have hnone : net.m_Host.isNone = false := by
    cases hh : net.m_Host with
    | none => rw [hh] at hhost; cases hhost
    | some host => rfl
  have e : net.CreateClient env = (true, net.setSession i
      ⟨none, 0, EStateConnection.Connecting, (s.m_Sequence + 1) % 256⟩) := by
    simp [Network.CreateClient, hinit, hclient, hhost, hnone, Network.CreateAddress, haddr,
      hconn, hs]
  rw [e]
  refine ⟨?_, by simp [hclient], _, session_setSession_self _ _ _ _ hs, rfl⟩
  simp only
  unfold Network.setSession
  split
  · exact hinit
  · split <;> exact hinit

theorem connects_reuses (net : Network) (i : Nat) (s : Session) (envs : List HostEnv)
    (hinit : net.m_Initialized = true) (hclient : net.m_Server = false)
    (hs : net.session i = some s) (hseq : s.m_Sequence < 256)
    (henv : ∀ env ∈ envs, env.addressOk = true ∧ env.connect = some i) :
    ∃ s', (net.connects envs).session i = some s' ∧
      s'.m_Sequence = (s.m_Sequence + envs.length) % 256 := by
  induction envs generalizing net s with
  | nil => exact ⟨s, by simpa [connects_nil] using hs, by simp; omega⟩
  | cons env rest ih =>
    obtain ⟨ha, hc⟩ := henv env (List.mem_cons_self _ _)
    obtain ⟨hi1, hc1, s1, hs1, hq1⟩ := CreateClient_reuse net i s env hinit hclient hs ha hc
    obtain ⟨s2, hs2, hq2⟩ := ih _ s1 hi1 hc1 hs1 (by rw [hq1]; omega)
      (fun e he => henv e (List.mem_cons_of_mem _ he))
    refine ⟨s2, by rw [connects_cons]; exact hs2, ?_⟩
    rw [hq2, hq1]
    simp only [List.length_cons]
    omega

theorem Valid_create_iff (net out : Network) (i : Nat) (s s' : Session)
    (hs : net.session i = some s) (hs' : out.session i = some s') :
    (Connection.create net i).Valid out = true ↔ s.m_Sequence = s'.m_Sequence := by
  simp [Connection.Valid, Connection.create, hs, hs']

/-- Claim C29. A handle minted for a slot whose sequence is `s.m_Sequence` is invalid after
the slot was reused `n` times exactly when `n` is not a multiple of 256, both when the
reuses are `CONNECT` events on a server network and when they are `CreateClient` calls on
a client network; in particular it is invalid after 1 to 255 reuses. -/
theorem Valid_after_reuses (net : Network) (i : Nat) (s : Session)
    (hs : net.session i = some s) (hseq : s.m_Sequence < 256) :
    (net.m_Server = true → ∀ (envs : List Env) timeout timenow,
      ((Connection.create net i).Valid (net.Update (reuses i envs) timeout 0 timenow) = false ↔
        ¬ 256 ∣ envs.length) ∧
      (1 ≤ envs.length → envs.length ≤ 255 →
        (Connection.create net i).Valid (net.Update (reuses i envs) timeout 0 timenow) =
          false)) ∧
    (net.m_Server = false → net.m_Initialized = true → ∀ (envs : List HostEnv),
      (∀ env ∈ envs, env.addressOk = true ∧ env.connect = some i) →
      ((Connection.create net i).Valid (net.connects envs) = false ↔ ¬ 256 ∣ envs.length) ∧
      (1 ≤ envs.length → envs.length ≤ 255 →
        (Connection.create net i).Valid (net.connects envs) = false)) := by
  have key : ∀ (out : Network) (n : Nat) (s' : Session), out.session i = some s' →
      s'.m_Sequence = (s.m_Sequence + n) % 256 →
      (((Connection.create net i).Valid out = false ↔ ¬ 256 ∣ n) ∧
        (1 ≤ n → n ≤ 255 → (Connection.create net i).Valid out = false)) := by
    intro out n s' hs' hq
    have hiff := Valid_create_iff net out i s s' hs hs'
    have hval : (Connection.create net i).Valid out = false ↔ ¬ 256 ∣ n := by
      rw [← Bool.not_eq_true, hiff, hq]
      constructor
      · intro h1 h2
        apply h1
        obtain ⟨k, rfl⟩ := h2
        omega
      · intro h1 h2
        apply h1
        omega
    refine ⟨hval, fun h1 h2 => hval.2 ?_⟩
    omega
  constructor
  · intro hserver envs timeout timenow
    obtain ⟨s', hs', hq⟩ := dispatchAll_reuses net i s envs hserver hs hseq
    apply key _ envs.length s' _ hq
    unfold Network.Update
    rw [checkHandshake_session, drain_eq_dispatchAll, taken_unlimited]
    exact hs'
  · intro hclient hinit envs henv
    obtain ⟨s', hs', hq⟩ := connects_reuses net i s envs hinit hclient hs hseq henv
    exact key _ envs.length s' hs' hq

/-- C29, on slot 0 of the example server reused three times. -/
theorem Valid_after_reuses_witness :
    ((Connection.create exampleServer 0).Valid
        (exampleServer.Update (reuses 0 [okEnv 100, okEnv 101, okEnv 102]) 0 0 102) = false ↔
      ¬ 256 ∣ [okEnv 100, okEnv 101, okEnv 102].length) ∧
    (1 ≤ [okEnv 100, okEnv 101, okEnv 102].length →
      [okEnv 100, okEnv 101, okEnv 102].length ≤ 255 →
      (Connection.create exampleServer 0).Valid
        (exampleServer.Update (reuses 0 [okEnv 100, okEnv 101, okEnv 102]) 0 0 102) = false) :=
  (Valid_after_reuses exampleServer 0 ⟨none, 0, EStateConnection.Disconnected, 0⟩
    (by decide) (by decide)).1 (by decide) [okEnv 100, okEnv 101, okEnv 102] 0 102

/-! ## The range of the clock -/

theorem toI64_eq_zero (n : Nat) (hn : n < 2 ^ 64) (h : toI64 n = 0) : n = 0 := by
  unfold toI64 at h
  split at h <;> omega

/-- The key a client derives from a server key within `2 ^ 34` of zero and a peer id below
`2 ^ 32` is never 0: bit 60 (for a key that is not negative) or bit 63 (for a negative
key) of the 64-bit pattern is set. -/
theorem derived_key_ne_zero (K : Int) (m : Nat) (hlo : -(2 ^ 34 : Int) < K)
    (hhi : K < (2 ^ 34 : Int)) (hm : m ≤ 2 ^ 32) : xorU64 (Scramble K) m ≠ 0 := by
  intro h
  have hu := toU64_lt K
  have hA : toU64 K ^^^ 0xDEADBEEFC0DECAFE < 2 ^ 64 := Nat.xor_lt_two_pow hu (by norm_num)
  have hB : (toU64 K ^^^ 0xDEADBEEFC0DECAFE) ^^^ 0xC0DEFACE12345678 < 2 ^ 64 :=
    Nat.xor_lt_two_pow hA (by norm_num)
  have hm64 : m < 2 ^ 64 := by omega
  have hC : ((toU64 K ^^^ 0xDEADBEEFC0DECAFE) ^^^ 0xC0DEFACE12345678) ^^^ m < 2 ^ 64 :=
    Nat.xor_lt_two_pow hB hm64
  have hz : ((toU64 K ^^^ 0xDEADBEEFC0DECAFE) ^^^ 0xC0DEFACE12345678) ^^^ m = 0 := by
    apply toI64_eq_zero _ hC
    simp only [xorU64, Scramble, toU64_toI64, Nat.mod_eq_of_lt hA, Nat.mod_eq_of_lt hB] at h
    exact h
  by_cases hK : 0 ≤ K
  · have hb := congrArg (fun n => Nat.testBit n 60) hz
    have h1 : Nat.testBit (toU64 K) 60 = false := by
      apply Nat.testBit_lt_two_pow
      unfold toU64; omega
    have h2 : Nat.testBit m 60 = false := by
      apply Nat.testBit_lt_two_pow; omega
    have h3 : Nat.testBit 0xDEADBEEFC0DECAFE 60 = true := by decide
    have h4 : Nat.testBit 0xC0DEFACE12345678 60 = false := by decide
    simp [Nat.testBit_xor, h1, h2, h3, h4] at hb
  · have hb := congrArg (fun n => Nat.testBit n 63) hz
    have h1 : Nat.testBit (toU64 K) 63 = true := by
      rw [Nat.testBit_to_div_mod]
      unfold toU64
      simp only [decide_eq_true_eq]
      omega
    have h2 : Nat.testBit m 63 = false := by
      apply Nat.testBit_lt_two_pow; omega
    have h3 : Nat.testBit 0xDEADBEEFC0DECAFE 63 = true := by decide
    have h4 : Nat.testBit 0xC0DEFACE12345678 63 = true := by decide
    simp [Nat.testBit_xor, h1, h2, h3, h4] at hb

/-- Claim C2. In the honest exchange driven by `Update`, started by the server-side
`CONNECT` at any reading of the clock (`steady_clock` counts nanoseconds in a 64-bit
integer, so its reading in seconds lies between -9223372036 and 9223372036), with both
sends succeeding, a client session as `CreateClient` leaves it (key 0) and peer ids below
2^32: if both sides see the same peer id, both sessions end in `Connected` and each side
has emitted exactly one `Connect` event; if the two sides see different peer ids the check
of the server fails, its session stays in `Handshake` and the server emits nothing. -/
theorem handshake_exchange (server client : Network) (sp cp : Nat) (ps pc : ENetPeer)
    (ss sc : Session) (clock : Int)
    (hS : server.m_Server = true) (hC : client.m_Server = false)
    (hps : server.peer sp = some ps) (hss : ps.data = some ss)
    (hpc : client.peer cp = some pc) (hsc : pc.data = some sc)
    (hkey0 : sc.m_HandshakeKey = 0)
    (hlo : -9223372036 ≤ clock) (hhi : clock ≤ 9223372036)
    (hidS : ps.id < 2 ^ 32) (hidC : pc.id < 2 ^ 32) :
    let out := handshakeExchange server client sp cp (okEnv clock)
    (ps.id = pc.id →
      out.1.state sp = some EStateConnection.Connected ∧
      out.2.state cp = some EStateConnection.Connected ∧
      out.1.signals = server.signals ++
        [Signal.Event ⟨some server.m_NetworkID, some sp, (ss.m_Sequence + 1) % 256⟩
          ps.eventData EStateEvent.Connect] ∧
      out.2.signals = client.signals ++
        [Signal.Event ⟨some client.m_NetworkID, some cp, sc.m_Sequence⟩
          pc.eventData EStateEvent.Connect]) ∧
    (ps.id ≠ pc.id →
      out.1.state sp = some EStateConnection.Handshake ∧ out.1.signals = server.signals) := by
  intro out
  have hclock : IsInt64 (clock + 2) := by
    unfold IsInt64
    constructor <;> norm_num <;> omega
  have hkey : xorU64 (Scramble (clock + 2)) (pc.id + 1) ≠ 0 :=
    derived_key_ne_zero (clock + 2) (pc.id + 1) (by norm_num; omega) (by norm_num; omega)
      (by omega)
  have h := handshake_exchange_of_key server client sp cp ps pc ss sc clock hS hC hps hss hpc
    hsc hkey0 hclock hidS hidC
  exact ⟨fun hid => h.1 hid hkey, h.2⟩

/-- C2, on the example server and client (both see peer id 7), `CONNECT` at second 100:
both sessions end in `Connected` and each side emits one `Connect` event. -/
theorem handshake_exchange_witness :
    (handshakeExchange exampleServer exampleClient 0 0 (okEnv 100)).1.state 0 =
        some EStateConnection.Connected ∧
      (handshakeExchange exampleServer exampleClient 0 0 (okEnv 100)).2.state 0 =
        some EStateConnection.Connected ∧
      (handshakeExchange exampleServer exampleClient 0 0 (okEnv 100)).1.signals =
        exampleServer.signals ++
          [Signal.Event ⟨some 0, some 0, 1⟩ 0 EStateEvent.Connect] ∧
      (handshakeExchange exampleServer exampleClient 0 0 (okEnv 100)).2.signals =
        exampleClient.signals ++
          [Signal.Event ⟨some 1, some 0, 1⟩ 0 EStateEvent.Connect] :=
  (handshake_exchange exampleServer exampleClient 0 0 ⟨7, 0, some Session.init⟩
    ⟨7, 0, some ⟨none, 0, EStateConnection.Connecting, 1⟩⟩ Session.init
    ⟨none, 0, EStateConnection.Connecting, 1⟩ 100 rfl rfl rfl rfl rfl rfl rfl
    (by decide) (by decide) (by decide) (by decide)).1 rfl

end NetworkManager

namespace ECSManager

/-! ## The type sequence -/

theorem valid_slot (r : Registry) (e : Entity) (h : r.valid e = true) :
    r.slots[e.index]? = some (e.generation, true) := by
  unfold Registry.valid at h
  split at h
  · rename_i g hg
    simp only [beq_iff_eq] at h
    rw [hg, h]
  · simp at h

theorem valid_destroy (r : Registry) (e : Entity) (h : r.valid e = true) :
    (r.destroy e).valid e = false := by
  have hs := valid_slot r e h
  have hlt : e.index < r.slots.length := (List.getElem?_eq_some_iff.mp hs).1
  simp [Registry.valid, Registry.destroy, List.getElem?_set, hlt]

theorem all_of_destroy (r : Registry) (e : Entity) (type : Nat) :
    (r.destroy e).all_of [type] e = false := by
  simp [Registry.all_of, Registry.destroy]

theorem components_destroy (r : Registry) (e : Entity) :
    ∀ c ∈ (r.destroy e).components, c.2 ≠ e.index := by
  intro c hc
  simp only [Registry.destroy, List.mem_filter] at hc
  simpa using hc.2

theorem all_of_emplace (r : Registry) (e : Entity) (type : Nat) :
    (r.emplace type e).all_of [type] e = true := by
  simp [Registry.all_of, Registry.emplace]

theorem all_of_remove (r : Registry) (e : Entity) (type : Nat) :
    (r.remove type e).all_of [type] e = false := by
  simp [Registry.all_of, Registry.remove]

theorem valid_emplace (r : Registry) (e e' : Entity) (type : Nat) :
    (r.emplace type e).valid e' = r.valid e' := rfl

theorem valid_remove (r : Registry) (e e' : Entity) (type : Nat) :
    (r.remove type e).valid e' = r.valid e' := rfl

/-! ## Lifecycle signals -/

/-- C19 (as amended): for every valid entity, `RemoveEntity` emits exactly one signal,
`RemoveEntity` for that entity, while the entity is still valid and holds its components,
and then has the registry destroy the entity: afterwards the entity is not valid and holds
no component. No `RemoveComponent` signal is emitted. -/
theorem RemoveEntity_signals (m : Manager) (id : Entity) (h : m.HasEntity id = true) :
    ∃ m', m.RemoveEntity id = some m' ∧
      m'.signals = m.signals ++ [(Signal.RemoveEntity id, m.m_Registry)] ∧
      m'.m_Registry = m.m_Registry.destroy id ∧
      m'.HasEntity id = false ∧
      (∀ type, m'.m_Registry.all_of [type] id = false) ∧
      (∀ c ∈ m'.m_Registry.components, c.2 ≠ id.index) := by
  refine ⟨{ m.SignalEvent (Signal.RemoveEntity id) with
      m_Registry := m.m_Registry.destroy id },
    by simp [Manager.RemoveEntity, h, Manager.SignalEvent], rfl, rfl, ?_, ?_, ?_⟩
  · exact valid_destroy m.m_Registry id h
  · intro type; exact all_of_destroy _ _ _
  · exact components_destroy _ _

/-- C20: for every valid entity and component type, `AddComponent` on an entity without
the component emits exactly one `AddComponent` signal, recorded with the registry in which
the entity already has the component; `RemoveComponent` on an entity with the component
emits exactly one `RemoveComponent` signal, recorded with the registry of before, in which
the entity still has the component, and afterwards the entity does not have it. -/
theorem component_signals (m : Manager) (component : Nat) (id : Entity)
    (h : m.HasEntity id = true) :
    (m.HasComponent [component] id = some false →
      ∃ m', m.AddComponent component id = some m' ∧
        m'.signals = m.signals ++ [(Signal.AddComponent component id, m'.m_Registry)] ∧
        m'.HasComponent [component] id = some true) ∧
    (m.HasComponent [component] id = some true →
      ∃ m', m.RemoveComponent [component] id = some m' ∧
        m'.signals = m.signals ++ [(Signal.RemoveComponent component id, m.m_Registry)] ∧
        m'.HasComponent [component] id = some false) := by
  constructor
  · intro hc
    refine ⟨({ m with m_Registry := m.m_Registry.emplace component id }).SignalEvent
        (Signal.AddComponent component id),
      by simp [Manager.AddComponent, h, hc], rfl, ?_⟩
    have hv : (m.m_Registry.emplace component id).valid id = true := h
    simp [Manager.HasComponent, Manager.HasEntity, Manager.SignalEvent, hv, all_of_emplace]
  · intro hc
    refine ⟨{ m.SignalEvent (Signal.RemoveComponent component id) with
        m_Registry := m.m_Registry.remove component id },
      by simp [Manager.RemoveComponent, Manager.RemoveComponentOne, h, hc, Manager.SignalEvent],
      rfl, ?_⟩
    have hv : (m.m_Registry.remove component id).valid id = true := h
    simp [Manager.HasComponent, Manager.HasEntity, Manager.SignalEvent, hv, all_of_remove]

/-- C19, on the entity of the example store. -/
theorem RemoveEntity_signals_witness :
    ∃ m', exampleStore.RemoveEntity exampleEntity = some m' ∧
      m'.signals = exampleStore.signals ++
        [(Signal.RemoveEntity exampleEntity, exampleStore.m_Registry)] ∧
      m'.m_Registry = exampleStore.m_Registry.destroy exampleEntity ∧
      m'.HasEntity exampleEntity = false ∧
      (∀ type, m'.m_Registry.all_of [type] exampleEntity = false) ∧
      (∀ c ∈ m'.m_Registry.components, c.2 ≠ exampleEntity.index) :=
  RemoveEntity_signals exampleStore exampleEntity (by decide)

/-- C19 as stated fails on the example store: its entity is valid and holds the components
5 and 6, and the only signal `RemoveEntity` emits is `RemoveEntity` for the entity. -/
theorem RemoveEntity_emits_no_component_signal :
    exampleStore.HasEntity exampleEntity = true ∧
    exampleStore.HasComponent [5] exampleEntity = some true ∧
    exampleStore.HasComponent [6] exampleEntity = some true ∧
    (exampleStore.RemoveEntity exampleEntity).map
        (fun m => (m.signals.drop exampleStore.signals.length).map (fun s => s.1)) =
      some [Signal.RemoveEntity exampleEntity] := by
  decide

/-- C20, on the removal of component 5 from the entity of the example store. -/
theorem component_signals_witness :
    ∃ m', exampleStore.RemoveComponent [5] exampleEntity = some m' ∧
      m'.signals = exampleStore.signals ++
        [(Signal.RemoveComponent 5 exampleEntity, exampleStore.m_Registry)] ∧
      m'.HasComponent [5] exampleEntity = some false :=
  (component_signals exampleStore 5 exampleEntity (by decide)).2 (by decide)

/-! ## Indices handed out by `GetSequenceIndex` -/

/-- Claim C21, failing input. The entity of the example store holds the components 5 and
6. `ClearComponent` on the pack of both types returns with the store unchanged: each pool
still has one component and no `RemoveComponent` signal is emitted. On the pack of the one
type 5 it empties that pool and emits the one signal. -/
theorem ClearComponent_pack_clears_nothing :
    exampleStore.SizeComponent 5 = 1 ∧ exampleStore.SizeComponent 6 = 1 ∧
    exampleStore.removals = [] ∧
    exampleStore.ClearComponent [5, 6] = some exampleStore ∧
    (∃ m1, exampleStore.ClearComponent [5] = some m1 ∧ m1.SizeComponent 5 = 0 ∧
      m1.SizeComponent 6 = 1 ∧ m1.removals = [(5, exampleEntity)]) := by
  refine ⟨by decide, by decide, by decide, by decide, _, rfl, by decide, by decide, by decide⟩

/-! ## Generations -/

theorem generations_pos : 1 < 2 ^ generationBits := by decide

theorem create_destroy (r : Registry) (e : Entity) (h : r.valid e = true) :
    (r.destroy e).create =
      (⟨e.index, (e.generation + 1) % 2 ^ generationBits⟩,
        ⟨(r.slots.set e.index ((e.generation + 1) % 2 ^ generationBits, false)).set e.index
            ((e.generation + 1) % 2 ^ generationBits, true),
          r.free, (r.destroy e).components⟩) := by
  have hs := valid_slot r e h
  have hlt : e.index < r.slots.length := (List.getElem?_eq_some_iff.mp hs).1
  simp [Registry.create, Registry.destroy, List.getElem?_set, hlt]

theorem RemoveEntity_of_valid (m : Manager) (e : Entity) (h : m.HasEntity e = true) :
    m.RemoveEntity e = some ⟨m.m_TypeSequence, m.m_Registry.destroy e,
      m.signals ++ [(Signal.RemoveEntity e, m.m_Registry)]⟩ := by
  simp [Manager.RemoveEntity, h, Manager.SignalEvent]

theorem next_generation_ne (g n : Nat) (hn : 1 < n) : (g + 1) % n ≠ g := by
  intro h
  have hlt : (g + 1) % n < n := Nat.mod_lt _ (by omega)
  by_cases hg : g + 1 < n
  · rw [Nat.mod_eq_of_lt hg] at h; omega
  · by_cases hg2 : g + 1 = n
    · rw [hg2, Nat.mod_self] at h; omega
    · omega

/-- Claim C22, amended. For every entity `e` valid in a store, `RemoveEntity(e)` succeeds
and `HasEntity(e)` is false afterwards; the entity the next `CreateEntity()` returns
differs from `e`: it has the index of `e` and the generation after that of `e`, which is
strictly greater unless `e` has the last generation of the counter. The new entity is
valid and `e` stays invalid. -/
theorem RemoveEntity_then_CreateEntity (m : Manager) (e : Entity)
    (h : m.HasEntity e = true) :
    ∃ m1, m.RemoveEntity e = some m1 ∧ m1.HasEntity e = false ∧
      m1.CreateEntity.1 ≠ e ∧
      (m1.CreateEntity.1.index ≠ e.index ∨
        (m1.CreateEntity.1.index = e.index ∧
          m1.CreateEntity.1.generation = (e.generation + 1) % 2 ^ generationBits ∧
          (e.generation + 1 < 2 ^ generationBits →
            e.generation < m1.CreateEntity.1.generation))) ∧
      m1.CreateEntity.2.HasEntity m1.CreateEntity.1 = true ∧
      m1.CreateEntity.2.HasEntity e = false := by
  have hv : m.m_Registry.valid e = true := h
  have hs := valid_slot _ e hv
  have hlt : e.index < m.m_Registry.slots.length := (List.getElem?_eq_some_iff.mp hs).1
  have hne := next_generation_ne e.generation _ generations_pos
  refine ⟨_, RemoveEntity_of_valid m e h, ?_, ?_, ?_, ?_, ?_⟩
  · exact valid_destroy _ e hv
  · simp only [Manager.CreateEntity, Manager.SignalEvent, create_destroy _ e hv]
    intro e1
    exact hne (congrArg Entity.generation e1)
  · right
    simp only [Manager.CreateEntity, Manager.SignalEvent, create_destroy _ e hv]
    refine ⟨trivial, trivial, ?_⟩
    intro hg
    rw [Nat.mod_eq_of_lt hg]
    exact Nat.lt_succ_self _
  · simp [Manager.CreateEntity, Manager.SignalEvent, Manager.HasEntity,
      create_destroy _ e hv, Registry.valid, List.getElem?_set, hlt]
  · simp [Manager.CreateEntity, Manager.SignalEvent, Manager.HasEntity,
      create_destroy _ e hv, Registry.valid, List.getElem?_set, hlt, hne]

/-- C22 as amended, on the scenario `e1 = create(); destroy(e1); e2 = create()` in a new
store. -/
theorem RemoveEntity_then_CreateEntity_witness :
    Manager.new.CreateEntity.1 = ⟨0, 0⟩ ∧
    ∃ m1, Manager.new.CreateEntity.2.RemoveEntity ⟨0, 0⟩ = some m1 ∧
      m1.HasEntity ⟨0, 0⟩ = false ∧
      m1.CreateEntity.1 ≠ ⟨0, 0⟩ ∧
      (m1.CreateEntity.1.index ≠ (⟨0, 0⟩ : Entity).index ∨
        (m1.CreateEntity.1.index = (⟨0, 0⟩ : Entity).index ∧
          m1.CreateEntity.1.generation =
            ((⟨0, 0⟩ : Entity).generation + 1) % 2 ^ generationBits ∧
          ((⟨0, 0⟩ : Entity).generation + 1 < 2 ^ generationBits →
            (⟨0, 0⟩ : Entity).generation < m1.CreateEntity.1.generation))) ∧
      m1.CreateEntity.2.HasEntity m1.CreateEntity.1 = true ∧
      m1.CreateEntity.2.HasEntity ⟨0, 0⟩ = false :=
  ⟨by decide, RemoveEntity_then_CreateEntity Manager.new.CreateEntity.2 ⟨0, 0⟩ (by decide)⟩

/-- After `n > 0` rounds of creating and removing an entity in a new store, the registry
has the one index 0, free, at generation `n` reduced to the width of the counter. -/
theorem recycled_registry (n : Nat) (hn : 0 < n) :
    ∃ m, recycled n = some m ∧
      m.m_Registry = ⟨[(n % 2 ^ generationBits, false)], [0], []⟩ := by
  induction n with
  | zero => omega
  | succ k ih =>
    by_cases hk : k = 0
    · subst hk
      exact ⟨(Manager.new.CreateEntity.2.RemoveEntity Manager.new.CreateEntity.1).getD
        Manager.new, by decide, by decide⟩
    · obtain ⟨m, hm, hreg⟩ := ih (by omega)
      have hc : m.m_Registry.create =
          (⟨0, k % 2 ^ generationBits⟩, ⟨[(k % 2 ^ generationBits, true)], [], []⟩) := by
        rw [hreg]; simp [Registry.create]
      have hvalid : m.CreateEntity.2.HasEntity m.CreateEntity.1 = true := by
        simp [Manager.CreateEntity, Manager.SignalEvent, Manager.HasEntity, hc,
          Registry.valid]
      have hr := RemoveEntity_of_valid _ _ hvalid
      refine ⟨_, by simp only [recycled, hm, Option.bind_some]; exact hr, ?_⟩
      simp [Manager.CreateEntity, Manager.SignalEvent, hc, Registry.destroy, Nat.add_mod]

/-- Claim C22, counterexample. After `2 ^ generationBits - 1` rounds of creating and
removing an entity in a new store, `CreateEntity()` returns the entity `e` of index 0 at
the last generation. `RemoveEntity(e)` followed by `CreateEntity()` gives the entity of
index 0 and generation 0: the same index with a smaller generation. -/
theorem generation_wraps_to_zero :
    ∃ m, recycled (2 ^ generationBits - 1) = some m ∧
      m.CreateEntity.1 = ⟨0, 2 ^ generationBits - 1⟩ ∧
      m.CreateEntity.2.HasEntity ⟨0, 2 ^ generationBits - 1⟩ = true ∧
      ∃ m1, m.CreateEntity.2.RemoveEntity ⟨0, 2 ^ generationBits - 1⟩ = some m1 ∧
        m1.CreateEntity.1 = ⟨0, 0⟩ ∧
        m1.CreateEntity.1.index = (⟨0, 2 ^ generationBits - 1⟩ : Entity).index ∧
        ¬ ((⟨0, 2 ^ generationBits - 1⟩ : Entity).generation <
          m1.CreateEntity.1.generation) := by
  obtain ⟨m, hm, hreg⟩ := recycled_registry (2 ^ generationBits - 1) (by decide)
  have hmod : (2 ^ generationBits - 1) % 2 ^ generationBits = 2 ^ generationBits - 1 := by
    decide
  rw [hmod] at hreg
  have hc : m.m_Registry.create =
      (⟨0, 2 ^ generationBits - 1⟩, ⟨[(2 ^ generationBits - 1, true)], [], []⟩) := by
    rw [hreg]; simp [Registry.create]
  have he : m.CreateEntity.1 = ⟨0, 2 ^ generationBits - 1⟩ := by
    simp [Manager.CreateEntity, hc]
  have hvalid : m.CreateEntity.2.HasEntity ⟨0, 2 ^ generationBits - 1⟩ = true := by
    simp [Manager.CreateEntity, Manager.SignalEvent, Manager.HasEntity, hc, Registry.valid]
  have hwrap : (2 ^ generationBits - 1 + 1) % 2 ^ generationBits = 0 := by decide
  have hr := RemoveEntity_of_valid _ _ hvalid
  have hcd := create_destroy m.CreateEntity.2.m_Registry ⟨0, 2 ^ generationBits - 1⟩ hvalid
  have hnext : (m.CreateEntity.2.m_Registry.destroy ⟨0, 2 ^ generationBits - 1⟩).create.1 =
      ⟨0, 0⟩ := by
    rw [hcd]; simp only [hwrap]
  refine ⟨m, hm, he, hvalid, _, hr, hnext, ?_, ?_⟩
  · have hi := congrArg Entity.index hnext
    exact hi
  · have hg : (m.CreateEntity.2.m_Registry.destroy
        ⟨0, 2 ^ generationBits - 1⟩).create.1.generation = 0 :=
      congrArg Entity.generation hnext
    intro hlt
    have hlt2 : 2 ^ generationBits - 1 <
        (m.CreateEntity.2.m_Registry.destroy ⟨0, 2 ^ generationBits - 1⟩).create.1.generation :=
      hlt
    rw [hg] at hlt2
    exact Nat.not_lt_zero _ hlt2

end ECSManager
